import Mathlib

/-!
# ath10k firmware diagnostics: debug-log ring buffer and crash-dump builder

A shallow embedding of `drivers/net/wireless/ath/ath10k/debug.c` (with the
structures of `core.h` it uses) and theorems about it.

Conventions of the embedding.

* A C array `T a[N]` is a function `Nat → Nat` from index to element; only the
  values below `N` are part of the object.  An access whose index is not below
  `N` has no defined behaviour in C and makes the embedded operation return
  `none`.
* A `__le32` word is represented by its numeric value, so `le32_to_cpu` and
  `cpu_to_le32` are the identity on words and the memory image of a word is
  its four little-endian bytes.
* `u32` fields are natural numbers; where the C code computes in 32 bits the
  embedding reduces modulo `2 ^ 32` explicitly.
-/

namespace Ath10k

/-! ## Constants of `core.h` -/

/-- Macro `#define ATH10K_DBGLOG_DATA_LEN (128 * 7)`. -/
def ATH10K_DBGLOG_DATA_LEN : Nat := 128 * 7

/-- Macro `#define DBGLOG_NUM_ARGS_OFFSET 26`. -/
def DBGLOG_NUM_ARGS_OFFSET : Nat := 26

/-- Macro `#define DBGLOG_NUM_ARGS_MASK 0xFC000000`, bits 26-31. -/
def DBGLOG_NUM_ARGS_MASK : Nat := 0xFC000000

/-- Macro `#define DBGLOG_NUM_ARGS_MAX 5`, the firmware tool chain limit. -/
def DBGLOG_NUM_ARGS_MAX : Nat := 5

/-- Macro `#define ATH10K_ROM_BSS_BUF_LEN 30000`. -/
def ATH10K_ROM_BSS_BUF_LEN : Nat := 30000

/-- Macro `#define ATH10K_RAM_BSS_BUF_LEN 10000`. -/
def ATH10K_RAM_BSS_BUF_LEN : Nat := 10000

/-! ## Data model (`core.h`) -/

/-- Structure `struct ath10k_dbglog_entry_storage`: `head_idx` is where the next word is
written, `tail_idx` is the index of the first message, `data` is the array
`__le32 data[ATH10K_DBGLOG_DATA_LEN]`. -/
structure ath10k_dbglog_entry_storage where
  head_idx : Nat
  tail_idx : Nat
  data : Nat → Nat

/-- Structure `struct timespec`. -/
structure timespec where
  tv_sec : Int
  tv_nsec : Int

/-- Structure `struct ath10k_fw_crash_data`, the crash snapshot.  `uuid` is the 16 bytes
of the `uuid_le`; the other arrays are arrays of `__le32` words. -/
structure ath10k_fw_crash_data where
  crashed_since_read : Bool
  uuid : Nat → Nat
  timestamp : timespec
  registers : Nat → Nat
  stack_buf : Nat → Nat
  exc_stack_buf : Nat → Nat
  stack_addr : Nat
  exc_stack_addr : Nat
  rom_bss_buf : Nat → Nat
  ram_bss_buf : Nat → Nat

/-- Structure `struct ath10k_debug`, restricted to the members the diagnostics code
uses.  `fw_crash_data` is a pointer: `none` is `NULL`. -/
structure ath10k_debug where
  dbglog_entry_data : ath10k_dbglog_entry_storage
  fw_crash_data : Option ath10k_fw_crash_data

/-- The anonymous `fw` member of `struct ath10k`. -/
structure ath10k_fw where
  ram_bss_addr : Nat
  ram_bss_len : Nat
  rom_bss_addr : Nat
  rom_bss_len : Nat

/-- Structure `struct ath10k`, restricted to the members the diagnostics code uses.
`fw_version` is the string `ar->hw->wiphy->fw_version`, as its bytes. -/
structure ath10k where
  chip_id : Nat
  target_version : Nat
  fw_version_major : Nat
  fw_version_minor : Nat
  fw_version_release : Nat
  fw_version_build : Nat
  phy_capability : Nat
  hw_min_tx_power : Nat
  hw_max_tx_power : Nat
  ht_cap_info : Nat
  vht_cap_info : Nat
  num_rf_chains : Nat
  fw_version : List Nat
  fw : ath10k_fw
  debug : ath10k_debug

/-! ## The debug-log ring buffer (`debug.c`, lines 1093-1155) -/

/-- The argument count of a log header word:
`(lg_hdr & DBGLOG_NUM_ARGS_MASK) >> DBGLOG_NUM_ARGS_OFFSET`. -/
def dbglog_num_args (lg_hdr : Nat) : Nat :=
  (lg_hdr &&& DBGLOG_NUM_ARGS_MASK) >>> DBGLOG_NUM_ARGS_OFFSET

/-- Function `ath10k_dbg_drop_dbg_buffer`: find the next message boundary.  The log
header is the second word of the message at `tail_idx`.  The only array access
is the read of `data[h_idx]`, and `h_idx` is a remainder modulo the array
length.  (`tail_idx` is held in a C `int`; the natural numbers used here agree
with it for every index the driver stores, all below the array length.) -/
def ath10k_dbg_drop_dbg_buffer (d : ath10k_dbglog_entry_storage) :
    ath10k_dbglog_entry_storage :=
  let tail_idx := d.tail_idx
  let h_idx := (tail_idx + 1) % ATH10K_DBGLOG_DATA_LEN
  let lg_hdr := d.data h_idx
  let acnt := dbglog_num_args lg_hdr
  if acnt > DBGLOG_NUM_ARGS_MAX then
    { d with tail_idx := d.head_idx }
  else
    { d with tail_idx := (tail_idx + acnt + 2) % ATH10K_DBGLOG_DATA_LEN }

/-- The `for` loop of `ath10k_dbg_save_fw_dbg_buffer`, one iteration per word
of `buffer`; `z` is the local write position.  The third argument and the
second component of the result are a ghost counter of the calls of
`ath10k_dbg_drop_dbg_buffer`; it influences nothing.  The write `data[z]` is
the only array write; a write position outside the array gives `none`. -/
def dbg_save_loop : ath10k_dbglog_entry_storage → Nat → Nat → List Nat →
    Option (ath10k_dbglog_entry_storage × Nat)
  | d, _, drops, [] => some (d, drops)
  | d, z, drops, w :: buffer =>
    if z < ATH10K_DBGLOG_DATA_LEN then
      let d1 := { d with data := fun i => if i = z then w else d.data i }
      let z1 := if z + 1 ≥ ATH10K_DBGLOG_DATA_LEN then 0 else z + 1
      let hit := decide (z1 = d1.tail_idx)
      let d2 := if hit then ath10k_dbg_drop_dbg_buffer d1 else d1
      dbg_save_loop { d2 with head_idx := z1 } z1 (if hit then drops + 1 else drops) buffer
    else none

/-- Function `ath10k_dbg_save_fw_dbg_buffer(ar, buffer, len)` with `buffer` the list of
its `len` words, together with the number of eviction steps it ran.  Nothing
is saved while a crash snapshot exists that user space has not read. -/
def ath10k_dbg_save_fw_dbg_buffer_traced (ar : ath10k) (buffer : List Nat) :
    Option (ath10k × Nat) :=
  let z := ar.debug.dbglog_entry_data.head_idx
  if (match ar.debug.fw_crash_data with
      | some crash_data => crash_data.crashed_since_read
      | none => false) then
    some (ar, 0)
  else
    (dbg_save_loop ar.debug.dbglog_entry_data z 0 buffer).map
      (fun r => ({ ar with debug := { ar.debug with dbglog_entry_data := r.1 } }, r.2))

/-- Function `ath10k_dbg_save_fw_dbg_buffer(ar, buffer, len)`: the state it leaves. -/
def ath10k_dbg_save_fw_dbg_buffer (ar : ath10k) (buffer : List Nat) : Option ath10k :=
  (ath10k_dbg_save_fw_dbg_buffer_traced ar buffer).map Prod.fst

/-- The number of calls of `ath10k_dbg_drop_dbg_buffer` made by one
`ath10k_dbg_save_fw_dbg_buffer`. -/
def ath10k_dbg_save_fw_dbg_buffer_drops (ar : ath10k) (buffer : List Nat) : Option Nat :=
  (ath10k_dbg_save_fw_dbg_buffer_traced ar buffer).map Prod.snd

/-- A sequence of `ath10k_dbg_save_fw_dbg_buffer` calls, one per batch, each
on the state the previous one left: the final state and the total number of
eviction steps. -/
def dbg_save_all (ar : ath10k) : List (List Nat) → Option (ath10k × Nat)
  | [] => some (ar, 0)
  | buffer :: batches =>
    match ath10k_dbg_save_fw_dbg_buffer_traced ar buffer with
    | none => none
    | some (ar1, n) => (dbg_save_all ar1 batches).map (fun r => (r.1, n + r.2))

/-- The total number of words of a sequence of batches. -/
def total_words (batches : List (List Nat)) : Nat :=
  (batches.map List.length).sum

/-- No unread crash snapshot: the test at the top of
`ath10k_dbg_save_fw_dbg_buffer` fails. -/
def no_unread_snapshot (ar : ath10k) : Prop :=
  ∀ crash_data, ar.debug.fw_crash_data = some crash_data →
    crash_data.crashed_since_read = false

/-- A driver state with an empty ring buffer, all words zero, no snapshot
allocated; used to evaluate the operations on concrete inputs. -/
def ar_empty : ath10k :=
  { chip_id := 0, target_version := 0, fw_version_major := 0, fw_version_minor := 0,
    fw_version_release := 0, fw_version_build := 0, phy_capability := 0,
    hw_min_tx_power := 0, hw_max_tx_power := 0, ht_cap_info := 0, vht_cap_info := 0,
    num_rf_chains := 0, fw_version := [],
    fw := { ram_bss_addr := 0, ram_bss_len := 0, rom_bss_addr := 0, rom_bss_len := 0 },
    debug := { dbglog_entry_data := { head_idx := 0, tail_idx := 0, data := fun _ => 0 },
               fw_crash_data := none } }

/-- A snapshot with all contents zero and the given unread flag. -/
def crash_data_zero (crashed : Bool) : ath10k_fw_crash_data :=
  { crashed_since_read := crashed, uuid := fun _ => 0,
    timestamp := { tv_sec := 0, tv_nsec := 0 },
    registers := fun _ => 0, stack_buf := fun _ => 0, exc_stack_buf := fun _ => 0,
    stack_addr := 0, exc_stack_addr := 0, rom_bss_buf := fun _ => 0,
    ram_bss_buf := fun _ => 0 }

/-- The empty driver state with a snapshot allocated, unread or not. -/
def ar_snapshot (crashed : Bool) : ath10k :=
  { ar_empty with
    debug := { ar_empty.debug with fw_crash_data := some (crash_data_zero crashed) } }

/-- A ring one word short of meeting its tail (head_idx 0, tail_idx 1) in
which the header word of the message at the tail, `data[2]`, carries the
argument count 6. -/
def ar_bad_header : ath10k :=
  { ar_empty with
    debug := { ar_empty.debug with
      dbglog_entry_data :=
        { head_idx := 0, tail_idx := 1,
          data := fun i => if i = 2 then 0x18000000 else 0 } } }

/-- Ten messages of 3 words each (one argument), as one stream of 30 words. -/
def ten_messages : List Nat :=
  (List.replicate 10 [7, 0x04000000, 9]).flatten

/-- A stream of 300 messages of 3 words each, 900 words, more than the ring
holds. -/
def stream_msgs : List (List Nat) := List.replicate 300 [7, 0x04000000, 9]

/-- The stream `stream_msgs` without its first two words. -/
def stream_rest : List Nat := 9 :: (List.replicate 299 [7, 0x04000000, 9]).flatten

/-- A well-formed log message: two header words followed by `argc` argument
words, where `argc` is at most `DBGLOG_NUM_ARGS_MAX` and is the value of the
argument-count field of the second word. -/
def dbglog_msg_ok : List Nat → Bool
  | _ :: hdr :: args =>
    dbglog_num_args hdr == args.length && decide (args.length ≤ DBGLOG_NUM_ARGS_MAX)
  | _ => false

/-- The relation between a ring and the stream of messages `msgs` after the
first `W` words of the stream have been appended to the empty ring: the tail
is the ring position of the stream position `T` at which the messages `done`
end, the head is the ring position of `W`, at most 895 words lie between
them, and each of them is stored at its ring position. -/
def ring_inv (msgs : List (List Nat)) (d : ath10k_dbglog_entry_storage) (W : Nat)
    (done : List (List Nat)) : Prop :=
  (∃ rest, msgs = done ++ rest) ∧
  done.flatten.length ≤ W ∧ W ≤ done.flatten.length + 895 ∧
  d.head_idx = W % 896 ∧ d.tail_idx = done.flatten.length % 896 ∧
  ∀ p, done.flatten.length ≤ p → p < W → msgs.flatten[p]? = some (d.data (p % 896))

/-! ## The crash-dump builder (`debug.c`, lines 57-133 and 1157-1313) -/

/-- Constants used by the builder whose definitions are outside the files at
hand: `REG_DUMP_COUNT_QCA988X` and `ATH10K_FW_STACK_SIZE` size the register
and stack arrays of `struct ath10k_fw_crash_data`; `ETHTOOL_FWVERS_LEN`,
`LINUX_VERSION_CODE`, `VERMAGIC_STRING` (as its bytes) and the error number
`ENODATA` come from the kernel headers. -/
structure kernel_consts where
  REG_DUMP_COUNT_QCA988X : Nat
  ATH10K_FW_STACK_SIZE : Nat
  ETHTOOL_FWVERS_LEN : Nat
  LINUX_VERSION_CODE : Nat
  VERMAGIC_STRING : List Nat
  ENODATA : Nat

/-- Macro `#define ATH10K_FW_CRASH_DUMP_VERSION 1`. -/
def ATH10K_FW_CRASH_DUMP_VERSION : Nat := 1

/-- Enumeration `enum ath10k_fw_crash_dump_type`. -/
def ATH10K_FW_CRASH_DUMP_REGISTERS : Nat := 0
def ATH10K_FW_CRASH_DUMP_DBGLOG : Nat := 1
def ATH10K_FW_CRASH_DUMP_STACK : Nat := 2
def ATH10K_FW_CRASH_DUMP_EXC_STACK : Nat := 3
def ATH10K_FW_CRASH_DUMP_RAM_BSS : Nat := 4
def ATH10K_FW_CRASH_DUMP_ROM_BSS : Nat := 5

/-- The value of an `unsigned int` expression: reduction modulo `2 ^ 32`. -/
def u32 (x : Int) : Nat := (x % 2 ^ 32).toNat

/-- The value of a 32-bit quantity stored in a C `int`. -/
def int_of_u32 (x : Nat) : Int := if x < 2 ^ 31 then (x : Int) else (x : Int) - 2 ^ 32

/-- The four bytes of `cpu_to_le32(x)`, least significant first. -/
def le32 (x : Nat) : List Nat :=
  [x % 256, x / 256 % 256, x / 65536 % 256, x / 16777216 % 256]

/-- The eight bytes of `cpu_to_le64(x)` for a signed 64-bit `x`. -/
def le64 (x : Int) : List Nat :=
  let n := (x % 2 ^ 64).toNat
  le32 n ++ le32 (n / 4294967296)

/-- The memory image of the first `n` words of an array of `__le32`. -/
def mem_le32 (a : Nat → Nat) (n : Nat) : List Nat :=
  ((List.range n).map (fun i => le32 (a i))).flatten

/-- The memory image of the first `n` bytes of an array of `u8`. -/
def mem_u8 (a : Nat → Nat) (n : Nat) : List Nat :=
  (List.range n).map (fun i => a i % 256)

/-- The contents of a zeroed `char dst[size]` after `strlcpy(dst, src, size)`:
the string `src` (the bytes before its first NUL) cut to `size - 1` bytes,
then NUL bytes up to `size`. -/
def strlcpy_field (size : Nat) (src : List Nat) : List Nat :=
  let s := (src.takeWhile (fun c => c != 0)).take (size - 1)
  s ++ List.replicate (size - s.length) 0

/-- The bytes of the string "ATH10K-FW-DUMP". -/
def df_magic_string : List Nat :=
  [65, 84, 72, 49, 48, 75, 45, 70, 87, 45, 68, 85, 77, 80]

/-- Size `sizeof(struct ath10k_tlv_dump_data)`: two packed `__le32`. -/
def sizeof_tlv_dump_data : Nat := 4 + 4

/-- Size `sizeof(struct ath10k_dump_file_data)` (packed): magic 16, len 4, version
4, uuid 16, chip_id 4, bus_type 4, eleven `__le32` 44, `fw_ver`, two `__le64`
16, kernel_ver_code 4, kernel_ver 64, four addresses 16, unused 112. -/
def sizeof_dump_file_data (k : kernel_consts) : Nat :=
  16 + 4 + 4 + 16 + 4 + 4 + 11 * 4 + k.ETHTOOL_FWVERS_LEN + 8 + 8 + 4 + 64 + 4 * 4 + 112

/-- Size `sizeof(crash_data->registers)`. -/
def sizeof_registers (k : kernel_consts) : Nat := 4 * k.REG_DUMP_COUNT_QCA988X

/-- Size `sizeof(crash_data->stack_buf)`, also that of `exc_stack_buf`: the arrays
have `ATH10K_FW_STACK_SIZE / sizeof(__le32)` words. -/
def sizeof_stack_buf (k : kernel_consts) : Nat := 4 * (k.ATH10K_FW_STACK_SIZE / 4)

/-- Size `sizeof(ar->debug.dbglog_entry_data)`, equal to that of
`struct ath10k_dbglog_entry_storage_user` (the `BUILD_BUG_ON`). -/
def sizeof_dbglog_entry_data : Nat := 4 + 4 + 4 * ATH10K_DBGLOG_DATA_LEN

/-- The header `struct ath10k_dump_file_data` as the builder fills it, field by
field in the order of the structure; the buffer comes from `vzalloc`, so the
`unused` field and the bytes after a string are zero. -/
def dump_file_header (k : kernel_consts) (ar : ath10k) (crash_data : ath10k_fw_crash_data)
    (len : Nat) : List Nat :=
  strlcpy_field 16 df_magic_string                -- df_magic
  ++ le32 len                                     -- len
  ++ le32 ATH10K_FW_CRASH_DUMP_VERSION            -- version
  ++ mem_u8 crash_data.uuid 16                    -- uuid
  ++ le32 ar.chip_id                              -- chip_id
  ++ le32 0                                       -- bus_type
  ++ le32 ar.target_version
  ++ le32 ar.fw_version_major
  ++ le32 ar.fw_version_minor
  ++ le32 ar.fw_version_release
  ++ le32 ar.fw_version_build
  ++ le32 ar.phy_capability
  ++ le32 ar.hw_min_tx_power
  ++ le32 ar.hw_max_tx_power
  ++ le32 ar.ht_cap_info
  ++ le32 ar.vht_cap_info
  ++ le32 ar.num_rf_chains
  ++ strlcpy_field k.ETHTOOL_FWVERS_LEN ar.fw_version   -- fw_ver
  ++ le64 crash_data.timestamp.tv_sec             -- tv_sec
  ++ le64 crash_data.timestamp.tv_nsec            -- tv_nsec
  ++ le32 k.LINUX_VERSION_CODE                    -- kernel_ver_code
  ++ strlcpy_field 64 k.VERMAGIC_STRING           -- kernel_ver
  ++ le32 crash_data.stack_addr
  ++ le32 crash_data.exc_stack_addr
  ++ le32 ar.fw.rom_bss_addr
  ++ le32 ar.fw.ram_bss_addr
  ++ List.replicate 112 0                         -- unused

/-- A store of `bytes` at offset `off` of the allocation `buf`; `none` when
the store does not lie inside the allocation. -/
def buf_write (buf : List Nat) (off : Nat) (bytes : List Nat) : Option (List Nat) :=
  if off + bytes.length ≤ buf.length then
    some (buf.take off ++ bytes ++ buf.drop (off + bytes.length))
  else none

/-- The bytes `memcpy(dst, src, n)` reads from the object whose memory image is
`src`, for `n` held in an `int`; `none` when the read does not lie inside the
object (a negative `n` converts to a huge `size_t`). -/
def memcpy_from (src : List Nat) (n : Int) : Option (List Nat) :=
  if 0 ≤ n ∧ n ≤ (src.length : Int) then some (src.take n.toNat) else none

/-- The state of the emission: the buffer, `none` once a copy has left its
source object or the allocation, and the running offset `sofar`. -/
structure dump_cursor where
  buf : Option (List Nat)
  sofar : Nat

/-- One TLV record written at `buf + sofar`: the type, `tlv_len`, the payload,
then `sofar += size` with `size` the value of
`sizeof(*dump_tlv) + <payload size>`. -/
def put_tlv (c : dump_cursor) (type : Nat) (tlv_len : Nat) (payload : Option (List Nat))
    (size : Int) : dump_cursor :=
  { buf :=
      match c.buf, payload with
      | some b, some p => buf_write b c.sofar (le32 type ++ le32 tlv_len ++ p)
      | _, _ => none
    sofar := u32 (c.sofar + size) }

/-- The precomputed total length `len` (lines 1171-1181). -/
def dump_len (k : kernel_consts) (ar : ath10k) : Nat :=
  let hdr_len : Int := int_of_u32 (sizeof_dump_file_data k)
  let len := u32 hdr_len
  let len := u32 (len + (sizeof_tlv_dump_data + sizeof_registers k : Nat))
  let len := u32 (len + (sizeof_tlv_dump_data + sizeof_dbglog_entry_data : Nat))
  let len := u32 (len + (sizeof_tlv_dump_data + sizeof_stack_buf k : Nat))
  let len := u32 (len + (sizeof_tlv_dump_data + sizeof_stack_buf k : Nat))
  let len :=
    if ar.fw.ram_bss_addr ≠ 0 ∧ ar.fw.ram_bss_len ≠ 0 then
      u32 (len + (sizeof_tlv_dump_data + ar.fw.ram_bss_len : Nat))
    else len
  let len :=
    if ar.fw.rom_bss_addr ≠ 0 ∧ ar.fw.rom_bss_len ≠ 0 then
      u32 (len + (sizeof_tlv_dump_data + ar.fw.rom_bss_len : Nat))
    else len
  len

/-- The header block (lines 1183 and 1200-1234): the zeroed allocation of `len`
bytes with the header stored at offset 0, and `sofar += hdr_len`. -/
def dump_emit_header (k : kernel_consts) (ar : ath10k) (crash_data : ath10k_fw_crash_data)
    (len : Nat) : dump_cursor :=
  let hdr_len : Int := int_of_u32 (sizeof_dump_file_data k)
  { buf := buf_write (List.replicate len 0) 0 (dump_file_header k ar crash_data len)
    sofar := u32 (0 + hdr_len) }

/-- The block "Gather crash-dump" (lines 1236-1242): the register record; the
payload and the advance are `sizeof(crash_data->registers)`. -/
def dump_emit_registers (k : kernel_consts) (crash_data : ath10k_fw_crash_data)
    (c : dump_cursor) : dump_cursor :=
  put_tlv c ATH10K_FW_CRASH_DUMP_REGISTERS (sizeof_registers k)
    (some (mem_le32 crash_data.registers k.REG_DUMP_COUNT_QCA988X))
    (sizeof_tlv_dump_data + sizeof_registers k : Nat)

/-- The block "Gather dbg-log" (lines 1244-1257): the payload is a
`struct ath10k_dbglog_entry_storage_user`, that is head_idx, tail_idx and the
data words of the ring. -/
def dump_emit_dbglog (ar : ath10k) (c : dump_cursor) : dump_cursor :=
  let tmp : Int := int_of_u32 sizeof_dbglog_entry_data
  put_tlv c ATH10K_FW_CRASH_DUMP_DBGLOG (u32 tmp)
    (some (le32 ar.debug.dbglog_entry_data.head_idx
      ++ le32 ar.debug.dbglog_entry_data.tail_idx
      ++ mem_le32 ar.debug.dbglog_entry_data.data ATH10K_DBGLOG_DATA_LEN))
    (sizeof_tlv_dump_data + tmp)

/-- The block "Gather firmware stack dump" (lines 1259-1265). -/
def dump_emit_stack (k : kernel_consts) (crash_data : ath10k_fw_crash_data)
    (c : dump_cursor) : dump_cursor :=
  let tmp : Int := int_of_u32 (sizeof_stack_buf k)
  put_tlv c ATH10K_FW_CRASH_DUMP_STACK (u32 tmp)
    (memcpy_from (mem_le32 crash_data.stack_buf (k.ATH10K_FW_STACK_SIZE / 4)) tmp)
    (sizeof_tlv_dump_data + tmp)

/-- The block "Gather firmware exception stack dump" (lines 1267-1273). -/
def dump_emit_exc_stack (k : kernel_consts) (crash_data : ath10k_fw_crash_data)
    (c : dump_cursor) : dump_cursor :=
  let tmp : Int := int_of_u32 (sizeof_stack_buf k)
  put_tlv c ATH10K_FW_CRASH_DUMP_EXC_STACK (u32 tmp)
    (memcpy_from (mem_le32 crash_data.exc_stack_buf (k.ATH10K_FW_STACK_SIZE / 4)) tmp)
    (sizeof_tlv_dump_data + tmp)

/-- The part of the emission that is always present (lines 1183 and
1200-1273): the header and the four fixed records, in this order. -/
def dump_emit_fixed (k : kernel_consts) (ar : ath10k) (crash_data : ath10k_fw_crash_data)
    (len : Nat) : dump_cursor :=
  dump_emit_exc_stack k crash_data
    (dump_emit_stack k crash_data
      (dump_emit_dbglog ar
        (dump_emit_registers k crash_data
          (dump_emit_header k ar crash_data len))))

/-- The RAM BSS record (lines 1275-1282), present when both an address and a
length are recorded. -/
def dump_emit_ram_bss (ar : ath10k) (crash_data : ath10k_fw_crash_data)
    (c : dump_cursor) : dump_cursor :=
  if ar.fw.ram_bss_addr ≠ 0 ∧ ar.fw.ram_bss_len ≠ 0 then
    let tmp : Int := int_of_u32 ar.fw.ram_bss_len
    put_tlv c ATH10K_FW_CRASH_DUMP_RAM_BSS (u32 tmp)
      (memcpy_from (mem_le32 crash_data.ram_bss_buf (ATH10K_RAM_BSS_BUF_LEN / 4)) tmp)
      (sizeof_tlv_dump_data + tmp)
  else c

/-- The ROM BSS record (lines 1284-1291), present when both an address and a
length are recorded. -/
def dump_emit_rom_bss (ar : ath10k) (crash_data : ath10k_fw_crash_data)
    (c : dump_cursor) : dump_cursor :=
  if ar.fw.rom_bss_addr ≠ 0 ∧ ar.fw.rom_bss_len ≠ 0 then
    let tmp : Int := int_of_u32 ar.fw.rom_bss_len
    put_tlv c ATH10K_FW_CRASH_DUMP_ROM_BSS (u32 tmp)
      (memcpy_from (mem_le32 crash_data.rom_bss_buf (ATH10K_ROM_BSS_BUF_LEN / 4)) tmp)
      (sizeof_tlv_dump_data + tmp)
  else c

/-- The whole emission (lines 1183 and 1200-1291): the header and the four
fixed records, then the RAM BSS record, then the ROM BSS record. -/
def dump_emit (k : kernel_consts) (ar : ath10k) (crash_data : ath10k_fw_crash_data)
    (len : Nat) : dump_cursor :=
  dump_emit_rom_bss ar crash_data
    (dump_emit_ram_bss ar crash_data (dump_emit_fixed k ar crash_data len))

/-- What a call of `ath10k_build_dump_file` does.
* `oops`: the buffer was allocated, `crash_data` is `NULL` and is dereferenced.
* `null`: the function returns `NULL` (no buffer, or no unread snapshot).
* `dump bytes warned`: it returns the buffer, whose `len` bytes are `bytes`;
  `warned` tells whether `WARN_ON(sofar != len)` fired.
* `dump_undefined warned`: it returns the buffer, but a copy made while
  filling it left its source object or the allocation, so that C gives the
  contents no meaning. -/
inductive build_outcome where
  | oops
  | null
  | dump (bytes : List Nat) (warned : Bool)
  | dump_undefined (warned : Bool)

/-- The outcome of a call that returns the buffer: its contents when every
copy stayed inside its objects. -/
def build_outcome.of_buf : Option (List Nat) → Bool → build_outcome
  | some bytes, warned => .dump bytes warned
  | none, warned => .dump_undefined warned

/-- Whether the call returned a buffer (a non-`NULL` pointer). -/
def build_outcome.returned_dump : build_outcome → Bool
  | .dump _ _ => true
  | .dump_undefined _ => true
  | _ => false

/-- Whether `WARN_ON(sofar != len)` fired. -/
def build_outcome.warned : build_outcome → Bool
  | .dump _ w => w
  | .dump_undefined w => w
  | _ => false

/-- The statement `ar->debug.fw_crash_data->crashed_since_read = false` (line
1293): the state after a build that returned a buffer. -/
def ar_after_build (ar : ath10k) (crash_data : ath10k_fw_crash_data) : ath10k :=
  { ar with debug := { ar.debug with
      fw_crash_data := some { crash_data with crashed_since_read := false } } }

/-- Function `ath10k_build_dump_file(ar)`: the outcome and the state it leaves.
`alloc_ok` tells whether `vzalloc(len)` yields a buffer. -/
def ath10k_build_dump_file (k : kernel_consts) (ar : ath10k) (alloc_ok : Bool) :
    build_outcome × ath10k :=
  let len := dump_len k ar
  if !alloc_ok then (.null, ar)
  else
    match ar.debug.fw_crash_data with
    | none => (.oops, ar)
    | some crash_data =>
      if !crash_data.crashed_since_read then (.null, ar)
      else
        let c := dump_emit k ar crash_data len
        let ar1 : ath10k := ar_after_build ar crash_data
        let warned := c.sofar != len
        (build_outcome.of_buf c.buf warned, ar1)

/-- Function `ath10k_fw_crash_dump_open`: the return value, the `private_data` it stores
(the outcome of the build) and the state. -/
def ath10k_fw_crash_dump_open (k : kernel_consts) (ar : ath10k) (alloc_ok : Bool) :
    Int × build_outcome × ath10k :=
  let r := ath10k_build_dump_file k ar alloc_ok
  if r.1.returned_dump then (0, r.1, r.2) else (-(k.ENODATA : Int), r.1, r.2)

/-! ### Reading a dump back

The reader described by the round-trip property: skip the fixed-size header,
then read consecutive records, each a 4-byte little-endian type, a 4-byte
little-endian length and a payload of that length. -/

/-- The value of four little-endian bytes. -/
def le32_decode : List Nat → Nat
  | [b0, b1, b2, b3] => b0 + 256 * b1 + 65536 * b2 + 16777216 * b3
  | _ => 0

/-- Consecutive TLV records, as pairs of type and payload; reading stops at
the first record that does not fit in the remaining bytes.  The first argument
bounds the number of records. -/
def parse_tlvs : Nat → List Nat → List (Nat × List Nat)
  | fuel + 1, t0 :: t1 :: t2 :: t3 :: l0 :: l1 :: l2 :: l3 :: rest =>
    let tlv_len := le32_decode [l0, l1, l2, l3]
    if tlv_len ≤ rest.length then
      (le32_decode [t0, t1, t2, t3], rest.take tlv_len)
        :: parse_tlvs fuel (rest.drop tlv_len)
    else []
  | _, _ => []

/-- The records of a dump blob: those after its header.  Every record has at
least 8 bytes, so the length of the blob bounds their number. -/
def parse_dump (k : kernel_consts) (blob : List Nat) : List (Nat × List Nat) :=
  parse_tlvs blob.length (blob.drop (sizeof_dump_file_data k))

/-- The payload of the first record of the given type. -/
def tlv_payload (type : Nat) (records : List (Nat × List Nat)) : Option (List Nat) :=
  (records.find? (fun r => r.1 == type)).map Prod.snd

/-- Constants for evaluating the builder on concrete inputs: 2 registers, a
stack of 8 bytes, a 4-byte firmware version field. -/
def k_small : kernel_consts :=
  { REG_DUMP_COUNT_QCA988X := 2, ATH10K_FW_STACK_SIZE := 8, ETHTOOL_FWVERS_LEN := 4,
    LINUX_VERSION_CODE := 0x031100, VERMAGIC_STRING := [51, 46, 49, 55], ENODATA := 61 }

/-- The bytes of one TLV record: type, `tlv_len`, payload. -/
def tlv_bytes (type tlv_len : Nat) (payload : List Nat) : List Nat :=
  le32 type ++ le32 tlv_len ++ payload

/-- The cursor `c` points into an allocation of `len` bytes whose first
`c.sofar` bytes are `pre`. -/
def written (c : dump_cursor) (len : Nat) (pre : List Nat) : Prop :=
  ∃ b, c.buf = some b ∧ b.length = len ∧ c.sofar = pre.length ∧ pre.length ≤ len ∧
    b.take pre.length = pre

/-- The header and the four fixed records of the dump of a state. -/
def dump_fixed_bytes (k : kernel_consts) (ar : ath10k) (cd : ath10k_fw_crash_data)
    (len : Nat) : List Nat :=
  dump_file_header k ar cd len
    ++ tlv_bytes ATH10K_FW_CRASH_DUMP_REGISTERS (sizeof_registers k)
        (mem_le32 cd.registers k.REG_DUMP_COUNT_QCA988X)
    ++ tlv_bytes ATH10K_FW_CRASH_DUMP_DBGLOG sizeof_dbglog_entry_data
        (le32 ar.debug.dbglog_entry_data.head_idx
          ++ le32 ar.debug.dbglog_entry_data.tail_idx
          ++ mem_le32 ar.debug.dbglog_entry_data.data ATH10K_DBGLOG_DATA_LEN)
    ++ tlv_bytes ATH10K_FW_CRASH_DUMP_STACK (sizeof_stack_buf k)
        (mem_le32 cd.stack_buf (k.ATH10K_FW_STACK_SIZE / 4))
    ++ tlv_bytes ATH10K_FW_CRASH_DUMP_EXC_STACK (sizeof_stack_buf k)
        (mem_le32 cd.exc_stack_buf (k.ATH10K_FW_STACK_SIZE / 4))

/-- The RAM BSS record of the dump of a state, empty when no RAM BSS region is
recorded. -/
def dump_ram_bss_bytes (ar : ath10k) (cd : ath10k_fw_crash_data) : List Nat :=
  if ar.fw.ram_bss_addr ≠ 0 ∧ ar.fw.ram_bss_len ≠ 0 then
    tlv_bytes ATH10K_FW_CRASH_DUMP_RAM_BSS ar.fw.ram_bss_len
      ((mem_le32 cd.ram_bss_buf (ATH10K_RAM_BSS_BUF_LEN / 4)).take ar.fw.ram_bss_len)
  else []

/-- The ROM BSS record of the dump of a state, empty when no ROM BSS region is
recorded. -/
def dump_rom_bss_bytes (ar : ath10k) (cd : ath10k_fw_crash_data) : List Nat :=
  if ar.fw.rom_bss_addr ≠ 0 ∧ ar.fw.rom_bss_len ≠ 0 then
    tlv_bytes ATH10K_FW_CRASH_DUMP_ROM_BSS ar.fw.rom_bss_len
      ((mem_le32 cd.rom_bss_buf (ATH10K_ROM_BSS_BUF_LEN / 4)).take ar.fw.rom_bss_len)
  else []

/-- The whole dump of a state whose sizes fit: the header, the four fixed
records, then the RAM BSS and ROM BSS records that are present. -/
def dump_bytes (k : kernel_consts) (ar : ath10k) (cd : ath10k_fw_crash_data)
    (len : Nat) : List Nat :=
  dump_fixed_bytes k ar cd len ++ dump_ram_bss_bytes ar cd ++ dump_rom_bss_bytes ar cd

/-- The sizes of a state fit: the fixed part of the dump is below 2^31 bytes
and the recorded BSS lengths do not exceed the BSS buffers of the snapshot. -/
def dump_fits (k : kernel_consts) (ar : ath10k) : Prop :=
  sizeof_dump_file_data k + sizeof_registers k + sizeof_stack_buf k + sizeof_stack_buf k
      < 2 ^ 31 ∧
    ar.fw.ram_bss_len ≤ ATH10K_RAM_BSS_BUF_LEN ∧
    ar.fw.rom_bss_len ≤ ATH10K_ROM_BSS_BUF_LEN

/-- The bytes of a sequence of TLV records, each with `tlv_len` the length of
its payload. -/
def records_bytes (rs : List (Nat × List Nat)) : List Nat :=
  (rs.map (fun r => tlv_bytes r.1 r.2.length r.2)).flatten

/-- An unread snapshot with all contents zero in a state that records a RAM
BSS region of 8 bytes and a ROM BSS length without an address. -/
def ar_snapshot_bss : ath10k :=
  { ar_snapshot true with
    fw := { ram_bss_addr := 0x400000, ram_bss_len := 8, rom_bss_addr := 0,
            rom_bss_len := 12 } }

/-! ## The capture of a crash snapshot -/

/-- Function `ath10k_debug_get_new_fw_crash_data(ar)` (lines 1079-1091): the state it
leaves and the snapshot its return value points to.  `new_uuid` is the 16
bytes `uuid_le_gen` generates and `now` the time `getnstimeofday` reads; with
`ar->debug.fw_crash_data` equal to `NULL` both stores go through a null
pointer, and the result is `none`. -/
def ath10k_debug_get_new_fw_crash_data (ar : ath10k) (new_uuid : Nat → Nat)
    (now : timespec) : Option (ath10k × ath10k_fw_crash_data) :=
  match ar.debug.fw_crash_data with
  | none => none
  | some crash_data =>
    let crash_data1 := { crash_data with uuid := new_uuid }
    let crash_data2 := { crash_data1 with timestamp := now }
    some ({ ar with debug := { ar.debug with fw_crash_data := some crash_data2 } },
      crash_data2)

/-- A unique id used to evaluate the capture on concrete inputs: bytes 1 to
16. -/
def uuid_example (i : Nat) : Nat := i + 1

/-- Another unique id: bytes 101 to 116. -/
def uuid_example2 (i : Nat) : Nat := i + 101

/-! ## The statistics decoder

The function `ath10k_debug_read_target_stats` of `debug.c` and the structures of
`core.h` it fills.  The wire structures of the event (`struct wmi_stats_event`,
`struct ath10k_reg_dump`, `struct wmi_pdev_stats_10x`, `struct wmi_peer_stats_10x`
and their sizes), the register ids and `TARGET_NUM_PEERS` are declared in headers
that are not part of the sources at hand; they are parameters of the
embedding, collected in `wmi_consts`.

The function receives no length: the payload `ev->data` is the list of the
bytes that lie inside the event buffer, and a read that leaves it is the fault
`read_past_buffer`.  A store to `peer_stat[i]` with `i` not below
`TARGET_NUM_PEERS` is the fault `peer_stat_overflow`. -/

/-- Structure `struct ath10k_peer_stat`; `peer_macaddr` is an array of `ETH_ALEN`
bytes. -/
structure ath10k_peer_stat where
  peer_macaddr : Nat → Nat
  peer_rssi : Nat
  peer_tx_rate : Nat
  peer_rx_rate : Nat

/-- Structure `struct ath10k_target_stats`.  The `s32` members are integers, the `u32`,
`u16` and `u8` members natural numbers; `peer_stat` is an array of
`TARGET_NUM_PEERS` entries. -/
structure ath10k_target_stats where
  ch_noise_floor : Int
  tx_frame_count : Nat
  rx_frame_count : Nat
  rx_clear_count : Nat
  cycle_count : Nat
  phy_err_count : Nat
  chan_tx_power : Nat
  ack_rx_bad : Nat
  rts_bad : Nat
  rts_good : Nat
  fcs_bad : Nat
  no_beacons : Nat
  mib_int_count : Nat
  comp_queued : Int
  comp_delivered : Int
  msdu_enqued : Int
  mpdu_enqued : Int
  wmm_drop : Int
  local_enqued : Int
  local_freed : Int
  hw_queued : Int
  hw_reaped : Int
  underrun : Int
  tx_abort : Int
  mpdus_requed : Int
  tx_ko : Nat
  data_rc : Nat
  self_triggers : Nat
  sw_retry_failure : Nat
  illgl_rate_phy_err : Nat
  pdev_cont_xretry : Nat
  pdev_tx_timeout : Nat
  pdev_resets : Nat
  phy_underrun : Nat
  txop_ovf : Nat
  mid_ppdu_route_change : Int
  status_rcvd : Int
  r0_frags : Int
  r1_frags : Int
  r2_frags : Int
  r3_frags : Int
  htt_msdus : Int
  htt_mpdus : Int
  loc_msdus : Int
  loc_mpdus : Int
  oversize_amsdu : Int
  phy_errs : Int
  phy_err_drop : Int
  mpdu_errs : Int
  peers : Nat
  peer_stat : Nat → ath10k_peer_stat
  mac_filter_addr_l32 : Nat
  mac_filter_addr_u16 : Nat
  dcu_slot_time : Nat
  phy_bb_mode_select : Nat
  pcu_bssid_l32 : Nat
  pcu_bssid_u16 : Nat
  pcu_bssid2_l32 : Nat
  pcu_bssid2_u16 : Nat
  pcu_sta_addr_l32 : Nat
  pcu_sta_addr_u16 : Nat
  mac_dma_cfg : Nat
  mac_dma_txcfg : Nat
  pcu_rxfilter : Nat
  phy_bb_gen_controls : Nat
  dma_imr : Nat
  dma_txrx_imr : Nat
  sw_powermode : Nat
  sw_chainmask_tx : Nat
  sw_chainmask_rx : Nat
  sw_opmode : Nat
  sw_rxfilter : Nat

/-- The members of `struct wmi_pdev_stats_10x` the decoder reads; `wal_tx_x` stands
for `wal.tx.x` and `wal_rx_x` for `wal.rx.x`.  The last six exist in the extended
(10X) layout only. -/
inductive wmi_pdev_field where
  | chan_nf
  | tx_frame_count
  | rx_frame_count
  | rx_clear_count
  | cycle_count
  | phy_err_count
  | chan_tx_pwr
  | wal_tx_comp_queued
  | wal_tx_comp_delivered
  | wal_tx_msdu_enqued
  | wal_tx_mpdu_enqued
  | wal_tx_wmm_drop
  | wal_tx_local_enqued
  | wal_tx_local_freed
  | wal_tx_hw_queued
  | wal_tx_hw_reaped
  | wal_tx_underrun
  | wal_tx_tx_abort
  | wal_tx_mpdus_requed
  | wal_tx_tx_ko
  | wal_tx_data_rc
  | wal_tx_self_triggers
  | wal_tx_sw_retry_failure
  | wal_tx_illgl_rate_phy_err
  | wal_tx_pdev_cont_xretry
  | wal_tx_pdev_tx_timeout
  | wal_tx_pdev_resets
  | wal_tx_phy_underrun
  | wal_tx_txop_ovf
  | wal_rx_mid_ppdu_route_change
  | wal_rx_status_rcvd
  | wal_rx_r0_frags
  | wal_rx_r1_frags
  | wal_rx_r2_frags
  | wal_rx_r3_frags
  | wal_rx_htt_msdus
  | wal_rx_htt_mpdus
  | wal_rx_loc_msdus
  | wal_rx_loc_mpdus
  | wal_rx_oversize_amsdu
  | wal_rx_phy_errs
  | wal_rx_phy_err_drop
  | wal_rx_mpdu_errs
  | ack_rx_bad
  | rts_bad
  | rts_good
  | fcs_bad
  | no_beacons
  | mib_int_count

/-- The declarations the decoder takes from headers outside the sources at
hand: `WMI_REQUEST_REGISTER_DUMP`, `TARGET_NUM_PEERS`, `ETH_ALEN`, the register ids of
the `switch`, and the layout of the wire structures (member offsets and
sizes). -/
structure wmi_consts where
  WMI_REQUEST_REGISTER_DUMP : Nat
  TARGET_NUM_PEERS : Nat
  ETH_ALEN : Nat
  REG_DUMP_NONE : Nat
  MAC_FILTER_ADDR_L32 : Nat
  MAC_FILTER_ADDR_U16 : Nat
  DCU_SLOT_TIME : Nat
  PHY_BB_MODE_SELECT : Nat
  PCU_BSSID_L32 : Nat
  PCU_BSSID_U16 : Nat
  PCU_BSSID2_L32 : Nat
  PCU_BSSID2_U16 : Nat
  PCU_STA_ADDR_U16 : Nat
  MAC_DMA_CFG : Nat
  MAC_DMA_TXCFG : Nat
  PCU_STA_ADDR_L32 : Nat
  PCU_RXFILTER : Nat
  PHY_BB_GEN_CONTROLS : Nat
  DMA_IMR : Nat
  DMA_TXRX_IMR : Nat
  SW_POWERMODE : Nat
  SW_CHAINMASK : Nat
  SW_OPMODE : Nat
  SW_RXFILTER : Nat
  offsetof_count : Nat
  offsetof_regpair : Nat
  sizeof_regpair : Nat
  offsetof_reg_id : Nat
  offsetof_reg_val : Nat
  pdev_off : wmi_pdev_field → Nat
  sizeof_wmi_pdev_stats_10x : Nat
  sizeof_wmi_pdev_stats_old : Nat
  sizeof_wmi_vdev_stats : Nat
  offsetof_peer_macaddr : Nat
  offsetof_peer_rssi : Nat
  offsetof_peer_tx_rate : Nat
  offsetof_peer_rx_rate : Nat
  sizeof_wmi_peer_stats_10x : Nat
  sizeof_wmi_peer_stats_old : Nat

/-- Structure `struct wmi_stats_event` as the decoder uses it: the four `__le32`
header members and `data`, the bytes of the payload that lie inside the event
buffer. -/
structure wmi_stats_event where
  stats_id : Nat
  num_pdev_stats : Nat
  num_vdev_stats : Nat
  num_peer_stats : Nat
  data : List Nat

/-- The ways the decoder leaves the objects it was given. -/
inductive stats_fault where
  | read_past_buffer
  | peer_stat_overflow

/-- Enumeration constant `ATH10K_FW_FEATURE_WMI_10X = 1` of `enum ath10k_fw_features`. -/
def ATH10K_FW_FEATURE_WMI_10X : Nat := 1

/-- Function `test_bit(nr, addr)` on a bitmap given as a number. -/
def test_bit (nr : Nat) (bitmap : Nat) : Bool := bitmap / 2 ^ nr % 2 == 1

/-- The `n` bytes at offset `off` of the payload. -/
def u8s_at (data : List Nat) (off n : Nat) : List Nat :=
  ((data.drop off).take n).map (fun b => b % 256)

/-- The value of two little-endian bytes. -/
def le16_decode : List Nat → Nat
  | [b0, b1] => b0 + 256 * b1
  | _ => 0

/-- The value of the `__le16` at offset `off` of the payload. -/
def le16_at (data : List Nat) (off : Nat) : Nat := le16_decode (u8s_at data off 2)

/-- The value of the `__le32` at offset `off` of the payload. -/
def le32_at (data : List Nat) (off : Nat) : Nat := le32_decode (u8s_at data off 4)

/-- A read of `n` bytes at offset `off` of the payload: a fault when they do
not all lie inside it. -/
def rd8s (data : List Nat) (off n : Nat) : Except stats_fault (List Nat) :=
  if off + n ≤ data.length then .ok (u8s_at data off n) else .error .read_past_buffer

/-- The read `__le16_to_cpu(x)` of the `__le16` at offset `off` of the payload. -/
def rd16 (data : List Nat) (off : Nat) : Except stats_fault Nat :=
  if off + 2 ≤ data.length then .ok (le16_at data off) else .error .read_past_buffer

/-- The read `__le32_to_cpu(x)` of the `__le32` at offset `off` of the payload. -/
def rd32 (data : List Nat) (off : Nat) : Except stats_fault Nat :=
  if off + 4 ≤ data.length then .ok (le32_at data off) else .error .read_past_buffer

/-- The value an `int` takes from `__le32_to_cpu` of a header member. -/
def le32_to_int (x : Nat) : Int := int_of_u32 (x % 2 ^ 32)

/-- A case of the `switch` that stores the value of the pair:
`__le32_to_cpu(regdump->regpair[i].reg_val)` is read at offset `off` and the
assignments `store` are made with it. -/
def store_reg_val (data : List Nat) (off : Nat) (store : Nat → ath10k_target_stats) :
    Except stats_fault ath10k_target_stats :=
  match rd32 data off with
  | .error e => .error e
  | .ok reg_val => .ok (store reg_val)

/-- One iteration of the register loop (lines 299-363): the `switch` on the id
of pair `i`, its cases in the order of the source (the labels of a `switch`
are distinct, so that at most one case applies). -/
def read_reg_pair (k : wmi_consts) (data : List Nat) (stats : ath10k_target_stats)
    (i : Nat) : Except stats_fault ath10k_target_stats :=
  let regpair := k.offsetof_regpair + i * k.sizeof_regpair
  match rd16 data (regpair + k.offsetof_reg_id) with
  | .error e => .error e
  | .ok reg_id =>
    if reg_id = k.REG_DUMP_NONE then
      .ok stats
    else if reg_id = k.MAC_FILTER_ADDR_L32 then
      store_reg_val data (regpair + k.offsetof_reg_val) fun reg_val =>
        { stats with mac_filter_addr_l32 := reg_val }
    else if reg_id = k.MAC_FILTER_ADDR_U16 then
      store_reg_val data (regpair + k.offsetof_reg_val) fun reg_val =>
        { stats with mac_filter_addr_u16 := reg_val }
    else if reg_id = k.DCU_SLOT_TIME then
      store_reg_val data (regpair + k.offsetof_reg_val) fun reg_val =>
        { stats with dcu_slot_time := reg_val }
    else if reg_id = k.PHY_BB_MODE_SELECT then
      store_reg_val data (regpair + k.offsetof_reg_val) fun reg_val =>
        { stats with phy_bb_mode_select := reg_val }
    else if reg_id = k.PCU_BSSID_L32 then
      store_reg_val data (regpair + k.offsetof_reg_val) fun reg_val =>
        { stats with pcu_bssid_l32 := reg_val }
    else if reg_id = k.PCU_BSSID_U16 then
      store_reg_val data (regpair + k.offsetof_reg_val) fun reg_val =>
        { stats with pcu_bssid_u16 := reg_val }
    else if reg_id = k.PCU_BSSID2_L32 then
      store_reg_val data (regpair + k.offsetof_reg_val) fun reg_val =>
        { stats with pcu_bssid_l32 := reg_val }
    else if reg_id = k.PCU_BSSID2_U16 then
      store_reg_val data (regpair + k.offsetof_reg_val) fun reg_val =>
        { stats with pcu_bssid_u16 := reg_val }
    else if reg_id = k.PCU_STA_ADDR_U16 then
      store_reg_val data (regpair + k.offsetof_reg_val) fun reg_val =>
        { stats with pcu_sta_addr_u16 := reg_val }
    else if reg_id = k.MAC_DMA_CFG then
      store_reg_val data (regpair + k.offsetof_reg_val) fun reg_val =>
        { stats with mac_dma_cfg := reg_val }
    else if reg_id = k.MAC_DMA_TXCFG then
      store_reg_val data (regpair + k.offsetof_reg_val) fun reg_val =>
        { stats with mac_dma_txcfg := reg_val }
    else if reg_id = k.PCU_STA_ADDR_L32 then
      store_reg_val data (regpair + k.offsetof_reg_val) fun reg_val =>
        { stats with pcu_sta_addr_l32 := reg_val }
    else if reg_id = k.PCU_RXFILTER then
      store_reg_val data (regpair + k.offsetof_reg_val) fun reg_val =>
        { stats with pcu_rxfilter := reg_val }
    else if reg_id = k.PHY_BB_GEN_CONTROLS then
      store_reg_val data (regpair + k.offsetof_reg_val) fun reg_val =>
        { stats with phy_bb_gen_controls := reg_val }
    else if reg_id = k.DMA_IMR then
      store_reg_val data (regpair + k.offsetof_reg_val) fun reg_val =>
        { stats with dma_imr := reg_val }
    else if reg_id = k.DMA_TXRX_IMR then
      store_reg_val data (regpair + k.offsetof_reg_val) fun reg_val =>
        { stats with dma_txrx_imr := reg_val }
    else if reg_id = k.SW_POWERMODE then
      store_reg_val data (regpair + k.offsetof_reg_val) fun reg_val =>
        { stats with sw_powermode := reg_val }
    else if reg_id = k.SW_CHAINMASK then
      store_reg_val data (regpair + k.offsetof_reg_val) fun reg_val =>
        { stats with sw_chainmask_tx := reg_val / 2 ^ 16 % 2 ^ 16
                     sw_chainmask_rx := reg_val % 2 ^ 16 }
    else if reg_id = k.SW_OPMODE then
      store_reg_val data (regpair + k.offsetof_reg_val) fun reg_val =>
        { stats with sw_opmode := reg_val }
    else if reg_id = k.SW_RXFILTER then
      store_reg_val data (regpair + k.offsetof_reg_val) fun reg_val =>
        { stats with sw_rxfilter := reg_val }
    else
      .ok stats

/-- The register loop `for (i = 0; i < count; i++)`, with `n` iterations left. -/
def read_reg_dump_loop (k : wmi_consts) (data : List Nat) :
    Nat → Nat → ath10k_target_stats → Except stats_fault ath10k_target_stats
  | 0, _, stats => .ok stats
  | n + 1, i, stats =>
    match read_reg_pair k data stats i with
    | .error e => .error e
    | .ok stats1 => read_reg_dump_loop k data n (i + 1) stats1

/-- The register-dump branch (lines 296-366): `regdump->count` is read by the loop
condition, then the pairs are read in order. -/
def read_reg_dump (k : wmi_consts) (data : List Nat) (stats : ath10k_target_stats) :
    Except stats_fault ath10k_target_stats :=
  match rd16 data k.offsetof_count with
  | .error e => .error e
  | .ok count => read_reg_dump_loop k data count 0 stats

/-- The block `if (num_pdev_stats)` (lines 368-436) without the advance of `tmp`:
the record at offset `tmp` is read through the extended layout, the last six
members only with `ATH10K_FW_FEATURE_WMI_10X`. -/
def read_pdev_stats (k : wmi_consts) (fw_features : Nat) (data : List Nat) (tmp : Nat)
    (stats : ath10k_target_stats) : Except stats_fault ath10k_target_stats := do
  let ps := fun f => rd32 data (tmp + k.pdev_off f)
  let chan_nf ← ps .chan_nf
  let tx_frame_count ← ps .tx_frame_count
  let rx_frame_count ← ps .rx_frame_count
  let rx_clear_count ← ps .rx_clear_count
  let cycle_count ← ps .cycle_count
  let phy_err_count ← ps .phy_err_count
  let chan_tx_pwr ← ps .chan_tx_pwr
  let wal_tx_comp_queued ← ps .wal_tx_comp_queued
  let wal_tx_comp_delivered ← ps .wal_tx_comp_delivered
  let wal_tx_msdu_enqued ← ps .wal_tx_msdu_enqued
  let wal_tx_mpdu_enqued ← ps .wal_tx_mpdu_enqued
  let wal_tx_wmm_drop ← ps .wal_tx_wmm_drop
  let wal_tx_local_enqued ← ps .wal_tx_local_enqued
  let wal_tx_local_freed ← ps .wal_tx_local_freed
  let wal_tx_hw_queued ← ps .wal_tx_hw_queued
  let wal_tx_hw_reaped ← ps .wal_tx_hw_reaped
  let wal_tx_underrun ← ps .wal_tx_underrun
  let wal_tx_tx_abort ← ps .wal_tx_tx_abort
  let wal_tx_mpdus_requed ← ps .wal_tx_mpdus_requed
  let wal_tx_tx_ko ← ps .wal_tx_tx_ko
  let wal_tx_data_rc ← ps .wal_tx_data_rc
  let wal_tx_self_triggers ← ps .wal_tx_self_triggers
  let wal_tx_sw_retry_failure ← ps .wal_tx_sw_retry_failure
  let wal_tx_illgl_rate_phy_err ← ps .wal_tx_illgl_rate_phy_err
  let wal_tx_pdev_cont_xretry ← ps .wal_tx_pdev_cont_xretry
  let wal_tx_pdev_tx_timeout ← ps .wal_tx_pdev_tx_timeout
  let wal_tx_pdev_resets ← ps .wal_tx_pdev_resets
  let wal_tx_phy_underrun ← ps .wal_tx_phy_underrun
  let wal_tx_txop_ovf ← ps .wal_tx_txop_ovf
  let wal_rx_mid_ppdu_route_change ← ps .wal_rx_mid_ppdu_route_change
  let wal_rx_status_rcvd ← ps .wal_rx_status_rcvd
  let wal_rx_r0_frags ← ps .wal_rx_r0_frags
  let wal_rx_r1_frags ← ps .wal_rx_r1_frags
  let wal_rx_r2_frags ← ps .wal_rx_r2_frags
  let wal_rx_r3_frags ← ps .wal_rx_r3_frags
  let wal_rx_htt_msdus ← ps .wal_rx_htt_msdus
  let wal_rx_htt_mpdus ← ps .wal_rx_htt_mpdus
  let wal_rx_loc_msdus ← ps .wal_rx_loc_msdus
  let wal_rx_loc_mpdus ← ps .wal_rx_loc_mpdus
  let wal_rx_oversize_amsdu ← ps .wal_rx_oversize_amsdu
  let wal_rx_phy_errs ← ps .wal_rx_phy_errs
  let wal_rx_phy_err_drop ← ps .wal_rx_phy_err_drop
  let wal_rx_mpdu_errs ← ps .wal_rx_mpdu_errs
  let stats1 : ath10k_target_stats :=
    { stats with
      ch_noise_floor := int_of_u32 chan_nf
      tx_frame_count := tx_frame_count
      rx_frame_count := rx_frame_count
      rx_clear_count := rx_clear_count
      cycle_count := cycle_count
      phy_err_count := phy_err_count
      chan_tx_power := chan_tx_pwr
      comp_queued := int_of_u32 wal_tx_comp_queued
      comp_delivered := int_of_u32 wal_tx_comp_delivered
      msdu_enqued := int_of_u32 wal_tx_msdu_enqued
      mpdu_enqued := int_of_u32 wal_tx_mpdu_enqued
      wmm_drop := int_of_u32 wal_tx_wmm_drop
      local_enqued := int_of_u32 wal_tx_local_enqued
      local_freed := int_of_u32 wal_tx_local_freed
      hw_queued := int_of_u32 wal_tx_hw_queued
      hw_reaped := int_of_u32 wal_tx_hw_reaped
      underrun := int_of_u32 wal_tx_underrun
      tx_abort := int_of_u32 wal_tx_tx_abort
      mpdus_requed := int_of_u32 wal_tx_mpdus_requed
      tx_ko := wal_tx_tx_ko
      data_rc := wal_tx_data_rc
      self_triggers := wal_tx_self_triggers
      sw_retry_failure := wal_tx_sw_retry_failure
      illgl_rate_phy_err := wal_tx_illgl_rate_phy_err
      pdev_cont_xretry := wal_tx_pdev_cont_xretry
      pdev_tx_timeout := wal_tx_pdev_tx_timeout
      pdev_resets := wal_tx_pdev_resets
      phy_underrun := wal_tx_phy_underrun
      txop_ovf := wal_tx_txop_ovf
      mid_ppdu_route_change := int_of_u32 wal_rx_mid_ppdu_route_change
      status_rcvd := int_of_u32 wal_rx_status_rcvd
      r0_frags := int_of_u32 wal_rx_r0_frags
      r1_frags := int_of_u32 wal_rx_r1_frags
      r2_frags := int_of_u32 wal_rx_r2_frags
      r3_frags := int_of_u32 wal_rx_r3_frags
      htt_msdus := int_of_u32 wal_rx_htt_msdus
      htt_mpdus := int_of_u32 wal_rx_htt_mpdus
      loc_msdus := int_of_u32 wal_rx_loc_msdus
      loc_mpdus := int_of_u32 wal_rx_loc_mpdus
      oversize_amsdu := int_of_u32 wal_rx_oversize_amsdu
      phy_errs := int_of_u32 wal_rx_phy_errs
      phy_err_drop := int_of_u32 wal_rx_phy_err_drop
      mpdu_errs := int_of_u32 wal_rx_mpdu_errs
    }
  if test_bit ATH10K_FW_FEATURE_WMI_10X fw_features then
    let ack_rx_bad ← ps .ack_rx_bad
    let rts_bad ← ps .rts_bad
    let rts_good ← ps .rts_good
    let fcs_bad ← ps .fcs_bad
    let no_beacons ← ps .no_beacons
    let mib_int_count ← ps .mib_int_count
    pure { stats1 with
      ack_rx_bad := ack_rx_bad
      rts_bad := rts_bad
      rts_good := rts_good
      fcs_bad := fcs_bad
      no_beacons := no_beacons
      mib_int_count := mib_int_count
    }
  else
    pure stats1

/-- Size `sizeof(struct wmi_pdev_stats_10x)` or `sizeof(struct wmi_pdev_stats_old)`, by
which the pdev block advances `tmp`. -/
def pdev_stride (k : wmi_consts) (fw_features : Nat) : Nat :=
  if test_bit ATH10K_FW_FEATURE_WMI_10X fw_features then k.sizeof_wmi_pdev_stats_10x
  else k.sizeof_wmi_pdev_stats_old

/-- Size `sizeof(struct wmi_peer_stats_10x)` or `sizeof(struct wmi_peer_stats_old)`, by
which an iteration of the peer loop advances `tmp`. -/
def peer_stride (k : wmi_consts) (fw_features : Nat) : Nat :=
  if test_bit ATH10K_FW_FEATURE_WMI_10X fw_features then k.sizeof_wmi_peer_stats_10x
  else k.sizeof_wmi_peer_stats_old

/-- The body of the peer loop (lines 457-472) without the advance of `tmp`:
the entry `peer_stat[i]` filled from the record at offset `tmp`. -/
def read_peer_stat (k : wmi_consts) (fw_features : Nat) (data : List Nat) (tmp : Nat)
    (s : ath10k_peer_stat) : Except stats_fault ath10k_peer_stat := do
  let addr ← rd8s data (tmp + k.offsetof_peer_macaddr) k.ETH_ALEN
  let s1 := { s with peer_macaddr := fun j => if j < k.ETH_ALEN then addr.getD j 0
                                              else s.peer_macaddr j }
  let peer_rssi ← rd32 data (tmp + k.offsetof_peer_rssi)
  let s2 := { s1 with peer_rssi := peer_rssi }
  let peer_tx_rate ← rd32 data (tmp + k.offsetof_peer_tx_rate)
  let s3 := { s2 with peer_tx_rate := peer_tx_rate }
  if test_bit ATH10K_FW_FEATURE_WMI_10X fw_features then
    let peer_rx_rate ← rd32 data (tmp + k.offsetof_peer_rx_rate)
    pure { s3 with peer_rx_rate := peer_rx_rate }
  else
    pure s3

/-- The peer loop `for (i = 0; i < num_peer_stats; i++)` with `n` iterations
left, entered at index `i` with the read position `tmp`: the statistics it
leaves and the offsets of the records it read, in order. -/
def read_peer_stats_loop (k : wmi_consts) (fw_features : Nat) (data : List Nat) :
    Nat → Nat → Nat → ath10k_target_stats →
      Except stats_fault (ath10k_target_stats × List Nat)
  | 0, _, _, stats => .ok (stats, [])
  | n + 1, i, tmp, stats =>
    if k.TARGET_NUM_PEERS ≤ i then .error .peer_stat_overflow
    else
      match read_peer_stat k fw_features data tmp (stats.peer_stat i) with
      | .error e => .error e
      | .ok s =>
        let stats1 :=
          { stats with peer_stat := fun j => if j = i then s else stats.peer_stat j }
        match read_peer_stats_loop k fw_features data n (i + 1)
            (tmp + peer_stride k fw_features) stats1 with
        | .error e => .error e
        | .ok (stats2, offsets) => .ok (stats2, tmp :: offsets)

/-- Function `ath10k_debug_read_target_stats(ar, ev)` on the members of `ar` it uses,
`fw_features` and `debug.target_stats`: the statistics it leaves, together with
the offsets in the payload of the peer records it read. -/
def ath10k_debug_read_target_stats_traced (k : wmi_consts) (fw_features : Nat)
    (stats : ath10k_target_stats) (ev : wmi_stats_event) :
    Except stats_fault (ath10k_target_stats × List Nat) :=
  let tmp := 0
  let num_pdev_stats := le32_to_int ev.num_pdev_stats
  let num_vdev_stats := le32_to_int ev.num_vdev_stats
  let num_peer_stats := le32_to_int ev.num_peer_stats
  if ev.stats_id = k.WMI_REQUEST_REGISTER_DUMP then
    match read_reg_dump k ev.data stats with
    | .error e => .error e
    | .ok stats1 => .ok (stats1, [])
  else
    match (if num_pdev_stats ≠ 0 then read_pdev_stats k fw_features ev.data tmp stats
           else .ok stats) with
    | .error e => .error e
    | .ok stats1 =>
      let tmp := if num_pdev_stats ≠ 0 then tmp + pdev_stride k fw_features else tmp
      let tmp :=
        if num_vdev_stats ≠ 0 then tmp + num_vdev_stats.toNat * k.sizeof_wmi_vdev_stats
        else tmp
      if num_peer_stats ≠ 0 then
        let stats2 := { stats1 with peers := (num_peer_stats % 256).toNat }
        read_peer_stats_loop k fw_features ev.data num_peer_stats.toNat 0 tmp stats2
      else .ok (stats1, [])

/-- Function `ath10k_debug_read_target_stats(ar, ev)`: the statistics it leaves. -/
def ath10k_debug_read_target_stats (k : wmi_consts) (fw_features : Nat)
    (stats : ath10k_target_stats) (ev : wmi_stats_event) :
    Except stats_fault ath10k_target_stats :=
  match ath10k_debug_read_target_stats_traced k fw_features stats ev with
  | .error e => .error e
  | .ok r => .ok r.1

/-! ### Notions used to state the properties of the decoder -/

/-- The id of pair `i` of a register dump. -/
def reg_id_at (k : wmi_consts) (data : List Nat) (i : Nat) : Nat :=
  le16_at data (k.offsetof_regpair + i * k.sizeof_regpair + k.offsetof_reg_id)

/-- The value of pair `i` of a register dump. -/
def reg_val_at (k : wmi_consts) (data : List Nat) (i : Nat) : Nat :=
  le32_at data (k.offsetof_regpair + i * k.sizeof_regpair + k.offsetof_reg_val)

/-- The case labels of the `switch` on the register id. -/
def reg_dump_ids (k : wmi_consts) : List Nat :=
  [k.REG_DUMP_NONE, k.MAC_FILTER_ADDR_L32, k.MAC_FILTER_ADDR_U16, k.DCU_SLOT_TIME,
    k.PHY_BB_MODE_SELECT, k.PCU_BSSID_L32, k.PCU_BSSID_U16, k.PCU_BSSID2_L32,
    k.PCU_BSSID2_U16, k.PCU_STA_ADDR_U16, k.MAC_DMA_CFG, k.MAC_DMA_TXCFG,
    k.PCU_STA_ADDR_L32, k.PCU_RXFILTER, k.PHY_BB_GEN_CONTROLS, k.DMA_IMR, k.DMA_TXRX_IMR,
    k.SW_POWERMODE, k.SW_CHAINMASK, k.SW_OPMODE, k.SW_RXFILTER]

/-- The members of `struct wmi_pdev_stats_10x` that the decoder reads whatever the
firmware, through a record that has the old layout when
`ATH10K_FW_FEATURE_WMI_10X` is not set. -/
def wmi_pdev_field.in_old : wmi_pdev_field → Bool
  | .ack_rx_bad => false
  | .rts_bad => false
  | .rts_good => false
  | .fcs_bad => false
  | .no_beacons => false
  | .mib_int_count => false
  | _ => true

/-- The members of the wire structures lie inside them: the pairs of a register
dump come after its count, a pair holds its id and its value, a pdev record of
either layout holds the members read from it, and so does a peer record. -/
structure layout_ok (k : wmi_consts) : Prop where
  count : k.offsetof_count + 2 ≤ k.offsetof_regpair
  reg_id : k.offsetof_reg_id + 2 ≤ k.sizeof_regpair
  reg_val : k.offsetof_reg_val + 4 ≤ k.sizeof_regpair
  pdev_10x : ∀ f, k.pdev_off f + 4 ≤ k.sizeof_wmi_pdev_stats_10x
  pdev_old : ∀ f, f.in_old = true → k.pdev_off f + 4 ≤ k.sizeof_wmi_pdev_stats_old
  peer_macaddr_10x : k.offsetof_peer_macaddr + k.ETH_ALEN ≤ k.sizeof_wmi_peer_stats_10x
  peer_macaddr_old : k.offsetof_peer_macaddr + k.ETH_ALEN ≤ k.sizeof_wmi_peer_stats_old
  peer_rssi_10x : k.offsetof_peer_rssi + 4 ≤ k.sizeof_wmi_peer_stats_10x
  peer_rssi_old : k.offsetof_peer_rssi + 4 ≤ k.sizeof_wmi_peer_stats_old
  peer_tx_rate_10x : k.offsetof_peer_tx_rate + 4 ≤ k.sizeof_wmi_peer_stats_10x
  peer_tx_rate_old : k.offsetof_peer_tx_rate + 4 ≤ k.sizeof_wmi_peer_stats_old
  peer_rx_rate_10x : k.offsetof_peer_rx_rate + 4 ≤ k.sizeof_wmi_peer_stats_10x

/-- The size of the pdev part of the payload: one record when `num_pdev_stats`
is not zero. -/
def pdev_part (k : wmi_consts) (fw_features : Nat) (ev : wmi_stats_event) : Nat :=
  if le32_to_int ev.num_pdev_stats ≠ 0 then pdev_stride k fw_features else 0

/-- The offset of the first peer record: the pdev part, then `num_vdev_stats`
vdev records. -/
def peer_base (k : wmi_consts) (fw_features : Nat) (ev : wmi_stats_event) : Nat :=
  pdev_part k fw_features ev
    + (le32_to_int ev.num_vdev_stats).toNat * k.sizeof_wmi_vdev_stats

/-- The number of payload bytes the header of a statistics event declares: the
pdev part, the vdev records and `num_peer_stats` peer records. -/
def payload_needed (k : wmi_consts) (fw_features : Nat) (ev : wmi_stats_event) : Nat :=
  peer_base k fw_features ev
    + (le32_to_int ev.num_peer_stats).toNat * peer_stride k fw_features

/-- The entry the peer loop makes of the record at offset `off`, in place of
the entry `s`. -/
def peer_entry (k : wmi_consts) (fw_features : Nat) (data : List Nat) (off : Nat)
    (s : ath10k_peer_stat) : ath10k_peer_stat :=
  { peer_macaddr := fun j =>
      if j < k.ETH_ALEN then
        (u8s_at data (off + k.offsetof_peer_macaddr) k.ETH_ALEN).getD j 0
      else s.peer_macaddr j
    peer_rssi := le32_at data (off + k.offsetof_peer_rssi)
    peer_tx_rate := le32_at data (off + k.offsetof_peer_tx_rate)
    peer_rx_rate :=
      if test_bit ATH10K_FW_FEATURE_WMI_10X fw_features then
        le32_at data (off + k.offsetof_peer_rx_rate)
      else s.peer_rx_rate }

/-- The offsets of the members of a pdev record packed in the order in which
the decoder reads them. -/
def pdev_off_packed : wmi_pdev_field → Nat
  | .chan_nf => 0
  | .tx_frame_count => 4
  | .rx_frame_count => 8
  | .rx_clear_count => 12
  | .cycle_count => 16
  | .phy_err_count => 20
  | .chan_tx_pwr => 24
  | .wal_tx_comp_queued => 28
  | .wal_tx_comp_delivered => 32
  | .wal_tx_msdu_enqued => 36
  | .wal_tx_mpdu_enqued => 40
  | .wal_tx_wmm_drop => 44
  | .wal_tx_local_enqued => 48
  | .wal_tx_local_freed => 52
  | .wal_tx_hw_queued => 56
  | .wal_tx_hw_reaped => 60
  | .wal_tx_underrun => 64
  | .wal_tx_tx_abort => 68
  | .wal_tx_mpdus_requed => 72
  | .wal_tx_tx_ko => 76
  | .wal_tx_data_rc => 80
  | .wal_tx_self_triggers => 84
  | .wal_tx_sw_retry_failure => 88
  | .wal_tx_illgl_rate_phy_err => 92
  | .wal_tx_pdev_cont_xretry => 96
  | .wal_tx_pdev_tx_timeout => 100
  | .wal_tx_pdev_resets => 104
  | .wal_tx_phy_underrun => 108
  | .wal_tx_txop_ovf => 112
  | .wal_rx_mid_ppdu_route_change => 116
  | .wal_rx_status_rcvd => 120
  | .wal_rx_r0_frags => 124
  | .wal_rx_r1_frags => 128
  | .wal_rx_r2_frags => 132
  | .wal_rx_r3_frags => 136
  | .wal_rx_htt_msdus => 140
  | .wal_rx_htt_mpdus => 144
  | .wal_rx_loc_msdus => 148
  | .wal_rx_loc_mpdus => 152
  | .wal_rx_oversize_amsdu => 156
  | .wal_rx_phy_errs => 160
  | .wal_rx_phy_err_drop => 164
  | .wal_rx_mpdu_errs => 168
  | .ack_rx_bad => 172
  | .rts_bad => 176
  | .rts_good => 180
  | .fcs_bad => 184
  | .no_beacons => 188
  | .mib_int_count => 192

/-- Constants for evaluating the decoder on concrete inputs: 128 peer entries,
register ids 0 to 20, a register dump with its pairs at offset 4 and 8 bytes
per pair, packed pdev records of 172 and 196 bytes, vdev records of 16 bytes,
peer records of 16 and 20 bytes. -/
def wmi_small : wmi_consts :=
  { WMI_REQUEST_REGISTER_DUMP := 128, TARGET_NUM_PEERS := 128, ETH_ALEN := 6,
    REG_DUMP_NONE := 0,
    MAC_FILTER_ADDR_L32 := 1,
    MAC_FILTER_ADDR_U16 := 2,
    DCU_SLOT_TIME := 3,
    PHY_BB_MODE_SELECT := 4,
    PCU_BSSID_L32 := 5,
    PCU_BSSID_U16 := 6,
    PCU_BSSID2_L32 := 7,
    PCU_BSSID2_U16 := 8,
    PCU_STA_ADDR_U16 := 9,
    MAC_DMA_CFG := 10,
    MAC_DMA_TXCFG := 11,
    PCU_STA_ADDR_L32 := 12,
    PCU_RXFILTER := 13,
    PHY_BB_GEN_CONTROLS := 14,
    DMA_IMR := 15,
    DMA_TXRX_IMR := 16,
    SW_POWERMODE := 17,
    SW_CHAINMASK := 18,
    SW_OPMODE := 19,
    SW_RXFILTER := 20,
    offsetof_count := 0, offsetof_regpair := 4, sizeof_regpair := 8, offsetof_reg_id := 0,
    offsetof_reg_val := 4, pdev_off := pdev_off_packed,
    sizeof_wmi_pdev_stats_10x := 196, sizeof_wmi_pdev_stats_old := 172,
    sizeof_wmi_vdev_stats := 16, offsetof_peer_macaddr := 0, offsetof_peer_rssi := 8,
    offsetof_peer_tx_rate := 12, offsetof_peer_rx_rate := 16,
    sizeof_wmi_peer_stats_10x := 20, sizeof_wmi_peer_stats_old := 16 }

/-- A peer entry with all members zero. -/
def peer_stat_zero : ath10k_peer_stat :=
  { peer_macaddr := fun _ => 0, peer_rssi := 0, peer_tx_rate := 0, peer_rx_rate := 0 }

/-- A statistics record with all members zero. -/
def target_stats_zero : ath10k_target_stats :=
  { ch_noise_floor := 0, tx_frame_count := 0, rx_frame_count := 0, rx_clear_count := 0,
    cycle_count := 0, phy_err_count := 0, chan_tx_power := 0, ack_rx_bad := 0, rts_bad := 0,
    rts_good := 0, fcs_bad := 0, no_beacons := 0, mib_int_count := 0, comp_queued := 0,
    comp_delivered := 0, msdu_enqued := 0, mpdu_enqued := 0, wmm_drop := 0, local_enqued := 0,
    local_freed := 0, hw_queued := 0, hw_reaped := 0, underrun := 0, tx_abort := 0,
    mpdus_requed := 0, tx_ko := 0, data_rc := 0, self_triggers := 0, sw_retry_failure := 0,
    illgl_rate_phy_err := 0, pdev_cont_xretry := 0, pdev_tx_timeout := 0, pdev_resets := 0,
    phy_underrun := 0, txop_ovf := 0, mid_ppdu_route_change := 0, status_rcvd := 0,
    r0_frags := 0, r1_frags := 0, r2_frags := 0, r3_frags := 0, htt_msdus := 0, htt_mpdus := 0,
    loc_msdus := 0, loc_mpdus := 0, oversize_amsdu := 0, phy_errs := 0, phy_err_drop := 0,
    mpdu_errs := 0, peers := 0, peer_stat := fun _ => peer_stat_zero, mac_filter_addr_l32 := 0,
    mac_filter_addr_u16 := 0, dcu_slot_time := 0, phy_bb_mode_select := 0, pcu_bssid_l32 := 0,
    pcu_bssid_u16 := 0, pcu_bssid2_l32 := 0, pcu_bssid2_u16 := 0, pcu_sta_addr_l32 := 0,
    pcu_sta_addr_u16 := 0, mac_dma_cfg := 0, mac_dma_txcfg := 0, pcu_rxfilter := 0,
    phy_bb_gen_controls := 0, dma_imr := 0, dma_txrx_imr := 0, sw_powermode := 0,
    sw_chainmask_tx := 0, sw_chainmask_rx := 0, sw_opmode := 0, sw_rxfilter := 0 }

/-- A register dump of 3 pairs: an id that is no case label (99) with value 5,
`MAC_FILTER_ADDR_L32` with value 0xAABBCCDD, `REG_DUMP_NONE`. -/
def ev_three_pairs : wmi_stats_event :=
  { stats_id := 128, num_pdev_stats := 0, num_vdev_stats := 0, num_peer_stats := 0,
    data := [3, 0, 0, 0,
             99, 0, 0, 0, 5, 0, 0, 0,
             1, 0, 0, 0, 0xDD, 0xCC, 0xBB, 0xAA,
             0, 0, 0, 0, 0, 0, 0, 0] }

/-- A register dump of one pair with the id `PCU_BSSID2_L32` of `wmi_small` and the
value given by its four bytes. -/
def ev_bssid2_l32 (b0 b1 b2 b3 : Nat) : wmi_stats_event :=
  { stats_id := 128, num_pdev_stats := 0, num_vdev_stats := 0, num_peer_stats := 0,
    data := [1, 0, 0, 0, 7, 0, 0, 0, b0, b1, b2, b3] }

/-- A register dump of one pair with the id `PCU_BSSID2_U16` of `wmi_small` and the
value given by its four bytes. -/
def ev_bssid2_u16 (b0 b1 b2 b3 : Nat) : wmi_stats_event :=
  { stats_id := 128, num_pdev_stats := 0, num_vdev_stats := 0, num_peer_stats := 0,
    data := [1, 0, 0, 0, 8, 0, 0, 0, b0, b1, b2, b3] }

/-- A statistics event that declares `n` peer records and no other record,
with a payload of `len` zero bytes. -/
def ev_peers (n len : Nat) : wmi_stats_event :=
  { stats_id := 0, num_pdev_stats := 0, num_vdev_stats := 0, num_peer_stats := n,
    data := List.replicate len 0 }

/-- A register dump that declares one pair in a payload that ends before the
pair. -/
def ev_reg_dump_short : wmi_stats_event :=
  { stats_id := 128, num_pdev_stats := 0, num_vdev_stats := 0, num_peer_stats := 0,
    data := [1, 0, 0, 0] }

/-- A statistics event for firmware with the extended layouts: one pdev
record, 2 vdev records and 3 peer records, all bytes zero. -/
def ev_pdev_vdev_peers : wmi_stats_event :=
  { stats_id := 0, num_pdev_stats := 1, num_vdev_stats := 2, num_peer_stats := 3,
    data := List.replicate 288 0 }

/-- A statistics event for firmware with the extended layouts: one pdev
record of zero bytes, 2 vdev records whose bytes are all 0xEE, and 2 peer
records: addresses 1 to 6 and 11 to 16, rssi 7 and 17, tx rates 8 and 18, rx
rates 9 and 19. -/
def ev_pdev_vdev_two_peers : wmi_stats_event :=
  { stats_id := 0, num_pdev_stats := 1, num_vdev_stats := 2, num_peer_stats := 2,
    data := List.replicate 196 0 ++ List.replicate 32 0xEE
      ++ [1, 2, 3, 4, 5, 6, 0, 0, 7, 0, 0, 0, 8, 0, 0, 0, 9, 0, 0, 0]
      ++ [11, 12, 13, 14, 15, 16, 0, 0, 17, 0, 0, 0, 18, 0, 0, 0, 19, 0, 0, 0] }

/-- A statistics event that declares one pdev record and has an empty
payload. -/
def ev_pdev_empty : wmi_stats_event :=
  { stats_id := 0, num_pdev_stats := 1, num_vdev_stats := 0, num_peer_stats := 0,
    data := [] }

/-! ## The indices of the ring buffer array that the operations access -/

/-- The indices of `data[]` accessed by `ath10k_dbg_drop_dbg_buffer`: the one read,
of `data[h_idx]`. -/
def ath10k_dbg_drop_dbg_buffer_accesses (d : ath10k_dbglog_entry_storage) : List Nat :=
  [(d.tail_idx + 1) % ATH10K_DBGLOG_DATA_LEN]

/-- The indices of `data[]` accessed by the `for` loop of
`ath10k_dbg_save_fw_dbg_buffer`, in order: for each word the write position `z`, then
the index read by the eviction step when it runs.  The states are those of
`dbg_save_loop`. -/
def dbg_save_loop_accesses : ath10k_dbglog_entry_storage → Nat → List Nat → List Nat
  | _, _, [] => []
  | d, z, w :: buffer =>
    let d1 := { d with data := fun i => if i = z then w else d.data i }
    let z1 := if z + 1 ≥ ATH10K_DBGLOG_DATA_LEN then 0 else z + 1
    let hit := decide (z1 = d1.tail_idx)
    let d2 := if hit then ath10k_dbg_drop_dbg_buffer d1 else d1
    z :: ((if hit then ath10k_dbg_drop_dbg_buffer_accesses d1 else [])
      ++ dbg_save_loop_accesses { d2 with head_idx := z1 } z1 buffer)

/-- The indices of `data[]` accessed by `ath10k_dbg_save_fw_dbg_buffer(ar, buffer, len)`:
none while a crash snapshot is unread. -/
def ath10k_dbg_save_fw_dbg_buffer_accesses (ar : ath10k) (buffer : List Nat) : List Nat :=
  let z := ar.debug.dbglog_entry_data.head_idx
  if (match ar.debug.fw_crash_data with
      | some crash_data => crash_data.crashed_since_read
      | none => false) then
    []
  else dbg_save_loop_accesses ar.debug.dbglog_entry_data z buffer

/-! ### Further notions used to state the properties of the decoder -/

/-- The statistics record `stats` with the register-dump members (the 21
members from `mac_filter_addr_l32` to `sw_rxfilter`) of `regs`: every pdev
member, `peers` and `peer_stat` are those of `stats`. -/
def with_reg_dump_fields (stats regs : ath10k_target_stats) : ath10k_target_stats :=
  { stats with
    mac_filter_addr_l32 := regs.mac_filter_addr_l32
    mac_filter_addr_u16 := regs.mac_filter_addr_u16
    dcu_slot_time := regs.dcu_slot_time
    phy_bb_mode_select := regs.phy_bb_mode_select
    pcu_bssid_l32 := regs.pcu_bssid_l32
    pcu_bssid_u16 := regs.pcu_bssid_u16
    pcu_bssid2_l32 := regs.pcu_bssid2_l32
    pcu_bssid2_u16 := regs.pcu_bssid2_u16
    pcu_sta_addr_l32 := regs.pcu_sta_addr_l32
    pcu_sta_addr_u16 := regs.pcu_sta_addr_u16
    mac_dma_cfg := regs.mac_dma_cfg
    mac_dma_txcfg := regs.mac_dma_txcfg
    pcu_rxfilter := regs.pcu_rxfilter
    phy_bb_gen_controls := regs.phy_bb_gen_controls
    dma_imr := regs.dma_imr
    dma_txrx_imr := regs.dma_txrx_imr
    sw_powermode := regs.sw_powermode
    sw_chainmask_tx := regs.sw_chainmask_tx
    sw_chainmask_rx := regs.sw_chainmask_rx
    sw_opmode := regs.sw_opmode
    sw_rxfilter := regs.sw_rxfilter
  }

/-- Constants `wmi_small` with 256 peer entries. -/
def wmi_256_peers : wmi_consts := { wmi_small with TARGET_NUM_PEERS := 256 }

/-- An event without pdev record, with one vdev record whose 16 bytes are all
`b`, and one peer record with the address bytes 1 to 6, the rssi 7 and the
rate 8. -/
def ev_vdev_bytes (b : Nat) : wmi_stats_event :=
  { stats_id := 0, num_pdev_stats := 0, num_vdev_stats := 1, num_peer_stats := 1,
    data := [] ++ List.replicate 16 b
      ++ [1, 2, 3, 4, 5, 6, 0, 0, 7, 0, 0, 0, 8, 0, 0, 0] }

/-! ## The `ct_special` debugfs file (`debug.c`, lines 1905-2033)

The function `ath10k_write_ct_special` and the member `eeprom_overrides` of
`struct ath10k` (`core.h`, lines 665-688) it stores to. -/

/-- An entry of `eeprom_overrides.bands`: `minCcaPwrCT` is an array of
`MIN_CCA_PWR_COUNT` `u16`, the other members are `u8`. -/
structure eeprom_overrides_band where
  minCcaPwrCT : Nat → Nat
  noiseFloorThresh : Nat
  enable_minccapwr_thresh : Nat

/-- Macro `#define MIN_CCA_PWR_COUNT 3`. -/
def MIN_CCA_PWR_COUNT : Nat := 3

/-- The number of entries of `eeprom_overrides.bands`, declared `bands[2]`: index 0
is for 5 GHz, index 1 for 2.4 GHz. -/
def EEPROM_OVERRIDES_BANDS : Nat := 2

/-- The member `eeprom_overrides` of `struct ath10k`. -/
structure eeprom_overrides where
  bands : Nat → eeprom_overrides_band
  thresh62_ext : Nat
  tx_sta_bw_mask : Nat
  allow_ibss_amsdu : Bool
  rifs_enable_override : Bool
  max_txpower : Nat
  pdev_xretry_th : Nat
  wmi_wd_keepalive_ms : Nat

/-- Constants used by `ath10k_write_ct_special` whose definitions are outside the
files at hand: the ids `SET_SPECIAL_ID_*`, the CCA types `CT_CCA_TYPE_*` and
the error numbers `EINVAL` and `EPERM`. -/
structure ct_consts where
  SET_SPECIAL_ID_THRESH62_EXT : Nat
  SET_SPECIAL_ID_NOISE_FLR_THRESH : Nat
  SET_SPECIAL_ID_IBSS_AMSDU_OK : Nat
  SET_SPECIAL_ID_MAX_TXPOWER : Nat
  SET_SPECIAL_ID_STA_TXBW_MASK : Nat
  SET_SPECIAL_ID_PDEV_XRETRY_TH : Nat
  SET_SPECIAL_ID_RIFS_ENABLE : Nat
  SET_SPECIAL_ID_WMI_WD : Nat
  CT_CCA_TYPE_MIN2 : Nat
  CT_CCA_TYPE_NOISE_FLOOR : Nat
  CT_CCA_TYPE_EN_MINCCAPWR : Nat
  CT_CCA_TYPE_MAX : Nat
  EINVAL : Nat
  EPERM : Nat

/-- The state `ath10k_write_ct_special` leaves and what it did: the return value of
the function, the members of `ar` it stores to, the arguments `(id, val)` of
the call of `ath10k_wmi_pdev_set_special` when it is made, and whether
`ath10k_mac_set_pdev_kickout` was called. -/
structure ct_special_result where
  ret : Int
  overrides : eeprom_overrides
  sta_xretry_kickout_thresh : Nat
  sent : Option (Nat × Nat)
  kickout : Bool

/-- The stores of `ath10k_write_ct_special` that leave an array. -/
inductive ct_special_fault where
  | store_past_bands
  | store_past_minCcaPwrCT

/-- The value of `ret ?: count`. -/
def ret_or_count (ret : Int) (count : Nat) : Int := if ret ≠ 0 then ret else count

/-- The store `ar->eeprom_overrides.bands[band].<member> = ...`, as the change
`store` of the entry `band`: a fault when `band` is not an index of `bands`. -/
def store_band (ov : eeprom_overrides) (band : Nat)
    (store : eeprom_overrides_band → eeprom_overrides_band) :
    Except ct_special_fault eeprom_overrides :=
  if band < EEPROM_OVERRIDES_BANDS then
    .ok { ov with bands := fun b => if b = band then store (ov.bands b) else ov.bands b }
  else .error .store_past_bands

/-- The branch `id == SET_SPECIAL_ID_NOISE_FLR_THRESH` (lines 1926-1939) after the
test of `band` and `type` has passed: the store selected by `type`.  The store
to `minCcaPwrCT[type]` is a fault also when `type` is not an index of that
array. -/
def store_cca (k : ct_consts) (ov : eeprom_overrides) (band type val : Nat) :
    Except ct_special_fault eeprom_overrides :=
  if type ≤ k.CT_CCA_TYPE_MIN2 then
    if band < EEPROM_OVERRIDES_BANDS ∧ ¬ type < MIN_CCA_PWR_COUNT then
      .error .store_past_minCcaPwrCT
    else
      store_band ov band fun e =>
        { e with minCcaPwrCT := fun t => if t = type then val % 2 ^ 16 else e.minCcaPwrCT t }
  else if type = k.CT_CCA_TYPE_NOISE_FLOOR then
    store_band ov band fun e => { e with noiseFloorThresh := val % 2 ^ 16 % 2 ^ 8 }
  else if type = k.CT_CCA_TYPE_EN_MINCCAPWR then
    store_band ov band fun e => { e with enable_minccapwr_thresh := val % 2 ^ 16 % 2 ^ 8 }
  else .ok ov

/-- Function `ath10k_write_ct_special`.  `input` is the number
`kstrtou64_from_user` parses from the user buffer, `none` when it fails;
`wmi_ret` is the value `ath10k_wmi_pdev_set_special` returns when it is called.
`ov` and `thresh` are `ar->eeprom_overrides` and `ar->sta_xretry_kickout_thresh`. -/
def ath10k_write_ct_special (k : ct_consts) (ov : eeprom_overrides) (thresh : Nat)
    (input : Option Nat) (count : Nat) (wmi_ret : Int) :
    Except ct_special_fault ct_special_result :=
  match input with
  | none =>
    .ok { ret := -(k.EINVAL : Int), overrides := ov, sta_xretry_kickout_thresh := thresh,
          sent := none, kickout := false }
  | some tmp =>
    let id := tmp % 2 ^ 64 / 2 ^ 32
    let val := tmp % 2 ^ 32
    -- the label `unlock` reached with `ret`, without the call to the firmware
    let unlock := fun (ret : Int) (ov1 : eeprom_overrides) (thresh1 : Nat) (kickout : Bool) =>
      (Except.ok { ret := ret_or_count ret count, overrides := ov1,
                   sta_xretry_kickout_thresh := thresh1, sent := none,
                   kickout := kickout } : Except ct_special_fault ct_special_result)
    -- the call `ret = ath10k_wmi_pdev_set_special(ar, id, val)`, then `unlock`
    let send := fun (ov1 : eeprom_overrides) (val1 : Nat) =>
      (Except.ok { ret := ret_or_count wmi_ret count, overrides := ov1,
                   sta_xretry_kickout_thresh := thresh, sent := some (id, val1),
                   kickout := false } : Except ct_special_fault ct_special_result)
    if id = k.SET_SPECIAL_ID_THRESH62_EXT then
      send { ov with thresh62_ext := val % 2 ^ 8 } val
    else if id = k.SET_SPECIAL_ID_NOISE_FLR_THRESH then
      let band := val / 2 ^ 24 % 2 ^ 8
      let type := val / 2 ^ 16 % 2 ^ 8
      if band > 2 ∨ type > k.CT_CCA_TYPE_MAX then
        unlock (-(k.EINVAL : Int)) ov thresh false
      else
        match store_cca k ov band type val with
        | .error e => .error e
        | .ok ov1 => send ov1 val
    else if id = k.SET_SPECIAL_ID_IBSS_AMSDU_OK then
      send { ov with allow_ibss_amsdu := decide (val ≠ 0) } val
    else if id = k.SET_SPECIAL_ID_MAX_TXPOWER then
      if ov.max_txpower = 0xFFFF then
        send { ov with max_txpower := val % 2 ^ 16 } val
      else
        unlock (-(k.EPERM : Int)) ov thresh false
    else if id = k.SET_SPECIAL_ID_STA_TXBW_MASK then
      send { ov with tx_sta_bw_mask := val % 2 ^ 8 } val
    else if id = k.SET_SPECIAL_ID_PDEV_XRETRY_TH then
      send { ov with pdev_xretry_th := val % 2 ^ 16 } val
    else if id = k.SET_SPECIAL_ID_RIFS_ENABLE then
      send { ov with rifs_enable_override := decide (val ≠ 0) } val
    else if id = k.SET_SPECIAL_ID_WMI_WD then
      let ov1 := { ov with wmi_wd_keepalive_ms := val }
      if val = 0 then unlock 0 ov1 thresh false
      else send ov1 (if val = 0xFFFFFFFF then 0 else val)
    else if id = 0x1001 then
      unlock 0 ov val true
    else
      send ov val

/-- The constants with the ids that the text of `ath10k_read_ct_special` gives
(3, 4, 5, 6, 8, 9, 0xA, 0xB) and its CCA types (0 to 2 `minCcaPwrCT`, 3
`noiseFloorThresh`, 4 `enable_minccapwr_thresh`); `EINVAL` 22, `EPERM` 1. -/
def ct_small : ct_consts :=
  { SET_SPECIAL_ID_THRESH62_EXT := 3, SET_SPECIAL_ID_NOISE_FLR_THRESH := 4,
    SET_SPECIAL_ID_IBSS_AMSDU_OK := 5, SET_SPECIAL_ID_MAX_TXPOWER := 6,
    SET_SPECIAL_ID_STA_TXBW_MASK := 8, SET_SPECIAL_ID_PDEV_XRETRY_TH := 9,
    SET_SPECIAL_ID_RIFS_ENABLE := 10, SET_SPECIAL_ID_WMI_WD := 11,
    CT_CCA_TYPE_MIN2 := 2, CT_CCA_TYPE_NOISE_FLOOR := 3, CT_CCA_TYPE_EN_MINCCAPWR := 4,
    CT_CCA_TYPE_MAX := 4, EINVAL := 22, EPERM := 1 }

/-- Overrides with all members zero and `max_txpower` at its unset value
0xFFFF. -/
def eeprom_overrides_unset : eeprom_overrides :=
  { bands := fun _ =>
      { minCcaPwrCT := fun _ => 0, noiseFloorThresh := 0, enable_minccapwr_thresh := 0 },
    thresh62_ext := 0, tx_sta_bw_mask := 0, allow_ibss_amsdu := false,
    rifs_enable_override := false, max_txpower := 0xFFFF, pdev_xretry_th := 0,
    wmi_wd_keepalive_ms := 0 }

/-- The number written to the file for the id and the 32-bit value given:
`id << 32 | val`. -/
def ct_special_input (id val : Nat) : Nat := id * 2 ^ 32 + val

/-! ## The ethtool statistics (`debug.c`, lines 1583-1735) -/

/-- The members of `struct ath10k` that `ath10k_get_et_stats` reads besides
`debug.target_stats`: whether `state` is `ATH10K_STATE_ON`,
`hw_params.has_shifted_cc_wraparound`, the three `u32` counters and the flag
`fw_powerup_failed`. -/
structure et_stats_inputs where
  state_on : Bool
  has_shifted_cc_wraparound : Bool
  fw_crash_counter : Nat
  fw_warm_reset_counter : Nat
  fw_cold_reset_counter : Nat
  fw_powerup_failed : Bool

/-- A state for evaluating `ath10k_get_et_stats`. -/
def et_stats_inputs_on : et_stats_inputs :=
  { state_on := true, has_shifted_cc_wraparound := true, fw_crash_counter := 1,
    fw_warm_reset_counter := 2, fw_cold_reset_counter := 3, fw_powerup_failed := false }

/-! ## Facts about the ring buffer loop -/

theorem dbglog_len_eq : ATH10K_DBGLOG_DATA_LEN = 896 := rfl

/-- The loop never leaves the array when it starts inside it, and the head it
leaves is the start position advanced by the number of words, modulo the
array length. -/
theorem dbg_save_loop_head (buffer : List Nat) :
    ∀ (d : ath10k_dbglog_entry_storage) (z n : Nat), z < 896 → d.head_idx = z →
      ∃ d1 n1, dbg_save_loop d z n buffer = some (d1, n1) ∧
        d1.head_idx = (z + buffer.length) % 896 := by
  induction buffer with
  | nil =>
    intro d z n hz hh
    exact ⟨d, n, rfl, by simp only [List.length_nil]; omega⟩
  | cons w rest ih =>
    intro d z n hz hh
    have hz1 : (if z + 1 ≥ 896 then 0 else z + 1) < 896 := by split <;> omega
    simp only [dbg_save_loop, dbglog_len_eq, hz, if_true]
    have key : ∀ (d2 : ath10k_dbglog_entry_storage) (n2 : Nat),
        d2.head_idx = (if z + 1 ≥ 896 then 0 else z + 1) →
        ∃ d1 n1, dbg_save_loop d2 (if z + 1 ≥ 896 then 0 else z + 1) n2 rest = some (d1, n1) ∧
          d1.head_idx = (z + (rest.length + 1)) % 896 := by
      intro d2 n2 h2
      obtain ⟨d1, n1, h1, h3⟩ := ih d2 _ n2 hz1 h2
      refine ⟨d1, n1, h1, ?_⟩
      rw [h3]
      split <;> omega
    simp only [List.length_cons]
    exact key _ _ rfl

/-- A run that never meets the tail: the tail and the eviction counter are
unchanged, the words land at consecutive ring positions from `z`, and every
other word is untouched. -/
theorem dbg_save_loop_no_collision (buffer : List Nat) :
    ∀ (d : ath10k_dbglog_entry_storage) (z n : Nat), z < 896 → d.tail_idx < 896 →
      (z + 896 - d.tail_idx) % 896 + buffer.length < 896 →
      ∃ d1, dbg_save_loop d z n buffer = some (d1, n) ∧
        d1.tail_idx = d.tail_idx ∧
        (∀ j w, buffer[j]? = some w → d1.data ((z + j) % 896) = w) ∧
        (∀ i, (∀ j, j < buffer.length → i ≠ (z + j) % 896) → d1.data i = d.data i) := by
  induction buffer with
  | nil =>
    intro d z n _ _ _
    exact ⟨d, rfl, rfl, by simp, fun _ _ => rfl⟩
  | cons w rest ih =>
    intro d z n hz ht hlen
    simp only [List.length_cons] at hlen
    have hz1 : (if z + 1 ≥ 896 then 0 else z + 1) = (z + 1) % 896 := by split <;> omega
    have hne : (z + 1) % 896 ≠ d.tail_idx := by omega
    simp only [dbg_save_loop, dbglog_len_eq, hz, if_true, hz1, hne, decide_False]
    obtain ⟨d1, h1, h2, h3, h4⟩ := ih
      { head_idx := (z + 1) % 896, tail_idx := d.tail_idx,
        data := fun i => if i = z then w else d.data i } ((z + 1) % 896) n
      (by omega) ht (by simp only []; omega)
    refine ⟨d1, h1, h2, ?_, ?_⟩
    · intro j v hj
      cases j with
      | zero =>
        simp only [List.getElem?_cons_zero, Option.some.injEq] at hj
        have := h4 z (by intro j hj2; omega)
        simp only [if_true] at this
        rw [Nat.add_zero, Nat.mod_eq_of_lt hz, this, hj]
      | succ k =>
        simp only [List.getElem?_cons_succ] at hj
        have := h3 k v hj
        rw [← this]
        congr 1
        omega
    · intro i hi
      have hiz : i ≠ z := by
        have := hi 0 (by simp)
        omega
      rw [h4 i]
      · simp only [hiz, if_false]
      · intro j hj
        have := hi (j + 1) (by simp only [List.length_cons]; omega)
        omega

/-- With no unread snapshot the save operation is the loop on the ring. -/
theorem save_traced_of_no_unread (ar : ath10k) (buffer : List Nat)
    (hs : no_unread_snapshot ar) :
    ath10k_dbg_save_fw_dbg_buffer_traced ar buffer =
      (dbg_save_loop ar.debug.dbglog_entry_data ar.debug.dbglog_entry_data.head_idx 0
        buffer).map
        (fun r => ({ ar with debug := { ar.debug with dbglog_entry_data := r.1 } }, r.2)) := by
  unfold ath10k_dbg_save_fw_dbg_buffer_traced
  cases hc : ar.debug.fw_crash_data with
  | none => simp
  | some cd => simp [hs cd hc]

/-- Every call on a ring whose head is inside the array returns, advances the
head by the batch length modulo the array length and keeps the snapshot
pointer. -/
theorem save_traced_head (ar : ath10k) (buffer : List Nat)
    (hh : ar.debug.dbglog_entry_data.head_idx < 896) (hs : no_unread_snapshot ar) :
    ∃ ar1 n, ath10k_dbg_save_fw_dbg_buffer_traced ar buffer = some (ar1, n) ∧
      ar1.debug.dbglog_entry_data.head_idx =
        (ar.debug.dbglog_entry_data.head_idx + buffer.length) % 896 ∧
      ar1.debug.fw_crash_data = ar.debug.fw_crash_data := by
  obtain ⟨d1, n1, h1, h2⟩ :=
    dbg_save_loop_head buffer ar.debug.dbglog_entry_data _ 0 hh rfl
  rw [save_traced_of_no_unread ar buffer hs, h1]
  exact ⟨_, _, rfl, h2, rfl⟩

theorem dbg_save_all_head (batches : List (List Nat)) :
    ∀ ar : ath10k, ar.debug.dbglog_entry_data.head_idx < 896 → no_unread_snapshot ar →
      ∃ ar1 n, dbg_save_all ar batches = some (ar1, n) ∧
        ar1.debug.dbglog_entry_data.head_idx =
          (ar.debug.dbglog_entry_data.head_idx + total_words batches) % 896 := by
  induction batches with
  | nil =>
    intro ar hh _
    exact ⟨ar, 0, rfl, by simp only [total_words, List.map_nil, List.sum_nil]; omega⟩
  | cons b bs ih =>
    intro ar hh hs
    obtain ⟨ar1, n, h1, h2, h3⟩ := save_traced_head ar b hh hs
    have hs1 : no_unread_snapshot ar1 := by
      intro cd hcd
      exact hs cd (h3 ▸ hcd)
    obtain ⟨ar2, m, h4, h5⟩ := ih ar1 (by omega) hs1
    refine ⟨ar2, n + m, ?_, ?_⟩
    · simp only [dbg_save_all, h1, h4, Option.map_some']
    · rw [h5, h2]
      simp only [total_words, List.map_cons, List.sum_cons]
      omega

/-- One call that cannot meet the tail, on the driver state. -/
theorem save_traced_no_collision (ar : ath10k) (buffer : List Nat)
    (hh : ar.debug.dbglog_entry_data.head_idx < 896)
    (ht : ar.debug.dbglog_entry_data.tail_idx < 896)
    (hs : no_unread_snapshot ar)
    (hlen : (ar.debug.dbglog_entry_data.head_idx + 896 - ar.debug.dbglog_entry_data.tail_idx)
        % 896 + buffer.length < 896) :
    ∃ ar1, ath10k_dbg_save_fw_dbg_buffer_traced ar buffer = some (ar1, 0) ∧
      ar1.debug.fw_crash_data = ar.debug.fw_crash_data ∧
      ar1.debug.dbglog_entry_data.tail_idx = ar.debug.dbglog_entry_data.tail_idx ∧
      ar1.debug.dbglog_entry_data.head_idx =
        (ar.debug.dbglog_entry_data.head_idx + buffer.length) % 896 ∧
      (∀ j w, buffer[j]? = some w →
        ar1.debug.dbglog_entry_data.data ((ar.debug.dbglog_entry_data.head_idx + j) % 896) = w) ∧
      (∀ i, (∀ j, j < buffer.length → i ≠ (ar.debug.dbglog_entry_data.head_idx + j) % 896) →
        ar1.debug.dbglog_entry_data.data i = ar.debug.dbglog_entry_data.data i) := by
  obtain ⟨d1, h1, h2, h3, h4⟩ :=
    dbg_save_loop_no_collision buffer ar.debug.dbglog_entry_data _ 0 hh ht hlen
  obtain ⟨d2, n2, h5, h6⟩ :=
    dbg_save_loop_head buffer ar.debug.dbglog_entry_data _ 0 hh rfl
  rw [h1] at h5
  simp only [Option.some.injEq, Prod.mk.injEq] at h5
  rw [← h5.1] at h6
  rw [save_traced_of_no_unread ar buffer hs, h1]
  exact ⟨_, rfl, rfl, h2, h6, h3, h4⟩

theorem dbg_save_all_no_collision (batches : List (List Nat)) :
    ∀ ar : ath10k, ar.debug.dbglog_entry_data.head_idx < 896 →
      ar.debug.dbglog_entry_data.tail_idx < 896 → no_unread_snapshot ar →
      (ar.debug.dbglog_entry_data.head_idx + 896 - ar.debug.dbglog_entry_data.tail_idx) % 896
        + total_words batches < 896 →
      ∃ ar1, dbg_save_all ar batches = some (ar1, 0) ∧
        ar1.debug.dbglog_entry_data.tail_idx = ar.debug.dbglog_entry_data.tail_idx := by
  induction batches with
  | nil =>
    intro ar _ _ _ _
    exact ⟨ar, rfl, rfl⟩
  | cons b bs ih =>
    intro ar hh ht hs hlen
    simp only [total_words, List.map_cons, List.sum_cons] at hlen
    have hb : (ar.debug.dbglog_entry_data.head_idx + 896
        - ar.debug.dbglog_entry_data.tail_idx) % 896 + b.length < 896 := by omega
    obtain ⟨ar1, h1, h2, h3, h4, _, _⟩ := save_traced_no_collision ar b hh ht hs hb
    have hs1 : no_unread_snapshot ar1 := by
      intro cd hcd
      exact hs cd (h2 ▸ hcd)
    obtain ⟨ar2, h5, h6⟩ := ih ar1 (by omega) (by omega) hs1 (by
      simp only [total_words]
      rw [h3, h4]
      omega)
    refine ⟨ar2, ?_, by rw [h6, h3]⟩
    simp only [dbg_save_all, h1, h5, Option.map_some']

theorem dbglog_num_args_zero : dbglog_num_args 0 = 0 := by decide

theorem dbglog_num_args_six : dbglog_num_args 0x18000000 = 6 := by decide

/-- The header word found one past a message boundary of a well-formed stream
is the second word of the next message, and its argument count is the length
of that message less two. -/
theorem header_at_boundary (msgs done rest : List (List Nat)) (v : Nat)
    (hm : ∀ m ∈ msgs, dbglog_msg_ok m = true) (h : msgs = done ++ rest)
    (hv : msgs.flatten[done.flatten.length + 1]? = some v) :
    ∃ m rest2, rest = m :: rest2 ∧ m[1]? = some v ∧
      m.length = dbglog_num_args v + 2 ∧ dbglog_num_args v ≤ 5 := by
  subst h
  cases rest with
  | nil =>
    rw [List.append_nil, List.getElem?_eq_none (by omega)] at hv
    cases hv
  | cons m rest2 =>
    have hok := hm m (by simp)
    rw [List.flatten_append, List.getElem?_append_right (by omega), List.flatten_cons] at hv
    have h1 : done.flatten.length + 1 - done.flatten.length = 1 := by omega
    rw [h1] at hv
    match m, hok, hv with
    | [], hok, _ => simp [dbglog_msg_ok] at hok
    | [_], hok, _ => simp [dbglog_msg_ok] at hok
    | w0 :: hdr :: args, hok, hv =>
      simp only [dbglog_msg_ok, Bool.and_eq_true, beq_iff_eq, decide_eq_true_eq,
        DBGLOG_NUM_ARGS_MAX] at hok
      simp only [List.cons_append, List.getElem?_cons_succ, List.getElem?_cons_zero,
        Option.some.injEq] at hv
      subst hv
      refine ⟨_, rest2, rfl, by simp, ?_, ?_⟩
      · simp only [List.length_cons]; omega
      · omega

/-- The loop keeps the ring in step with the stream: after appending the next
words of the stream the invariant holds again, and if an eviction step ran at
any time, at least 889 words lie between the tail and the head. -/
theorem dbg_save_loop_stream (msgs : List (List Nat))
    (hm : ∀ m ∈ msgs, dbglog_msg_ok m = true) (buffer : List Nat) :
    ∀ (d : ath10k_dbglog_entry_storage) (W n : Nat) (done : List (List Nat)),
      ring_inv msgs d W done →
      (∀ j w, buffer[j]? = some w → msgs.flatten[W + j]? = some w) →
      (0 < n → done.flatten.length + 889 ≤ W) →
      ∃ d1 n1 done1, dbg_save_loop d (W % 896) n buffer = some (d1, n1) ∧
        ring_inv msgs d1 (W + buffer.length) done1 ∧
        (0 < n1 → done1.flatten.length + 889 ≤ W + buffer.length) := by
  induction buffer with
  | nil =>
    intro d W n done hinv _ hfull
    exact ⟨d, n, done, rfl, hinv, hfull⟩
  | cons w rest ih =>
    intro d W n done hinv hbuf hfull
    obtain ⟨⟨tl, htl⟩, hTW, hWT, hhead, htail, hdata⟩ := hinv
    have hz : W % 896 < 896 := Nat.mod_lt _ (by decide)
    have hz1 : (if W % 896 + 1 ≥ 896 then 0 else W % 896 + 1) = (W + 1) % 896 := by
      split <;> omega
    have hW : msgs.flatten[W]? = some w := hbuf 0 w (by simp)
    have hrest : ∀ j v, rest[j]? = some v → msgs.flatten[W + 1 + j]? = some v := by
      intro j v hj
      have := hbuf (j + 1) v (by simpa using hj)
      rw [← this]
      congr 1
      omega
    have hlen : W + (w :: rest).length = W + 1 + rest.length := by
      simp only [List.length_cons]; omega
    -- the data after the write of `w` at ring position `W % 896`
    have hdata1 : ∀ p, done.flatten.length ≤ p → p < W + 1 →
        msgs.flatten[p]? = some ((fun i => if i = W % 896 then w else d.data i) (p % 896)) := by
      intro p hp1 hp2
      by_cases hpW : p = W
      · subst hpW
        simp only [if_true]
        exact hW
      · have hne : p % 896 ≠ W % 896 := by omega
        simp only [hne, if_false]
        exact hdata p hp1 (by omega)
    simp only [dbg_save_loop, dbglog_len_eq, hz, if_true, hz1, hlen]
    by_cases hit : (W + 1) % 896 = d.tail_idx
    · -- the write position met the tail: one eviction step
      have hfullW : W + 1 = done.flatten.length + 896 := by omega
      have hhdr := hdata (done.flatten.length + 1) (by omega) (by omega)
      obtain ⟨m, rest2, hr, _, hmlen, hacnt⟩ :=
        header_at_boundary msgs done tl _ hm htl hhdr
      have hhidx : (d.tail_idx + 1) % 896 = (done.flatten.length + 1) % 896 := by omega
      have hne2 : (done.flatten.length + 1) % 896 ≠ W % 896 := by omega
      have hdone1 : (done ++ [m]).flatten.length = done.flatten.length + m.length := by
        simp only [List.flatten_append, List.length_append, List.flatten_cons,
          List.flatten_nil, List.append_nil]
      have hnot : ¬ dbglog_num_args (d.data ((done.flatten.length + 1) % 896)) > 5 := by
        omega
      have hdec : decide ((W + 1) % 896 = d.tail_idx) = true := by simp [hit]
      have key : ∀ d2 : ath10k_dbglog_entry_storage,
          ring_inv msgs d2 (W + 1) (done ++ [m]) →
          ∃ d1 n1 done1, dbg_save_loop d2 ((W + 1) % 896) (n + 1) rest = some (d1, n1) ∧
            ring_inv msgs d1 (W + 1 + rest.length) done1 ∧
            (0 < n1 → done1.flatten.length + 889 ≤ W + 1 + rest.length) := by
        intro d2 h2
        exact ih d2 (W + 1) (n + 1) (done ++ [m]) h2 hrest (by intro _; omega)
      simp only [hdec, if_true, ath10k_dbg_drop_dbg_buffer, dbglog_len_eq, hhidx, hne2,
        DBGLOG_NUM_ARGS_MAX, hnot, if_false]
      apply key
      refine ⟨⟨rest2, by rw [htl, hr]; simp⟩, by omega, by omega, rfl, ?_, ?_⟩
      · simp only [hdone1]
        omega
      · intro p hp1 hp2
        exact hdata1 p (by omega) hp2
    · -- no collision
      have key : ∀ d2 : ath10k_dbglog_entry_storage,
          ring_inv msgs d2 (W + 1) done →
          ∃ d1 n1 done1, dbg_save_loop d2 ((W + 1) % 896) n rest = some (d1, n1) ∧
            ring_inv msgs d1 (W + 1 + rest.length) done1 ∧
            (0 < n1 → done1.flatten.length + 889 ≤ W + 1 + rest.length) := by
        intro d2 h2
        exact ih d2 (W + 1) n done h2 hrest (by intro h; have := hfull h; omega)
      simp only [hit, decide_False, if_false, Bool.false_eq_true]
      apply key
      exact ⟨⟨tl, htl⟩, by omega, by omega, rfl, htail, hdata1⟩

/-- One call on a ring that is in step with the stream. -/
theorem save_traced_stream (msgs : List (List Nat))
    (hm : ∀ m ∈ msgs, dbglog_msg_ok m = true) (ar : ath10k) (buffer : List Nat)
    (W : Nat) (done : List (List Nat))
    (hinv : ring_inv msgs ar.debug.dbglog_entry_data W done)
    (hs : no_unread_snapshot ar)
    (hbuf : ∀ j w, buffer[j]? = some w → msgs.flatten[W + j]? = some w) :
    ∃ ar1 n1 done1, ath10k_dbg_save_fw_dbg_buffer_traced ar buffer = some (ar1, n1) ∧
      ring_inv msgs ar1.debug.dbglog_entry_data (W + buffer.length) done1 ∧
      (0 < n1 → done1.flatten.length + 889 ≤ W + buffer.length) ∧
      ar1.debug.fw_crash_data = ar.debug.fw_crash_data := by
  obtain ⟨d1, n1, done1, h1, h2, h3⟩ :=
    dbg_save_loop_stream msgs hm buffer ar.debug.dbglog_entry_data W 0 done hinv hbuf
      (by intro h; omega)
  have hhead : ar.debug.dbglog_entry_data.head_idx = W % 896 := hinv.2.2.2.1
  rw [save_traced_of_no_unread ar buffer hs, hhead, h1]
  exact ⟨_, n1, done1, rfl, h2, h3, rfl⟩

/-- A sequence of calls on a ring that is in step with the stream. -/
theorem dbg_save_all_stream (msgs : List (List Nat))
    (hm : ∀ m ∈ msgs, dbglog_msg_ok m = true) (batches : List (List Nat)) :
    ∀ (ar : ath10k) (W : Nat) (done : List (List Nat)),
      ring_inv msgs ar.debug.dbglog_entry_data W done → no_unread_snapshot ar →
      (∀ j w, batches.flatten[j]? = some w → msgs.flatten[W + j]? = some w) →
      ∃ ar1 n1 done1, dbg_save_all ar batches = some (ar1, n1) ∧
        ring_inv msgs ar1.debug.dbglog_entry_data (W + batches.flatten.length) done1 ∧
        no_unread_snapshot ar1 := by
  induction batches with
  | nil =>
    intro ar W done hinv hs _
    exact ⟨ar, 0, done, rfl, hinv, hs⟩
  | cons b bs ih =>
    intro ar W done hinv hs hbuf
    have hb : ∀ j w, b[j]? = some w → msgs.flatten[W + j]? = some w := by
      intro j w hj
      apply hbuf j w
      have hlt : j < b.length := by
        rcases Nat.lt_or_ge j b.length with h | h
        · exact h
        · rw [List.getElem?_eq_none h] at hj; cases hj
      rw [List.flatten_cons, List.getElem?_append_left hlt]
      exact hj
    obtain ⟨ar1, n1, done1, h1, h2, _, h4⟩ := save_traced_stream msgs hm ar b W done hinv hs hb
    have hs1 : no_unread_snapshot ar1 := by
      intro cd hcd
      exact hs cd (h4 ▸ hcd)
    have hbs : ∀ j w, bs.flatten[j]? = some w →
        msgs.flatten[W + b.length + j]? = some w := by
      intro j w hj
      have := hbuf (b.length + j) w (by
        rw [List.flatten_cons, List.getElem?_append_right (by omega)]
        have : b.length + j - b.length = j := by omega
        rw [this]
        exact hj)
      rw [← this]
      congr 1
      omega
    obtain ⟨ar2, n2, done2, h5, h6, h7⟩ := ih ar1 (W + b.length) done1 h2 hs1 hbs
    refine ⟨ar2, n1 + n2, done2, ?_, ?_, h7⟩
    · simp only [dbg_save_all, h1, h5, Option.map_some']
    · have : W + (b :: bs).flatten.length = W + b.length + bs.flatten.length := by
        rw [List.flatten_cons, List.length_append]; omega
      rw [this]
      exact h6

/-! ## The claims about the ring buffer -/

/-- C1: starting from the empty ring buffer (head_idx = tail_idx = 0) with no
unread crash snapshot, every sequence of ath10k_dbg_save_fw_dbg_buffer calls
whose total word count is at most 896 returns, and head_idx after the last call
is the total number of appended words modulo 896. -/
theorem C1_head_is_total_mod_capacity (ar : ath10k) (batches : List (List Nat))
    (hh : ar.debug.dbglog_entry_data.head_idx = 0)
    (_ht : ar.debug.dbglog_entry_data.tail_idx = 0)
    (hs : no_unread_snapshot ar)
    (_htot : total_words batches ≤ ATH10K_DBGLOG_DATA_LEN) :
    ∃ ar1 n, dbg_save_all ar batches = some (ar1, n) ∧
      ar1.debug.dbglog_entry_data.head_idx =
        total_words batches % ATH10K_DBGLOG_DATA_LEN := by
  obtain ⟨ar1, n, h1, h2⟩ := dbg_save_all_head batches ar (by omega) hs
  refine ⟨ar1, n, h1, ?_⟩
  rw [h2, hh, dbglog_len_eq, Nat.zero_add]

/-- C1 at a concrete input: two batches of 3 and 2 words on the empty ring. -/
theorem C1_head_is_total_mod_capacity_witness :
    total_words [[1, 2, 3], [4, 5]] ≤ ATH10K_DBGLOG_DATA_LEN ∧
    ∃ ar1 n, dbg_save_all ar_empty [[1, 2, 3], [4, 5]] = some (ar1, n) ∧
      ar1.debug.dbglog_entry_data.head_idx =
        total_words [[1, 2, 3], [4, 5]] % ATH10K_DBGLOG_DATA_LEN :=
  ⟨by decide,
   C1_head_is_total_mod_capacity ar_empty [[1, 2, 3], [4, 5]] rfl rfl
     (fun _ h => by cases h) (by decide)⟩

/-- C2, as stated, fails when the total is exactly 896: on the empty ring, 895
words followed by one more word (896 in all, within the stated bound) make the
write position wrap to 0, where it meets tail_idx, so
ath10k_dbg_drop_dbg_buffer runs once and tail_idx moves to 2. -/
theorem C2_counterexample_total_896 :
    ar_empty.debug.dbglog_entry_data.head_idx = 0 ∧
    ar_empty.debug.dbglog_entry_data.tail_idx = 0 ∧
    no_unread_snapshot ar_empty ∧
    total_words [List.replicate 895 0, [0]] ≤ ATH10K_DBGLOG_DATA_LEN ∧
    (dbg_save_all ar_empty [List.replicate 895 0, [0]]).map
      (fun r => (r.1.debug.dbglog_entry_data.tail_idx, r.2)) = some (2, 1) := by
  have hs : no_unread_snapshot ar_empty := fun _ h => by cases h
  refine ⟨rfl, rfl, hs, ?_, ?_⟩
  · simp only [total_words, List.map_cons, List.map_nil, List.length_replicate,
      List.length_cons, List.length_nil, List.sum_cons, List.sum_nil, dbglog_len_eq]
    decide
  obtain ⟨ar1, h1, h2, h3, h4, h5, _⟩ :=
    save_traced_no_collision ar_empty (List.replicate 895 0) (by decide) (by decide) hs
      (by rw [List.length_replicate]; decide)
  have hs1 : no_unread_snapshot ar1 := by
    intro cd hcd
    exact hs cd (h2 ▸ hcd)
  have hd1 : ar1.debug.dbglog_entry_data.data 1 = 0 := by
    have := h5 1 0 (by rw [List.getElem?_replicate]; rfl)
    exact this
  have hh1 : ar1.debug.dbglog_entry_data.head_idx = 895 := by
    rw [h4, List.length_replicate]; rfl
  have ht1 : ar1.debug.dbglog_entry_data.tail_idx = 0 := by
    rw [h3]; rfl
  simp only [dbg_save_all, h1, save_traced_of_no_unread ar1 [0] hs1, dbg_save_loop, hh1, ht1,
    dbglog_len_eq, ath10k_dbg_drop_dbg_buffer]
  simp [hd1, dbglog_num_args_zero, DBGLOG_NUM_ARGS_MAX]

/-- C2 (amended): starting from the empty ring buffer with no unread crash
snapshot, every sequence of ath10k_dbg_save_fw_dbg_buffer calls whose total
word count is at most 895 (below the capacity 896) causes no eviction:
ath10k_dbg_drop_dbg_buffer is never invoked and tail_idx is still 0 after the
last call. -/
theorem C2_no_eviction_below_capacity (ar : ath10k) (batches : List (List Nat))
    (hh : ar.debug.dbglog_entry_data.head_idx = 0)
    (ht : ar.debug.dbglog_entry_data.tail_idx = 0)
    (hs : no_unread_snapshot ar)
    (htot : total_words batches < ATH10K_DBGLOG_DATA_LEN) :
    ∃ ar1, dbg_save_all ar batches = some (ar1, 0) ∧
      ar1.debug.dbglog_entry_data.tail_idx = 0 := by
  rw [dbglog_len_eq] at htot
  obtain ⟨ar1, h1, h2⟩ := dbg_save_all_no_collision batches ar (by omega) (by omega) hs
    (by rw [hh, ht]; omega)
  exact ⟨ar1, h1, by rw [h2, ht]⟩

theorem total_words_witness :
    total_words [List.replicate 890 1, [2, 3, 4, 5, 6]] < ATH10K_DBGLOG_DATA_LEN := by
  simp only [total_words, List.map_cons, List.map_nil, List.length_replicate,
    List.length_cons, List.length_nil, List.sum_cons, List.sum_nil, dbglog_len_eq]
  decide

/-- C2 (amended) at a concrete input: 895 words in two batches. -/
theorem C2_no_eviction_below_capacity_witness :
    total_words [List.replicate 890 1, [2, 3, 4, 5, 6]] < ATH10K_DBGLOG_DATA_LEN ∧
    ∃ ar1, dbg_save_all ar_empty [List.replicate 890 1, [2, 3, 4, 5, 6]] = some (ar1, 0) ∧
      ar1.debug.dbglog_entry_data.tail_idx = 0 :=
  ⟨total_words_witness,
   C2_no_eviction_below_capacity ar_empty [List.replicate 890 1, [2, 3, 4, 5, 6]] rfl rfl
     (fun _ h => by cases h) total_words_witness⟩

/-- C3: for every ring state with head_idx < 896 and tail_idx < 896, no unread
crash snapshot, and every batch of len words with
((head_idx - tail_idx) mod 896) + len < 896, ath10k_dbg_save_fw_dbg_buffer
returns, runs no eviction step, leaves tail_idx unchanged, sets head_idx to
(head_idx + len) mod 896, stores batch word i at data[(head_idx + i) mod 896]
for every i < len, and leaves every other data word unchanged. -/
theorem C3_append_without_collision (ar : ath10k) (buffer : List Nat)
    (hh : ar.debug.dbglog_entry_data.head_idx < ATH10K_DBGLOG_DATA_LEN)
    (ht : ar.debug.dbglog_entry_data.tail_idx < ATH10K_DBGLOG_DATA_LEN)
    (hs : no_unread_snapshot ar)
    (hlen : ((ar.debug.dbglog_entry_data.head_idx : Int) - ar.debug.dbglog_entry_data.tail_idx)
        % (ATH10K_DBGLOG_DATA_LEN : Int) + buffer.length < ATH10K_DBGLOG_DATA_LEN) :
    ∃ ar1, ath10k_dbg_save_fw_dbg_buffer ar buffer = some ar1 ∧
      ath10k_dbg_save_fw_dbg_buffer_drops ar buffer = some 0 ∧
      ar1.debug.dbglog_entry_data.tail_idx = ar.debug.dbglog_entry_data.tail_idx ∧
      ar1.debug.dbglog_entry_data.head_idx =
        (ar.debug.dbglog_entry_data.head_idx + buffer.length) % ATH10K_DBGLOG_DATA_LEN ∧
      (∀ i w, buffer[i]? = some w →
        ar1.debug.dbglog_entry_data.data
          ((ar.debug.dbglog_entry_data.head_idx + i) % ATH10K_DBGLOG_DATA_LEN) = w) ∧
      (∀ k, (∀ i, i < buffer.length →
          k ≠ (ar.debug.dbglog_entry_data.head_idx + i) % ATH10K_DBGLOG_DATA_LEN) →
        ar1.debug.dbglog_entry_data.data k = ar.debug.dbglog_entry_data.data k) := by
  simp only [dbglog_len_eq] at hh ht hlen ⊢
  obtain ⟨ar1, h1, _, h3, h4, h5, h6⟩ := save_traced_no_collision ar buffer hh ht hs
    (by push_cast at hlen; omega)
  refine ⟨ar1, ?_, ?_, h3, h4, h5, h6⟩
  · simp only [ath10k_dbg_save_fw_dbg_buffer, h1, Option.map_some']
  · simp only [ath10k_dbg_save_fw_dbg_buffer_drops, h1, Option.map_some']

/-- C3 at the concrete input of the scenario: the empty buffer and 10 messages
of 3 words each, appended in one call, give head_idx = 30 and tail_idx = 0
without an eviction step. -/
theorem C3_append_without_collision_witness :
    ∃ ar1, ath10k_dbg_save_fw_dbg_buffer ar_empty ten_messages = some ar1 ∧
      ath10k_dbg_save_fw_dbg_buffer_drops ar_empty ten_messages = some 0 ∧
      ar1.debug.dbglog_entry_data.head_idx = 30 ∧
      ar1.debug.dbglog_entry_data.tail_idx = 0 := by
  obtain ⟨ar1, h1, h2, h3, h4, _, _⟩ :=
    C3_append_without_collision ar_empty ten_messages (by decide) (by decide)
      (fun _ h => by cases h) (by decide)
  exact ⟨ar1, h1, h2, by rw [h4]; decide, by rw [h3]; rfl⟩

set_option maxRecDepth 100000 in
/-- The scenario of C3 evaluated: ten separate calls with one 3-word message
each, on the empty buffer, leave head_idx = 30 and tail_idx = 0 and run no
eviction step. -/
theorem scenario_ten_messages_of_three_words :
    (dbg_save_all ar_empty (List.replicate 10 [7, 0x04000000, 9])).map
      (fun r => (r.1.debug.dbglog_entry_data.head_idx,
        r.1.debug.dbglog_entry_data.tail_idx, r.2)) = some (30, 0, 0) := by
  decide

/-- C4: if the words appended since the empty state (head_idx = tail_idx = 0,
no unread snapshot) are the beginning of a concatenation of well-formed log
messages, cut into append batches at arbitrary points, then every append
returns, and after every append in which an eviction occurred tail_idx is the
ring position of the first word of a message of that stream: the message
begins between 889 and 895 words before the end of the appended words, its
header word is stored intact at data[(tail_idx + 1) mod 896], and the
argument-count field of that word is the argument count of the message, a
value in 0..5. -/
theorem C4_tail_on_message_boundary (ar : ath10k) (msgs batches : List (List Nat))
    (buffer : List Nat)
    (hh : ar.debug.dbglog_entry_data.head_idx = 0)
    (ht : ar.debug.dbglog_entry_data.tail_idx = 0)
    (hs : no_unread_snapshot ar)
    (hm : ∀ m ∈ msgs, dbglog_msg_ok m = true)
    (hp : (batches ++ [buffer]).flatten <+: msgs.flatten) :
    ∃ ar1 n1 ar2 n2, dbg_save_all ar batches = some (ar1, n1) ∧
      ath10k_dbg_save_fw_dbg_buffer_traced ar1 buffer = some (ar2, n2) ∧
      (0 < n2 → ∃ done m rest, msgs = done ++ m :: rest ∧
        ar2.debug.dbglog_entry_data.tail_idx =
          done.flatten.length % ATH10K_DBGLOG_DATA_LEN ∧
        done.flatten.length + 889 ≤ (batches ++ [buffer]).flatten.length ∧
        (batches ++ [buffer]).flatten.length ≤ done.flatten.length + 895 ∧
        m[1]? = some (ar2.debug.dbglog_entry_data.data
          ((ar2.debug.dbglog_entry_data.tail_idx + 1) % ATH10K_DBGLOG_DATA_LEN)) ∧
        m.length = 2 + dbglog_num_args (ar2.debug.dbglog_entry_data.data
          ((ar2.debug.dbglog_entry_data.tail_idx + 1) % ATH10K_DBGLOG_DATA_LEN)) ∧
        dbglog_num_args (ar2.debug.dbglog_entry_data.data
          ((ar2.debug.dbglog_entry_data.tail_idx + 1) % ATH10K_DBGLOG_DATA_LEN))
            ≤ DBGLOG_NUM_ARGS_MAX) := by
  obtain ⟨t, ht2⟩ := hp
  have hall : ∀ (j w : Nat), (batches.flatten ++ buffer)[j]? = some w →
      msgs.flatten[j]? = some w := by
    intro j w hj
    have hlt : j < (batches.flatten ++ buffer).length := by
      rcases Nat.lt_or_ge j (batches.flatten ++ buffer).length with h | h
      · exact h
      · rw [List.getElem?_eq_none h] at hj; cases hj
    rw [← ht2, List.flatten_append, List.flatten_cons, List.flatten_nil, List.append_nil,
      List.getElem?_append_left hlt]
    exact hj
  have hinv0 : ring_inv msgs ar.debug.dbglog_entry_data 0 [] :=
    ⟨⟨msgs, rfl⟩, by simp, by simp, by rw [hh], by rw [ht]; rfl, by
      intro p _ hp2; omega⟩
  obtain ⟨ar1, n1, done1, h1, h2, h3⟩ :=
    dbg_save_all_stream msgs hm batches ar 0 [] hinv0 hs (by
      intro j w hj
      rw [Nat.zero_add]
      apply hall j w
      have hlt : j < batches.flatten.length := by
        rcases Nat.lt_or_ge j batches.flatten.length with h | h
        · exact h
        · rw [List.getElem?_eq_none h] at hj; cases hj
      rw [List.getElem?_append_left hlt]
      exact hj)
  obtain ⟨ar2, n2, done2, h4, h5, h6, _⟩ :=
    save_traced_stream msgs hm ar1 buffer (0 + batches.flatten.length) done1 h2 h3 (by
      intro j w hj
      apply hall (0 + batches.flatten.length + j) w
      rw [List.getElem?_append_right (by omega)]
      have : 0 + batches.flatten.length + j - batches.flatten.length = j := by omega
      rw [this]
      exact hj)
  refine ⟨ar1, n1, ar2, n2, h1, h4, ?_⟩
  intro hn
  have hfull := h6 hn
  obtain ⟨⟨tl, htl⟩, _, hWT, _, htail, hdata⟩ := h5
  have hhdr := hdata (done2.flatten.length + 1) (by omega) (by omega)
  obtain ⟨m, rest2, hr, hm1, hmlen, hacnt⟩ :=
    header_at_boundary msgs done2 tl _ hm htl hhdr
  have hW : (batches ++ [buffer]).flatten.length = 0 + batches.flatten.length + buffer.length := by
    rw [List.flatten_append, List.flatten_cons, List.flatten_nil, List.append_nil,
      List.length_append]
    omega
  have hidx : (ar2.debug.dbglog_entry_data.tail_idx + 1) % 896
      = (done2.flatten.length + 1) % 896 := by omega
  simp only [dbglog_len_eq, DBGLOG_NUM_ARGS_MAX, hidx, hW]
  exact ⟨done2, m, rest2, by rw [htl, hr], htail, hfull, hWT, hm1, by omega, hacnt⟩

theorem stream_msgs_ok : ∀ m ∈ stream_msgs, dbglog_msg_ok m = true := by
  intro m h
  rw [List.eq_of_mem_replicate h]
  decide

theorem stream_cut : ([[7, 0x04000000]] ++ [stream_rest]).flatten <+: stream_msgs.flatten := by
  have h : ([[7, 0x04000000]] ++ [stream_rest]).flatten = stream_msgs.flatten := by
    rw [stream_msgs, show (300 : Nat) = 299 + 1 from rfl, List.replicate_succ]
    simp only [stream_rest, List.flatten_append, List.flatten_cons, List.flatten_nil,
      List.append_nil, List.cons_append, List.nil_append]
  rw [h]

/-- C4 at a concrete input: the 900-word stream of 300 three-word messages,
appended to the empty ring as a batch of 2 words (a cut inside the first
message) and a batch of the remaining 898 words. -/
theorem C4_tail_on_message_boundary_witness :
    ∃ ar1 n1 ar2 n2, dbg_save_all ar_empty [[7, 0x04000000]] = some (ar1, n1) ∧
      ath10k_dbg_save_fw_dbg_buffer_traced ar1 stream_rest = some (ar2, n2) ∧
      (0 < n2 → ∃ done m rest, stream_msgs = done ++ m :: rest ∧
        ar2.debug.dbglog_entry_data.tail_idx =
          done.flatten.length % ATH10K_DBGLOG_DATA_LEN ∧
        done.flatten.length + 889 ≤ ([[7, 0x04000000]] ++ [stream_rest]).flatten.length ∧
        ([[7, 0x04000000]] ++ [stream_rest]).flatten.length ≤ done.flatten.length + 895 ∧
        m[1]? = some (ar2.debug.dbglog_entry_data.data
          ((ar2.debug.dbglog_entry_data.tail_idx + 1) % ATH10K_DBGLOG_DATA_LEN)) ∧
        m.length = 2 + dbglog_num_args (ar2.debug.dbglog_entry_data.data
          ((ar2.debug.dbglog_entry_data.tail_idx + 1) % ATH10K_DBGLOG_DATA_LEN)) ∧
        dbglog_num_args (ar2.debug.dbglog_entry_data.data
          ((ar2.debug.dbglog_entry_data.tail_idx + 1) % ATH10K_DBGLOG_DATA_LEN))
            ≤ DBGLOG_NUM_ARGS_MAX) :=
  C4_tail_on_message_boundary ar_empty stream_msgs [[7, 0x04000000]] stream_rest rfl rfl
    (fun _ h => by cases h) stream_msgs_ok stream_cut

/-- C5, at a concrete input: on the ring with head_idx 0 and tail_idx 1 whose
word data[2] carries the argument count 6, appending one word makes the write
position meet tail_idx and the eviction step takes its corrupted branch; the
call leaves head_idx = 1 and tail_idx = 0, so tail_idx differs from head_idx
and one word remains in the ring. -/
theorem C5_resync_leaves_one_word :
    ar_bad_header.debug.dbglog_entry_data.head_idx < ATH10K_DBGLOG_DATA_LEN ∧
    ar_bad_header.debug.dbglog_entry_data.tail_idx < ATH10K_DBGLOG_DATA_LEN ∧
    no_unread_snapshot ar_bad_header ∧
    (ar_bad_header.debug.dbglog_entry_data.head_idx + 1) % ATH10K_DBGLOG_DATA_LEN
      = ar_bad_header.debug.dbglog_entry_data.tail_idx ∧
    dbglog_num_args (ar_bad_header.debug.dbglog_entry_data.data
      ((ar_bad_header.debug.dbglog_entry_data.tail_idx + 1) % ATH10K_DBGLOG_DATA_LEN)) = 6 ∧
    (ath10k_dbg_save_fw_dbg_buffer_traced ar_bad_header [7]).map
      (fun r => (r.1.debug.dbglog_entry_data.head_idx,
        r.1.debug.dbglog_entry_data.tail_idx, r.2)) = some (1, 0, 1) :=
  ⟨(by decide), (by decide), (fun _ h => by cases h), (by decide), (by decide), (by decide)⟩

/-- C6: for every state in which the crash snapshot exists and
crashed_since_read is true, and for every batch of words of any length,
ath10k_dbg_save_fw_dbg_buffer returns and is a no-op: the state it leaves is
the state it found (head_idx, tail_idx and every data word included), and no
eviction step runs. -/
theorem C6_no_save_while_snapshot_unread (ar : ath10k) (crash_data : ath10k_fw_crash_data)
    (buffer : List Nat)
    (hc : ar.debug.fw_crash_data = some crash_data)
    (hr : crash_data.crashed_since_read = true) :
    ath10k_dbg_save_fw_dbg_buffer ar buffer = some ar ∧
      ath10k_dbg_save_fw_dbg_buffer_drops ar buffer = some 0 := by
  simp [ath10k_dbg_save_fw_dbg_buffer, ath10k_dbg_save_fw_dbg_buffer_drops,
    ath10k_dbg_save_fw_dbg_buffer_traced, hc, hr]

/-- C6 at a concrete input: an unread snapshot and a batch of three words. -/
theorem C6_no_save_while_snapshot_unread_witness :
    ath10k_dbg_save_fw_dbg_buffer (ar_snapshot true) [1, 2, 3] = some (ar_snapshot true) ∧
      ath10k_dbg_save_fw_dbg_buffer_drops (ar_snapshot true) [1, 2, 3] = some 0 :=
  C6_no_save_while_snapshot_unread (ar_snapshot true) (crash_data_zero true) [1, 2, 3] rfl rfl

/-! ## Facts about the builder -/

theorem u32_int_of_u32 (a : Int) (s x : Nat) :
    u32 (a + ((s : Int) + int_of_u32 x)) = u32 (a + ((s + x : Nat) : Int)) := by
  unfold u32 int_of_u32
  split
  · push_cast
    rfl
  · congr 1
    push_cast
    omega

theorem put_tlv_sofar (c : dump_cursor) (t l : Nat) (p : Option (List Nat)) (s : Int) :
    (put_tlv c t l p s).sofar = u32 (c.sofar + s) := rfl

theorem dump_emit_sofar (k : kernel_consts) (ar : ath10k)
    (crash_data : ath10k_fw_crash_data) (len : Nat) :
    (dump_emit k ar crash_data len).sofar = dump_len k ar := by
  unfold dump_emit dump_emit_rom_bss dump_emit_ram_bss dump_emit_fixed dump_emit_exc_stack
    dump_emit_stack dump_emit_dbglog dump_emit_registers dump_emit_header dump_len
  simp only [apply_ite dump_cursor.sofar, put_tlv_sofar, u32_int_of_u32, Int.zero_add,
    sizeof_tlv_dump_data]

theorem u32_lt (x : Int) : u32 x < 2 ^ 32 := by
  unfold u32
  omega

theorem dump_len_lt (k : kernel_consts) (ar : ath10k) : dump_len k ar < 2 ^ 32 := by
  unfold dump_len
  simp only []
  split <;> split <;> exact u32_lt _

theorem le32_length (x : Nat) : (le32 x).length = 4 := rfl

theorem le64_length (x : Int) : (le64 x).length = 8 := rfl

theorem mem_le32_length (a : Nat → Nat) (n : Nat) : (mem_le32 a n).length = 4 * n := by
  induction n with
  | zero => rfl
  | succ m ih =>
    unfold mem_le32 at ih ⊢
    rw [List.range_succ, List.map_append, List.flatten_append, List.length_append, ih]
    simp only [List.map_cons, List.map_nil, List.flatten_cons, List.flatten_nil,
      List.append_nil, le32_length]
    omega

theorem mem_u8_length (a : Nat → Nat) (n : Nat) : (mem_u8 a n).length = n := by
  simp [mem_u8]

theorem strlcpy_field_length (n : Nat) (s : List Nat) : (strlcpy_field n s).length = n := by
  unfold strlcpy_field
  simp only [List.length_append, List.length_replicate, List.length_take]
  omega

theorem dump_file_header_length (k : kernel_consts) (ar : ath10k)
    (crash_data : ath10k_fw_crash_data) (len : Nat) :
    (dump_file_header k ar crash_data len).length = sizeof_dump_file_data k := by
  unfold dump_file_header sizeof_dump_file_data
  simp only [List.length_append, strlcpy_field_length, le32_length, le64_length,
    mem_u8_length, List.length_replicate]

theorem le32_decode_le32 (x : Nat) : le32_decode (le32 x) = x % 2 ^ 32 := by
  unfold le32 le32_decode
  simp only []
  omega

theorem buf_write_spec (buf : List Nat) (off : Nat) (bytes b1 : List Nat)
    (h : buf_write buf off bytes = some b1) :
    off + bytes.length ≤ buf.length ∧ b1.length = buf.length ∧
      b1.take (off + bytes.length) = buf.take off ++ bytes := by
  unfold buf_write at h
  split at h
  · rename_i hle
    simp only [Option.some.injEq] at h
    subst h
    refine ⟨hle, ?_, ?_⟩
    · simp only [List.length_append, List.length_take, List.length_drop]
      omega
    · have hl : (List.take off buf ++ bytes).length = off + bytes.length := by
        simp only [List.length_append, List.length_take]
        omega
      rw [← hl, List.take_left]
  · cases h

theorem buf_write_ok (buf : List Nat) (off : Nat) (bytes : List Nat)
    (h : off + bytes.length ≤ buf.length) :
    ∃ b1, buf_write buf off bytes = some b1 := by
  unfold buf_write
  rw [if_pos h]
  exact ⟨_, rfl⟩

/-- A record that is written extends the written part of the buffer. -/
theorem put_tlv_written (c : dump_cursor) (t l : Nat) (pl : List Nat) (s : Int)
    (len : Nat) (pre : List Nat) (b1 : List Nat)
    (hw : written c len pre)
    (hs : pre.length + 8 + pl.length < 2 ^ 32 → u32 (c.sofar + s) = c.sofar + 8 + pl.length)
    (hlen : len < 2 ^ 32)
    (h : (put_tlv c t l (some pl) s).buf = some b1) :
    written (put_tlv c t l (some pl) s) len (pre ++ tlv_bytes t l pl) := by
  unfold tlv_bytes
  obtain ⟨b, hb, hbl, hso, _, hpre⟩ := hw
  simp only [put_tlv, hb] at h
  obtain ⟨h1, h2, h3⟩ := buf_write_spec _ _ _ _ h
  have hlen2 : (le32 t ++ le32 l ++ pl).length = 8 + pl.length := by
    simp only [List.length_append, le32_length]
  rw [hlen2] at h1 h3
  have hfit : pre.length + 8 + pl.length < 2 ^ 32 := by omega
  refine ⟨b1, ?_, by omega, ?_, ?_, ?_⟩
  · simp only [put_tlv, hb]
    exact h
  · simp only [put_tlv_sofar, hs hfit, List.length_append, hlen2]
    omega
  · simp only [List.length_append, hlen2]
    omega
  · have : (pre ++ (le32 t ++ le32 l ++ pl)).length = c.sofar + (8 + pl.length) := by
      simp only [List.length_append, hlen2]
      omega
    rw [this, h3, hso, hpre]

theorem put_tlv_buf_some (c : dump_cursor) (t l : Nat) (p : Option (List Nat)) (s : Int)
    (b1 : List Nat) (h : (put_tlv c t l p s).buf = some b1) :
    ∃ b pl, c.buf = some b ∧ p = some pl ∧ b1.length = b.length ∧
      b1.take c.sofar = b.take c.sofar := by
  unfold put_tlv at h
  simp only [] at h
  cases hb : c.buf with
  | none => simp [hb] at h
  | some b =>
    cases hp : p with
    | none => simp [hb, hp] at h
    | some pl =>
      simp only [hb, hp] at h
      obtain ⟨h1, h2, h3⟩ := buf_write_spec _ _ _ _ h
      refine ⟨b, pl, rfl, rfl, h2, ?_⟩
      have := congrArg (List.take c.sofar) h3
      rw [List.take_take, List.take_append_of_le_length (by
        simp only [List.length_take]; omega), List.take_take] at this
      simpa using this

theorem u32_of_nat (n : Nat) (h : n < 2 ^ 32) : u32 (n : Int) = n := by
  unfold u32
  omega

theorem u32_int_of_u32_eq (x : Nat) (h : x < 2 ^ 32) : u32 (int_of_u32 x) = x := by
  unfold u32 int_of_u32
  split <;> omega

theorem memcpy_from_some (src : List Nat) (n : Int) (pl : List Nat)
    (h : memcpy_from src n = some pl) :
    0 ≤ n ∧ n ≤ (src.length : Int) ∧ pl = src.take n.toNat ∧ (pl.length : Int) = n := by
  unfold memcpy_from at h
  split at h
  · rename_i hn
    simp only [Option.some.injEq] at h
    subst h
    refine ⟨hn.1, hn.2, rfl, ?_⟩
    simp only [List.length_take]
    omega
  · cases h

theorem memcpy_from_whole (src : List Nat) (n : Nat) (pl : List Nat)
    (hn : src.length = n) (hlt : n < 2 ^ 32)
    (h : memcpy_from src (int_of_u32 n) = some pl) :
    n < 2 ^ 31 ∧ pl = src := by
  obtain ⟨h0, h1, h2, _⟩ := memcpy_from_some _ _ _ h
  unfold int_of_u32 at h0 h1 h2
  split at h0
  · rename_i hlt2
    refine ⟨hlt2, ?_⟩
    rw [h2, if_pos hlt2]
    simp only [Int.toNat_ofNat]
    rw [← hn, List.take_length]
  · omega

/-- A record that is written leaves the bytes before it as they were and
moves the running offset forward inside the allocation. -/
theorem put_tlv_keeps (c : dump_cursor) (t l : Nat) (p : Option (List Nat)) (s : Int)
    (b b1 : List Nat) (hb : c.buf = some b) (hlen : b.length < 2 ^ 32)
    (hs : ∀ pl, p = some pl → c.sofar + 8 + pl.length < 2 ^ 32 →
      u32 (c.sofar + s) = c.sofar + 8 + pl.length)
    (h : (put_tlv c t l p s).buf = some b1) :
    b1.length = b.length ∧ b1.take c.sofar = b.take c.sofar ∧
      c.sofar ≤ (put_tlv c t l p s).sofar ∧ (put_tlv c t l p s).sofar ≤ b.length := by
  obtain ⟨b2, pl, hb2, hp, h1, h2⟩ := put_tlv_buf_some c t l p s b1 h
  rw [hb] at hb2
  simp only [Option.some.injEq] at hb2
  subst hb2
  subst hp
  simp only [put_tlv, hb] at h
  obtain ⟨h3, _, _⟩ := buf_write_spec _ _ _ _ h
  simp only [List.length_append, le32_length] at h3
  have := hs pl rfl (by omega)
  simp only [put_tlv_sofar, this]
  exact ⟨h1, h2, by omega, by omega⟩

theorem bss_size (c : dump_cursor) (src : List Nat) (x : Nat) :
    ∀ pl, memcpy_from src (int_of_u32 x) = some pl → c.sofar + 8 + pl.length < 2 ^ 32 →
      u32 (c.sofar + ((sizeof_tlv_dump_data : Nat) + int_of_u32 x)) = c.sofar + 8 + pl.length := by
  intro pl hp hfit
  obtain ⟨h0, _, _, h3⟩ := memcpy_from_some _ _ _ hp
  rw [← h3]
  unfold u32 sizeof_tlv_dump_data
  omega

theorem dump_emit_ram_bss_keeps (ar : ath10k) (cd : ath10k_fw_crash_data) (c : dump_cursor)
    (b b1 : List Nat) (hb : c.buf = some b) (hlen : b.length < 2 ^ 32)
    (hso : c.sofar ≤ b.length)
    (h : (dump_emit_ram_bss ar cd c).buf = some b1) :
    b1.length = b.length ∧ b1.take c.sofar = b.take c.sofar ∧
      c.sofar ≤ (dump_emit_ram_bss ar cd c).sofar ∧
      (dump_emit_ram_bss ar cd c).sofar ≤ b.length := by
  unfold dump_emit_ram_bss at h ⊢
  split at h
  · rename_i hc
    simp only [if_pos hc]
    exact put_tlv_keeps c _ _ _ _ b b1 hb hlen (bss_size c _ _) h
  · rename_i hc
    simp only [if_neg hc]
    rw [hb] at h
    simp only [Option.some.injEq] at h
    subst h
    exact ⟨rfl, rfl, Nat.le_refl _, hso⟩

theorem dump_emit_rom_bss_keeps (ar : ath10k) (cd : ath10k_fw_crash_data) (c : dump_cursor)
    (b b1 : List Nat) (hb : c.buf = some b) (hlen : b.length < 2 ^ 32)
    (hso : c.sofar ≤ b.length)
    (h : (dump_emit_rom_bss ar cd c).buf = some b1) :
    b1.length = b.length ∧ b1.take c.sofar = b.take c.sofar ∧
      c.sofar ≤ (dump_emit_rom_bss ar cd c).sofar ∧
      (dump_emit_rom_bss ar cd c).sofar ≤ b.length := by
  unfold dump_emit_rom_bss at h ⊢
  split at h
  · rename_i hc
    simp only [if_pos hc]
    exact put_tlv_keeps c _ _ _ _ b b1 hb hlen (bss_size c _ _) h
  · rename_i hc
    simp only [if_neg hc]
    rw [hb] at h
    simp only [Option.some.injEq] at h
    subst h
    exact ⟨rfl, rfl, Nat.le_refl _, hso⟩

theorem dump_emit_ram_bss_buf_some (ar : ath10k) (cd : ath10k_fw_crash_data)
    (c : dump_cursor) (b1 : List Nat) (h : (dump_emit_ram_bss ar cd c).buf = some b1) :
    ∃ b, c.buf = some b := by
  unfold dump_emit_ram_bss at h
  split at h
  · obtain ⟨b, _, hb, _⟩ := put_tlv_buf_some _ _ _ _ _ _ h
    exact ⟨b, hb⟩
  · exact ⟨b1, h⟩

theorem dump_emit_rom_bss_buf_some (ar : ath10k) (cd : ath10k_fw_crash_data)
    (c : dump_cursor) (b1 : List Nat) (h : (dump_emit_rom_bss ar cd c).buf = some b1) :
    ∃ b, c.buf = some b := by
  unfold dump_emit_rom_bss at h
  split at h
  · obtain ⟨b, _, hb, _⟩ := put_tlv_buf_some _ _ _ _ _ _ h
    exact ⟨b, hb⟩
  · exact ⟨b1, h⟩

theorem int_of_u32_dbglog : int_of_u32 sizeof_dbglog_entry_data = 3592 := by
  decide

theorem u32_dbglog : u32 3592 = sizeof_dbglog_entry_data := by
  decide

theorem dbglog_payload_length (ar : ath10k) :
    (le32 ar.debug.dbglog_entry_data.head_idx
      ++ le32 ar.debug.dbglog_entry_data.tail_idx
      ++ mem_le32 ar.debug.dbglog_entry_data.data ATH10K_DBGLOG_DATA_LEN).length = 3592 := by
  simp only [List.length_append, le32_length, mem_le32_length, dbglog_len_eq]

theorem stack_image_length (k : kernel_consts) (a : Nat → Nat) :
    (mem_le32 a (k.ATH10K_FW_STACK_SIZE / 4)).length = sizeof_stack_buf k := by
  rw [mem_le32_length, sizeof_stack_buf]

theorem registers_image_length (k : kernel_consts) (a : Nat → Nat) :
    (mem_le32 a k.REG_DUMP_COUNT_QCA988X).length = sizeof_registers k := by
  rw [mem_le32_length, sizeof_registers]

theorem dump_emit_header_written (k : kernel_consts) (ar : ath10k)
    (cd : ath10k_fw_crash_data) (len : Nat) (b0 : List Nat) (hlen : len < 2 ^ 32)
    (h : (dump_emit_header k ar cd len).buf = some b0) :
    written (dump_emit_header k ar cd len) len (dump_file_header k ar cd len) := by
  have hb := h
  unfold dump_emit_header at hb
  simp only [] at hb
  obtain ⟨hh1, hh2, hh3⟩ := buf_write_spec _ _ _ _ hb
  rw [dump_file_header_length] at hh1 hh3
  rw [Nat.zero_add, List.length_replicate] at hh1
  rw [List.length_replicate] at hh2
  rw [Nat.zero_add, List.take_zero, List.nil_append] at hh3
  refine ⟨b0, h, hh2, ?_, ?_, ?_⟩
  · rw [dump_file_header_length]
    unfold dump_emit_header
    simp only []
    rw [Int.zero_add]
    exact u32_int_of_u32_eq _ (by omega)
  · rw [dump_file_header_length]; exact hh1
  · rw [dump_file_header_length]; exact hh3

theorem dump_emit_registers_written (k : kernel_consts) (cd : ath10k_fw_crash_data)
    (c : dump_cursor) (len : Nat) (pre b1 : List Nat) (hw : written c len pre)
    (hlen : len < 2 ^ 32) (h : (dump_emit_registers k cd c).buf = some b1) :
    written (dump_emit_registers k cd c) len
      (pre ++ tlv_bytes ATH10K_FW_CRASH_DUMP_REGISTERS (sizeof_registers k)
        (mem_le32 cd.registers k.REG_DUMP_COUNT_QCA988X)) := by
  unfold dump_emit_registers at h ⊢
  refine put_tlv_written _ _ _ _ _ len _ b1 hw ?_ hlen h
  intro hfit
  rw [registers_image_length] at hfit ⊢
  obtain ⟨_, _, _, hso, _, _⟩ := hw
  rw [hso] at *
  unfold u32 sizeof_tlv_dump_data
  push_cast
  omega

theorem dump_emit_dbglog_written (ar : ath10k)
    (c : dump_cursor) (len : Nat) (pre b1 : List Nat) (hw : written c len pre)
    (hlen : len < 2 ^ 32) (h : (dump_emit_dbglog ar c).buf = some b1) :
    written (dump_emit_dbglog ar c) len
      (pre ++ tlv_bytes ATH10K_FW_CRASH_DUMP_DBGLOG sizeof_dbglog_entry_data
        (le32 ar.debug.dbglog_entry_data.head_idx
          ++ le32 ar.debug.dbglog_entry_data.tail_idx
          ++ mem_le32 ar.debug.dbglog_entry_data.data ATH10K_DBGLOG_DATA_LEN)) := by
  unfold dump_emit_dbglog at h ⊢
  simp only [int_of_u32_dbglog, u32_dbglog] at h ⊢
  refine put_tlv_written _ _ _ _ _ len _ b1 hw ?_ hlen h
  intro hfit
  rw [dbglog_payload_length] at hfit ⊢
  obtain ⟨_, _, _, hso, _, _⟩ := hw
  rw [hso] at *
  unfold u32 sizeof_tlv_dump_data
  push_cast
  omega

theorem dump_emit_stack_written (k : kernel_consts) (cd : ath10k_fw_crash_data)
    (c : dump_cursor) (len : Nat) (pre b1 : List Nat) (hw : written c len pre)
    (hlen : len < 2 ^ 32) (hS : sizeof_stack_buf k < 2 ^ 32)
    (h : (dump_emit_stack k cd c).buf = some b1) :
    written (dump_emit_stack k cd c) len
      (pre ++ tlv_bytes ATH10K_FW_CRASH_DUMP_STACK (sizeof_stack_buf k)
        (mem_le32 cd.stack_buf (k.ATH10K_FW_STACK_SIZE / 4))) := by
  unfold dump_emit_stack at h ⊢
  simp only [] at h ⊢
  obtain ⟨_, pl, _, hp, _, _⟩ := put_tlv_buf_some _ _ _ _ _ _ h
  obtain ⟨hS31, hpl⟩ := memcpy_from_whole _ _ _ (stack_image_length k _) hS hp
  subst hpl
  rw [hp, u32_int_of_u32_eq _ hS] at h ⊢
  refine put_tlv_written _ _ _ _ _ len _ b1 hw ?_ hlen h
  intro hfit
  rw [stack_image_length] at hfit ⊢
  obtain ⟨_, _, _, hso, _, _⟩ := hw
  rw [hso] at *
  unfold u32 sizeof_tlv_dump_data int_of_u32
  rw [if_pos hS31]
  push_cast
  omega

theorem dump_emit_exc_stack_written (k : kernel_consts) (cd : ath10k_fw_crash_data)
    (c : dump_cursor) (len : Nat) (pre b1 : List Nat) (hw : written c len pre)
    (hlen : len < 2 ^ 32) (hS : sizeof_stack_buf k < 2 ^ 32)
    (h : (dump_emit_exc_stack k cd c).buf = some b1) :
    written (dump_emit_exc_stack k cd c) len
      (pre ++ tlv_bytes ATH10K_FW_CRASH_DUMP_EXC_STACK (sizeof_stack_buf k)
        (mem_le32 cd.exc_stack_buf (k.ATH10K_FW_STACK_SIZE / 4))) := by
  unfold dump_emit_exc_stack at h ⊢
  simp only [] at h ⊢
  obtain ⟨_, pl, _, hp, _, _⟩ := put_tlv_buf_some _ _ _ _ _ _ h
  obtain ⟨hS31, hpl⟩ := memcpy_from_whole _ _ _ (stack_image_length k _) hS hp
  subst hpl
  rw [hp, u32_int_of_u32_eq _ hS] at h ⊢
  refine put_tlv_written _ _ _ _ _ len _ b1 hw ?_ hlen h
  intro hfit
  rw [stack_image_length] at hfit ⊢
  obtain ⟨_, _, _, hso, _, _⟩ := hw
  rw [hso] at *
  unfold u32 sizeof_tlv_dump_data int_of_u32
  rw [if_pos hS31]
  push_cast
  omega

theorem dump_emit_registers_buf_some (k : kernel_consts) (cd : ath10k_fw_crash_data)
    (c : dump_cursor) (b1 : List Nat) (h : (dump_emit_registers k cd c).buf = some b1) :
    ∃ b, c.buf = some b := by
  unfold dump_emit_registers at h
  obtain ⟨b, _, hb, _⟩ := put_tlv_buf_some _ _ _ _ _ _ h
  exact ⟨b, hb⟩

theorem dump_emit_dbglog_buf_some (ar : ath10k)
    (c : dump_cursor) (b1 : List Nat) (h : (dump_emit_dbglog ar c).buf = some b1) :
    ∃ b, c.buf = some b := by
  unfold dump_emit_dbglog at h
  obtain ⟨b, _, hb, _⟩ := put_tlv_buf_some _ _ _ _ _ _ h
  exact ⟨b, hb⟩

theorem dump_emit_stack_buf_some (k : kernel_consts) (cd : ath10k_fw_crash_data)
    (c : dump_cursor) (b1 : List Nat) (h : (dump_emit_stack k cd c).buf = some b1) :
    ∃ b, c.buf = some b := by
  unfold dump_emit_stack at h
  obtain ⟨b, _, hb, _⟩ := put_tlv_buf_some _ _ _ _ _ _ h
  exact ⟨b, hb⟩

theorem dump_emit_exc_stack_buf_some (k : kernel_consts) (cd : ath10k_fw_crash_data)
    (c : dump_cursor) (b1 : List Nat) (h : (dump_emit_exc_stack k cd c).buf = some b1) :
    ∃ b, c.buf = some b := by
  unfold dump_emit_exc_stack at h
  obtain ⟨b, _, hb, _⟩ := put_tlv_buf_some _ _ _ _ _ _ h
  exact ⟨b, hb⟩

/-- When the fixed part of the emission stays inside its objects, the buffer
begins with the header and the four fixed records, and the running offset is
their length. -/
theorem dump_emit_fixed_written (k : kernel_consts) (ar : ath10k)
    (cd : ath10k_fw_crash_data) (len : Nat) (b4 : List Nat)
    (hlen : len < 2 ^ 32) (hS : sizeof_stack_buf k < 2 ^ 32)
    (h : (dump_emit_fixed k ar cd len).buf = some b4) :
    written (dump_emit_fixed k ar cd len) len (dump_fixed_bytes k ar cd len) := by
  unfold dump_emit_fixed at h ⊢
  obtain ⟨b3, hb3⟩ := dump_emit_exc_stack_buf_some _ _ _ _ h
  obtain ⟨b2, hb2⟩ := dump_emit_stack_buf_some _ _ _ _ hb3
  obtain ⟨b1, hb1⟩ := dump_emit_dbglog_buf_some _ _ _ hb2
  obtain ⟨b0, hb0⟩ := dump_emit_registers_buf_some _ _ _ _ hb1
  have hw0 := dump_emit_header_written k ar cd len b0 hlen hb0
  have hw1 := dump_emit_registers_written k cd _ len _ b1 hw0 hlen hb1
  have hw2 := dump_emit_dbglog_written ar _ len _ b2 hw1 hlen hb2
  have hw3 := dump_emit_stack_written k cd _ len _ b3 hw2 hlen hS hb3
  exact dump_emit_exc_stack_written k cd _ len _ b4 hw3 hlen hS h

/-- A dump whose emission stayed inside its objects begins with the header and
the four fixed records and has the precomputed length. -/
theorem dump_emit_bytes (k : kernel_consts) (ar : ath10k)
    (cd : ath10k_fw_crash_data) (len : Nat) (bytes : List Nat)
    (hlen : len < 2 ^ 32) (hS : sizeof_stack_buf k < 2 ^ 32)
    (h : (dump_emit k ar cd len).buf = some bytes) :
    bytes.length = len ∧
      ∃ rest, bytes = dump_fixed_bytes k ar cd len ++ rest := by
  unfold dump_emit at h
  obtain ⟨b5, hb5⟩ := dump_emit_rom_bss_buf_some _ _ _ _ h
  obtain ⟨b4, hb4⟩ := dump_emit_ram_bss_buf_some _ _ _ _ hb5
  obtain ⟨b, hb, hbl, hso, hle, htake⟩ := dump_emit_fixed_written k ar cd len b4 hlen hS hb4
  rw [hb] at hb4
  simp only [Option.some.injEq] at hb4
  subst hb4
  obtain ⟨h1, h2, h3, h4⟩ :=
    dump_emit_ram_bss_keeps ar cd _ b b5 hb (by omega) (by omega) hb5
  obtain ⟨h5, h6, h7, _⟩ :=
    dump_emit_rom_bss_keeps ar cd _ b5 bytes hb5 (by omega) (by omega) h
  refine ⟨by omega, bytes.drop (dump_fixed_bytes k ar cd len).length, ?_⟩
  have e1 := congrArg (List.take (dump_fixed_bytes k ar cd len).length) h6
  rw [List.take_take, List.take_take, Nat.min_eq_left (by omega)] at e1
  rw [hso] at h2
  have e2 := List.take_append_drop (dump_fixed_bytes k ar cd len).length bytes
  rw [e1, h2, htake] at e2
  exact e2.symm

theorem parse_tlvs_tlv_bytes (f t l : Nat) (pl rest : List Nat)
    (hl : l % 2 ^ 32 = pl.length) :
    parse_tlvs (f + 1) (tlv_bytes t l pl ++ rest) = (t % 2 ^ 32, pl) :: parse_tlvs f rest := by
  have ht := le32_decode_le32 t
  have hd := le32_decode_le32 l
  unfold le32 at ht hd
  have e : tlv_bytes t l pl ++ rest =
      t % 256 :: (t / 256 % 256) :: (t / 65536 % 256) :: (t / 16777216 % 256)
        :: l % 256 :: (l / 256 % 256) :: (l / 65536 % 256) :: (l / 16777216 % 256)
        :: (pl ++ rest) := by
    simp only [tlv_bytes, le32, List.cons_append, List.nil_append, List.append_assoc]
  rw [e, parse_tlvs]
  simp only [ht, hd, hl, List.length_append, Nat.le_add_right, if_true, List.take_left,
    List.drop_left]

/-- The records read back from a dump that begins with the header and the four
fixed records. -/
theorem parse_dump_fixed (k : kernel_consts) (ar : ath10k) (cd : ath10k_fw_crash_data)
    (len : Nat) (rest : List Nat)
    (hR : sizeof_registers k < 2 ^ 32) (hS : sizeof_stack_buf k < 2 ^ 32) :
    ∃ more, parse_dump k (dump_fixed_bytes k ar cd len ++ rest) =
      (ATH10K_FW_CRASH_DUMP_REGISTERS, mem_le32 cd.registers k.REG_DUMP_COUNT_QCA988X)
      :: (ATH10K_FW_CRASH_DUMP_DBGLOG,
          le32 ar.debug.dbglog_entry_data.head_idx
            ++ le32 ar.debug.dbglog_entry_data.tail_idx
            ++ mem_le32 ar.debug.dbglog_entry_data.data ATH10K_DBGLOG_DATA_LEN)
      :: (ATH10K_FW_CRASH_DUMP_STACK, mem_le32 cd.stack_buf (k.ATH10K_FW_STACK_SIZE / 4))
      :: (ATH10K_FW_CRASH_DUMP_EXC_STACK,
          mem_le32 cd.exc_stack_buf (k.ATH10K_FW_STACK_SIZE / 4))
      :: more := by
  unfold parse_dump
  have h4 : 4 ≤ (dump_fixed_bytes k ar cd len ++ rest).length := by
    simp only [dump_fixed_bytes, List.length_append, tlv_bytes, le32_length]
    omega
  obtain ⟨f, hf⟩ : ∃ f, (dump_fixed_bytes k ar cd len ++ rest).length = f + 1 + 1 + 1 + 1 :=
    ⟨(dump_fixed_bytes k ar cd len ++ rest).length - 4, by omega⟩
  rw [hf]
  have e : dump_fixed_bytes k ar cd len ++ rest =
      dump_file_header k ar cd len
        ++ (tlv_bytes ATH10K_FW_CRASH_DUMP_REGISTERS (sizeof_registers k)
              (mem_le32 cd.registers k.REG_DUMP_COUNT_QCA988X)
        ++ (tlv_bytes ATH10K_FW_CRASH_DUMP_DBGLOG sizeof_dbglog_entry_data
              (le32 ar.debug.dbglog_entry_data.head_idx
                ++ le32 ar.debug.dbglog_entry_data.tail_idx
                ++ mem_le32 ar.debug.dbglog_entry_data.data ATH10K_DBGLOG_DATA_LEN)
        ++ (tlv_bytes ATH10K_FW_CRASH_DUMP_STACK (sizeof_stack_buf k)
              (mem_le32 cd.stack_buf (k.ATH10K_FW_STACK_SIZE / 4))
        ++ (tlv_bytes ATH10K_FW_CRASH_DUMP_EXC_STACK (sizeof_stack_buf k)
              (mem_le32 cd.exc_stack_buf (k.ATH10K_FW_STACK_SIZE / 4)) ++ rest)))) := by
    simp only [dump_fixed_bytes, List.append_assoc]
  rw [e, List.drop_left' (dump_file_header_length k ar cd len)]
  rw [parse_tlvs_tlv_bytes _ _ _ _ _ (by
        rw [registers_image_length]; exact Nat.mod_eq_of_lt hR),
    parse_tlvs_tlv_bytes _ _ _ _ _ (by rw [dbglog_payload_length]; rfl),
    parse_tlvs_tlv_bytes _ _ _ _ _ (by
        rw [stack_image_length]; exact Nat.mod_eq_of_lt hS),
    parse_tlvs_tlv_bytes _ _ _ _ _ (by
        rw [stack_image_length]; exact Nat.mod_eq_of_lt hS)]
  exact ⟨_, rfl⟩

theorem put_tlv_ok (c : dump_cursor) (t l : Nat) (pl : List Nat) (s : Int)
    (len : Nat) (pre : List Nat) (hw : written c len pre)
    (hfit : pre.length + 8 + pl.length ≤ len) :
    ∃ b1, (put_tlv c t l (some pl) s).buf = some b1 := by
  obtain ⟨b, hb, hbl, hso, _, _⟩ := hw
  simp only [put_tlv, hb]
  apply buf_write_ok
  simp only [List.length_append, le32_length]
  omega

theorem memcpy_from_ok (src : List Nat) (x : Nat) (hx : x ≤ src.length) (h31 : x < 2 ^ 31) :
    memcpy_from src (int_of_u32 x) = some (src.take x) := by
  unfold memcpy_from int_of_u32
  rw [if_pos h31, if_pos ⟨by omega, by omega⟩]
  simp only [Int.toNat_ofNat]

theorem tlv_bytes_length (t l : Nat) (pl : List Nat) :
    (tlv_bytes t l pl).length = 8 + pl.length := by
  simp only [tlv_bytes, List.length_append, le32_length]

theorem dump_emit_header_ok (k : kernel_consts) (ar : ath10k)
    (cd : ath10k_fw_crash_data) (len : Nat) (hlen : len < 2 ^ 32)
    (hfit : sizeof_dump_file_data k ≤ len) :
    written (dump_emit_header k ar cd len) len (dump_file_header k ar cd len) := by
  obtain ⟨b0, hb0⟩ := buf_write_ok (List.replicate len 0) 0 (dump_file_header k ar cd len)
    (by rw [dump_file_header_length, List.length_replicate]; omega)
  refine dump_emit_header_written k ar cd len b0 hlen ?_
  unfold dump_emit_header
  simp only []
  exact hb0

theorem dump_emit_registers_ok (k : kernel_consts) (cd : ath10k_fw_crash_data)
    (c : dump_cursor) (len : Nat) (pre : List Nat) (hw : written c len pre)
    (hlen : len < 2 ^ 32) (hfit : pre.length + 8 + sizeof_registers k ≤ len) :
    written (dump_emit_registers k cd c) len
      (pre ++ tlv_bytes ATH10K_FW_CRASH_DUMP_REGISTERS (sizeof_registers k)
        (mem_le32 cd.registers k.REG_DUMP_COUNT_QCA988X)) := by
  obtain ⟨b1, hb1⟩ := put_tlv_ok c ATH10K_FW_CRASH_DUMP_REGISTERS (sizeof_registers k)
    (mem_le32 cd.registers k.REG_DUMP_COUNT_QCA988X)
    (sizeof_tlv_dump_data + sizeof_registers k : Nat) len pre hw
    (by rw [registers_image_length]; exact hfit)
  exact dump_emit_registers_written k cd c len pre b1 hw hlen hb1

theorem dump_emit_dbglog_ok (ar : ath10k)
    (c : dump_cursor) (len : Nat) (pre : List Nat) (hw : written c len pre)
    (hlen : len < 2 ^ 32) (hfit : pre.length + 8 + 3592 ≤ len) :
    written (dump_emit_dbglog ar c) len
      (pre ++ tlv_bytes ATH10K_FW_CRASH_DUMP_DBGLOG sizeof_dbglog_entry_data
        (le32 ar.debug.dbglog_entry_data.head_idx
          ++ le32 ar.debug.dbglog_entry_data.tail_idx
          ++ mem_le32 ar.debug.dbglog_entry_data.data ATH10K_DBGLOG_DATA_LEN)) := by
  obtain ⟨b1, hb1⟩ := put_tlv_ok c ATH10K_FW_CRASH_DUMP_DBGLOG
    (u32 (int_of_u32 sizeof_dbglog_entry_data))
    (le32 ar.debug.dbglog_entry_data.head_idx
      ++ le32 ar.debug.dbglog_entry_data.tail_idx
      ++ mem_le32 ar.debug.dbglog_entry_data.data ATH10K_DBGLOG_DATA_LEN)
    (sizeof_tlv_dump_data + int_of_u32 sizeof_dbglog_entry_data) len pre hw
    (by rw [dbglog_payload_length]; exact hfit)
  exact dump_emit_dbglog_written ar c len pre b1 hw hlen hb1

theorem dump_emit_stack_ok (k : kernel_consts) (cd : ath10k_fw_crash_data)
    (c : dump_cursor) (len : Nat) (pre : List Nat) (hw : written c len pre)
    (hlen : len < 2 ^ 32) (hS : sizeof_stack_buf k < 2 ^ 31)
    (hfit : pre.length + 8 + sizeof_stack_buf k ≤ len) :
    written (dump_emit_stack k cd c) len
      (pre ++ tlv_bytes ATH10K_FW_CRASH_DUMP_STACK (sizeof_stack_buf k)
        (mem_le32 cd.stack_buf (k.ATH10K_FW_STACK_SIZE / 4))) := by
  have hm := memcpy_from_ok (mem_le32 cd.stack_buf (k.ATH10K_FW_STACK_SIZE / 4))
    (sizeof_stack_buf k) (by rw [stack_image_length]) hS
  rw [← stack_image_length k cd.stack_buf, List.take_length, stack_image_length] at hm
  obtain ⟨b1, hb1⟩ := put_tlv_ok c ATH10K_FW_CRASH_DUMP_STACK
    (u32 (int_of_u32 (sizeof_stack_buf k)))
    (mem_le32 cd.stack_buf (k.ATH10K_FW_STACK_SIZE / 4))
    (sizeof_tlv_dump_data + int_of_u32 (sizeof_stack_buf k)) len pre hw
    (by rw [stack_image_length]; exact hfit)
  refine dump_emit_stack_written k cd c len pre b1 hw hlen (by omega) ?_
  unfold dump_emit_stack
  simp only []
  rw [hm]
  exact hb1

theorem dump_emit_exc_stack_ok (k : kernel_consts) (cd : ath10k_fw_crash_data)
    (c : dump_cursor) (len : Nat) (pre : List Nat) (hw : written c len pre)
    (hlen : len < 2 ^ 32) (hS : sizeof_stack_buf k < 2 ^ 31)
    (hfit : pre.length + 8 + sizeof_stack_buf k ≤ len) :
    written (dump_emit_exc_stack k cd c) len
      (pre ++ tlv_bytes ATH10K_FW_CRASH_DUMP_EXC_STACK (sizeof_stack_buf k)
        (mem_le32 cd.exc_stack_buf (k.ATH10K_FW_STACK_SIZE / 4))) := by
  have hm := memcpy_from_ok (mem_le32 cd.exc_stack_buf (k.ATH10K_FW_STACK_SIZE / 4))
    (sizeof_stack_buf k) (by rw [stack_image_length]) hS
  rw [← stack_image_length k cd.exc_stack_buf, List.take_length, stack_image_length] at hm
  obtain ⟨b1, hb1⟩ := put_tlv_ok c ATH10K_FW_CRASH_DUMP_EXC_STACK
    (u32 (int_of_u32 (sizeof_stack_buf k)))
    (mem_le32 cd.exc_stack_buf (k.ATH10K_FW_STACK_SIZE / 4))
    (sizeof_tlv_dump_data + int_of_u32 (sizeof_stack_buf k)) len pre hw
    (by rw [stack_image_length]; exact hfit)
  refine dump_emit_exc_stack_written k cd c len pre b1 hw hlen (by omega) ?_
  unfold dump_emit_exc_stack
  simp only []
  rw [hm]
  exact hb1

theorem bss_record_written (c : dump_cursor) (type x n : Nat) (a : Nat → Nat)
    (len : Nat) (pre : List Nat) (hw : written c len pre) (hlen : len < 2 ^ 32)
    (hx : x ≤ 4 * n) (hx31 : x < 2 ^ 31)
    (hfit : pre.length + 8 + x ≤ len) :
    written
      (put_tlv c type (u32 (int_of_u32 x)) (memcpy_from (mem_le32 a n) (int_of_u32 x))
        (sizeof_tlv_dump_data + int_of_u32 x)) len
      (pre ++ tlv_bytes type x ((mem_le32 a n).take x)) := by
  have hm := memcpy_from_ok (mem_le32 a n) x (by rw [mem_le32_length]; exact hx) hx31
  have hpl : ((mem_le32 a n).take x).length = x := by
    rw [List.length_take, mem_le32_length]
    omega
  rw [hm, u32_int_of_u32_eq _ (by omega)]
  obtain ⟨b1, hb1⟩ := put_tlv_ok c type x ((mem_le32 a n).take x)
    (sizeof_tlv_dump_data + int_of_u32 x) len pre hw (by rw [hpl]; exact hfit)
  refine put_tlv_written _ _ _ _ _ len _ b1 hw ?_ hlen hb1
  intro _
  rw [hpl]
  obtain ⟨_, _, _, hso, _, _⟩ := hw
  rw [hso] at *
  unfold u32 sizeof_tlv_dump_data int_of_u32
  rw [if_pos hx31]
  push_cast
  omega

theorem dump_ram_bss_bytes_length (ar : ath10k) (cd : ath10k_fw_crash_data)
    (hx : ar.fw.ram_bss_len ≤ ATH10K_RAM_BSS_BUF_LEN) :
    (dump_ram_bss_bytes ar cd).length =
      if ar.fw.ram_bss_addr ≠ 0 ∧ ar.fw.ram_bss_len ≠ 0 then 8 + ar.fw.ram_bss_len else 0 := by
  unfold dump_ram_bss_bytes
  split
  · rw [tlv_bytes_length, List.length_take, mem_le32_length]
    unfold ATH10K_RAM_BSS_BUF_LEN at *
    omega
  · rfl

theorem dump_rom_bss_bytes_length (ar : ath10k) (cd : ath10k_fw_crash_data)
    (hx : ar.fw.rom_bss_len ≤ ATH10K_ROM_BSS_BUF_LEN) :
    (dump_rom_bss_bytes ar cd).length =
      if ar.fw.rom_bss_addr ≠ 0 ∧ ar.fw.rom_bss_len ≠ 0 then 8 + ar.fw.rom_bss_len else 0 := by
  unfold dump_rom_bss_bytes
  split
  · rw [tlv_bytes_length, List.length_take, mem_le32_length]
    unfold ATH10K_ROM_BSS_BUF_LEN at *
    omega
  · rfl

theorem dump_emit_ram_bss_ok (ar : ath10k) (cd : ath10k_fw_crash_data)
    (c : dump_cursor) (len : Nat) (pre : List Nat) (hw : written c len pre)
    (hlen : len < 2 ^ 32) (hx : ar.fw.ram_bss_len ≤ ATH10K_RAM_BSS_BUF_LEN)
    (hfit : pre.length + (dump_ram_bss_bytes ar cd).length ≤ len) :
    written (dump_emit_ram_bss ar cd c) len (pre ++ dump_ram_bss_bytes ar cd) := by
  rw [dump_ram_bss_bytes_length ar cd hx] at hfit
  unfold dump_emit_ram_bss dump_ram_bss_bytes
  split
  · rename_i hp
    rw [if_pos hp] at hfit
    exact bss_record_written c _ _ _ _ len pre hw hlen
      (by unfold ATH10K_RAM_BSS_BUF_LEN at *; omega)
      (by unfold ATH10K_RAM_BSS_BUF_LEN at hx; omega) (by omega)
  · rw [List.append_nil]
    exact hw

theorem dump_emit_rom_bss_ok (ar : ath10k) (cd : ath10k_fw_crash_data)
    (c : dump_cursor) (len : Nat) (pre : List Nat) (hw : written c len pre)
    (hlen : len < 2 ^ 32) (hx : ar.fw.rom_bss_len ≤ ATH10K_ROM_BSS_BUF_LEN)
    (hfit : pre.length + (dump_rom_bss_bytes ar cd).length ≤ len) :
    written (dump_emit_rom_bss ar cd c) len (pre ++ dump_rom_bss_bytes ar cd) := by
  rw [dump_rom_bss_bytes_length ar cd hx] at hfit
  unfold dump_emit_rom_bss dump_rom_bss_bytes
  split
  · rename_i hp
    rw [if_pos hp] at hfit
    exact bss_record_written c _ _ _ _ len pre hw hlen
      (by unfold ATH10K_ROM_BSS_BUF_LEN at *; omega)
      (by unfold ATH10K_ROM_BSS_BUF_LEN at hx; omega) (by omega)
  · rw [List.append_nil]
    exact hw

theorem dump_fixed_bytes_length (k : kernel_consts) (ar : ath10k)
    (cd : ath10k_fw_crash_data) (len : Nat) :
    (dump_fixed_bytes k ar cd len).length =
      sizeof_dump_file_data k + (8 + sizeof_registers k) + (8 + 3592)
        + (8 + sizeof_stack_buf k) + (8 + sizeof_stack_buf k) := by
  unfold dump_fixed_bytes
  rw [List.length_append, List.length_append, List.length_append, List.length_append,
    tlv_bytes_length, tlv_bytes_length, tlv_bytes_length, tlv_bytes_length,
    dump_file_header_length, registers_image_length, dbglog_payload_length,
    stack_image_length, stack_image_length]

theorem u32_add_nat (a b : Nat) (h : a + b < 2 ^ 32) : u32 ((a : Int) + (b : Nat)) = a + b := by
  unfold u32
  omega

theorem dump_len_eq (k : kernel_consts) (ar : ath10k) (hfit : dump_fits k ar) :
    dump_len k ar =
      sizeof_dump_file_data k + (8 + sizeof_registers k) + (8 + 3592)
        + (8 + sizeof_stack_buf k) + (8 + sizeof_stack_buf k)
        + (if ar.fw.ram_bss_addr ≠ 0 ∧ ar.fw.ram_bss_len ≠ 0 then 8 + ar.fw.ram_bss_len else 0)
        + (if ar.fw.rom_bss_addr ≠ 0 ∧ ar.fw.rom_bss_len ≠ 0 then 8 + ar.fw.rom_bss_len
            else 0) := by
  obtain ⟨h1, h2, h3⟩ := hfit
  have hd : sizeof_dbglog_entry_data = 3592 := by decide
  unfold ATH10K_RAM_BSS_BUF_LEN at h2
  unfold ATH10K_ROM_BSS_BUF_LEN at h3
  unfold dump_len
  simp only [hd, sizeof_tlv_dump_data]
  rw [u32_int_of_u32_eq _ (by omega),
    u32_add_nat (sizeof_dump_file_data k) (4 + 4 + sizeof_registers k) (by omega),
    u32_add_nat (sizeof_dump_file_data k + (4 + 4 + sizeof_registers k)) (4 + 4 + 3592)
      (by omega),
    u32_add_nat (sizeof_dump_file_data k + (4 + 4 + sizeof_registers k) + (4 + 4 + 3592))
      (4 + 4 + sizeof_stack_buf k) (by omega),
    u32_add_nat (sizeof_dump_file_data k + (4 + 4 + sizeof_registers k) + (4 + 4 + 3592)
      + (4 + 4 + sizeof_stack_buf k)) (4 + 4 + sizeof_stack_buf k) (by omega)]
  by_cases hram : ar.fw.ram_bss_addr ≠ 0 ∧ ar.fw.ram_bss_len ≠ 0
  · rw [if_pos hram, if_pos hram, u32_add_nat _ (4 + 4 + ar.fw.ram_bss_len) (by omega)]
    by_cases hrom : ar.fw.rom_bss_addr ≠ 0 ∧ ar.fw.rom_bss_len ≠ 0
    · rw [if_pos hrom, if_pos hrom, u32_add_nat _ (4 + 4 + ar.fw.rom_bss_len) (by omega)]
    · rw [if_neg hrom, if_neg hrom]
      omega
  · rw [if_neg hram, if_neg hram]
    by_cases hrom : ar.fw.rom_bss_addr ≠ 0 ∧ ar.fw.rom_bss_len ≠ 0
    · rw [if_pos hrom, if_pos hrom, u32_add_nat _ (4 + 4 + ar.fw.rom_bss_len) (by omega)]
      omega
    · rw [if_neg hrom, if_neg hrom]
      omega

/-- When the sizes fit, every copy of the emission stays inside its objects
and the buffer is filled exactly with the dump of the state. -/
theorem dump_emit_ok (k : kernel_consts) (ar : ath10k) (cd : ath10k_fw_crash_data)
    (hfit : dump_fits k ar) :
    (dump_emit k ar cd (dump_len k ar)).buf = some (dump_bytes k ar cd (dump_len k ar)) := by
  have hlen := dump_len_lt k ar
  have hL := dump_len_eq k ar hfit
  have hF := dump_fixed_bytes_length k ar cd (dump_len k ar)
  obtain ⟨h1, h2, h3⟩ := hfit
  have hram := dump_ram_bss_bytes_length ar cd h2
  have hrom := dump_rom_bss_bytes_length ar cd h3
  have hw0 := dump_emit_header_ok k ar cd (dump_len k ar) hlen (by omega)
  have hw1 := dump_emit_registers_ok k cd _ _ _ hw0 hlen (by
    rw [dump_file_header_length]; omega)
  have hw2 := dump_emit_dbglog_ok ar _ _ _ hw1 hlen (by
    rw [List.length_append, tlv_bytes_length, dump_file_header_length,
      registers_image_length]
    omega)
  have hw3 := dump_emit_stack_ok k cd _ _ _ hw2 hlen (by omega) (by
    rw [List.length_append, List.length_append, tlv_bytes_length, tlv_bytes_length,
      dump_file_header_length, registers_image_length, dbglog_payload_length]
    omega)
  have hw4 := dump_emit_exc_stack_ok k cd _ _ _ hw3 hlen (by omega) (by
    rw [List.length_append, List.length_append, List.length_append, tlv_bytes_length,
      tlv_bytes_length, tlv_bytes_length, dump_file_header_length, registers_image_length,
      dbglog_payload_length, stack_image_length]
    omega)
  have hw4f : written (dump_emit_fixed k ar cd (dump_len k ar)) (dump_len k ar)
      (dump_fixed_bytes k ar cd (dump_len k ar)) := hw4
  have hw5 := dump_emit_ram_bss_ok ar cd _ _ _ hw4f hlen h2 (by omega)
  have hw6 := dump_emit_rom_bss_ok ar cd _ _ _ hw5 hlen h3 (by
    rw [List.length_append]; omega)
  obtain ⟨b, hb, hbl, _, _, htake⟩ := hw6
  have hall : (dump_fixed_bytes k ar cd (dump_len k ar) ++ dump_ram_bss_bytes ar cd
      ++ dump_rom_bss_bytes ar cd).length = b.length := by
    simp only [List.length_append]
    omega
  rw [hall, List.take_length] at htake
  unfold dump_emit dump_bytes
  rw [hb, htake]

/-- The build of a state with an unread snapshot, when the buffer is
allocated: the emission decides the contents, the flag is cleared and the
warning does not fire. -/
theorem build_dump_unread (k : kernel_consts) (ar : ath10k) (cd : ath10k_fw_crash_data)
    (hc : ar.debug.fw_crash_data = some cd) (hr : cd.crashed_since_read = true) :
    ath10k_build_dump_file k ar true =
      (build_outcome.of_buf (dump_emit k ar cd (dump_len k ar)).buf false,
        ar_after_build ar cd) := by
  unfold ath10k_build_dump_file
  simp only [Bool.not_true, Bool.false_eq_true, if_false]
  rw [hc]
  simp only [hr, Bool.not_true, Bool.false_eq_true, if_false, dump_emit_sofar,
    bne_self_eq_false]

/-- The build of a state whose snapshot has been read, or for which no buffer
can be allocated, returns `NULL` and changes nothing. -/
theorem build_dump_null (k : kernel_consts) (ar : ath10k) (cd : ath10k_fw_crash_data)
    (alloc_ok : Bool) (hc : ar.debug.fw_crash_data = some cd)
    (h : alloc_ok = false ∨ cd.crashed_since_read = false) :
    ath10k_build_dump_file k ar alloc_ok = (build_outcome.null, ar) := by
  unfold ath10k_build_dump_file
  rcases h with h | h
  · simp only [h, Bool.not_false, if_true]
  · cases alloc_ok
    · simp only [Bool.not_false, if_true]
    · simp only [Bool.not_true, Bool.false_eq_true, if_false]
      rw [hc]
      simp only [h, Bool.not_false, if_true]

/-- In the same cases `ath10k_fw_crash_dump_open` returns `-ENODATA`. -/
theorem crash_dump_open_null (k : kernel_consts) (ar : ath10k) (cd : ath10k_fw_crash_data)
    (alloc_ok : Bool) (hc : ar.debug.fw_crash_data = some cd)
    (h : alloc_ok = false ∨ cd.crashed_since_read = false) :
    ath10k_fw_crash_dump_open k ar alloc_ok = (-(k.ENODATA : Int), build_outcome.null, ar) := by
  unfold ath10k_fw_crash_dump_open
  rw [build_dump_null k ar cd alloc_ok hc h]
  rfl

theorem of_buf_returned (buf : Option (List Nat)) (w : Bool) :
    (build_outcome.of_buf buf w).returned_dump = true := by
  cases buf <;> rfl

theorem of_buf_warned (buf : Option (List Nat)) (w : Bool) :
    (build_outcome.of_buf buf w).warned = w := by
  cases buf <;> rfl

theorem build_dump_fits (k : kernel_consts) (ar : ath10k) (cd : ath10k_fw_crash_data)
    (hc : ar.debug.fw_crash_data = some cd) (hr : cd.crashed_since_read = true)
    (hfit : dump_fits k ar) :
    ∃ bytes, (ath10k_build_dump_file k ar true).1 = build_outcome.dump bytes false := by
  rw [build_dump_unread k ar cd hc hr, dump_emit_ok k ar cd hfit]
  exact ⟨_, rfl⟩

/-! ## The claims about the builder -/

/-- C7: for every state in which crashed_since_read is false (the snapshot
exists), whether or not the buffer can be allocated, ath10k_build_dump_file
returns no blob, ath10k_fw_crash_dump_open returns -ENODATA, and the state
(snapshot, crashed_since_read and ring buffer included) is unchanged. -/
theorem C7_no_data_without_unread_snapshot (k : kernel_consts) (ar : ath10k)
    (crash_data : ath10k_fw_crash_data) (alloc_ok : Bool)
    (hc : ar.debug.fw_crash_data = some crash_data)
    (hr : crash_data.crashed_since_read = false) :
    ath10k_build_dump_file k ar alloc_ok = (build_outcome.null, ar) ∧
      ath10k_fw_crash_dump_open k ar alloc_ok
        = (-(k.ENODATA : Int), build_outcome.null, ar) := by
  exact ⟨build_dump_null k ar crash_data alloc_ok hc (Or.inr hr),
    crash_dump_open_null k ar crash_data alloc_ok hc (Or.inr hr)⟩

/-- C7 at a concrete input: a snapshot that has been read already. -/
theorem C7_no_data_without_unread_snapshot_witness :
    ath10k_build_dump_file k_small (ar_snapshot false) true
        = (build_outcome.null, ar_snapshot false) ∧
      ath10k_fw_crash_dump_open k_small (ar_snapshot false) true
        = (-(k_small.ENODATA : Int), build_outcome.null, ar_snapshot false) :=
  C7_no_data_without_unread_snapshot k_small (ar_snapshot false) (crash_data_zero false)
    true rfl rfl

/-- C9: for every snapshot and every combination of ram_bss_addr, ram_bss_len,
rom_bss_addr, rom_bss_len, with the arithmetic of the builder modulo 2^32, the
running byte offset sofar after the last emitted TLV equals the precomputed
total length len, so that in no ath10k_build_dump_file call the
WARN_ON(sofar != len) fires. -/
theorem C9_sofar_equals_len (k : kernel_consts) (ar : ath10k)
    (crash_data : ath10k_fw_crash_data) (alloc_ok : Bool) :
    (dump_emit k ar crash_data (dump_len k ar)).sofar = dump_len k ar ∧
      (ath10k_build_dump_file k ar alloc_ok).1.warned = false := by
  refine ⟨dump_emit_sofar k ar crash_data _, ?_⟩
  cases hcd : ar.debug.fw_crash_data with
  | none =>
    unfold ath10k_build_dump_file
    cases alloc_ok
    · rfl
    · simp only [Bool.not_true, Bool.false_eq_true, if_false]
      rw [hcd]
      rfl
  | some cd =>
    cases hr : cd.crashed_since_read with
    | false => rw [build_dump_null k ar cd alloc_ok hcd (Or.inr hr)]; rfl
    | true =>
      cases alloc_ok with
      | false => rw [build_dump_null k ar cd false hcd (Or.inl rfl)]; rfl
      | true => rw [build_dump_unread k ar cd hcd hr]; exact of_buf_warned _ _

/-- C10: round trip.  For every snapshot with crashed_since_read true (the
stack arrays being smaller than 4 GiB): when the sizes of the state fit,
ath10k_build_dump_file returns a blob whose contents are defined; and whenever
it returns such a blob, parsing it (skip the fixed-size header, then read
consecutive TLV records as 4-byte LE type, 4-byte LE length, payload) yields a
type-0 payload byte-identical to the snapshot's registers, a type-2 payload
byte-identical to stack_buf and a type-3 payload byte-identical to
exc_stack_buf. -/
theorem C10_dump_round_trip (k : kernel_consts) (ar : ath10k) (cd : ath10k_fw_crash_data)
    (hk : sizeof_stack_buf k < 2 ^ 32)
    (hc : ar.debug.fw_crash_data = some cd) (hr : cd.crashed_since_read = true) :
    (dump_fits k ar →
      ∃ bytes, (ath10k_build_dump_file k ar true).1 = build_outcome.dump bytes false) ∧
    ∀ (alloc_ok : Bool) (bytes : List Nat) (warned : Bool),
      (ath10k_build_dump_file k ar alloc_ok).1 = build_outcome.dump bytes warned →
      tlv_payload ATH10K_FW_CRASH_DUMP_REGISTERS (parse_dump k bytes)
          = some (mem_le32 cd.registers k.REG_DUMP_COUNT_QCA988X) ∧
        tlv_payload ATH10K_FW_CRASH_DUMP_STACK (parse_dump k bytes)
          = some (mem_le32 cd.stack_buf (k.ATH10K_FW_STACK_SIZE / 4)) ∧
        tlv_payload ATH10K_FW_CRASH_DUMP_EXC_STACK (parse_dump k bytes)
          = some (mem_le32 cd.exc_stack_buf (k.ATH10K_FW_STACK_SIZE / 4)) := by
  constructor
  · intro hfit
    rw [build_dump_unread k ar cd hc hr, dump_emit_ok k ar cd hfit]
    exact ⟨_, rfl⟩
  · intro alloc_ok bytes warned hb
    cases alloc_ok with
    | false =>
      rw [build_dump_null k ar cd false hc (Or.inl rfl)] at hb
      cases hb
    | true =>
      rw [build_dump_unread k ar cd hc hr] at hb
      cases hbuf : (dump_emit k ar cd (dump_len k ar)).buf with
      | none =>
        rw [hbuf] at hb
        cases hb
      | some b =>
        rw [hbuf] at hb
        simp only [build_outcome.of_buf, build_outcome.dump.injEq] at hb
        obtain ⟨hbb, _⟩ := hb
        subst hbb
        obtain ⟨hl, rest, hrest⟩ :=
          dump_emit_bytes k ar cd (dump_len k ar) b (dump_len_lt k ar) hk hbuf
        have hR : sizeof_registers k < 2 ^ 32 := by
          have h1 := dump_len_lt k ar
          have h2 := dump_fixed_bytes_length k ar cd (dump_len k ar)
          have h3 := congrArg List.length hrest
          rw [List.length_append] at h3
          omega
        obtain ⟨more, hparse⟩ := parse_dump_fixed k ar cd (dump_len k ar) rest hR hk
        rw [hrest, hparse]
        exact ⟨rfl, rfl, rfl⟩

/-- C10 at a concrete input: an unread snapshot with all contents zero, 2
registers and stacks of 8 bytes; the sizes fit, so a blob is returned, and its
records give back the registers and both stacks. -/
theorem C10_dump_round_trip_witness :
    ∃ bytes,
      (ath10k_build_dump_file k_small (ar_snapshot true) true).1
        = build_outcome.dump bytes false ∧
      tlv_payload ATH10K_FW_CRASH_DUMP_REGISTERS (parse_dump k_small bytes)
        = some (mem_le32 (crash_data_zero true).registers k_small.REG_DUMP_COUNT_QCA988X) ∧
      tlv_payload ATH10K_FW_CRASH_DUMP_STACK (parse_dump k_small bytes)
        = some (mem_le32 (crash_data_zero true).stack_buf
            (k_small.ATH10K_FW_STACK_SIZE / 4)) ∧
      tlv_payload ATH10K_FW_CRASH_DUMP_EXC_STACK (parse_dump k_small bytes)
        = some (mem_le32 (crash_data_zero true).exc_stack_buf
            (k_small.ATH10K_FW_STACK_SIZE / 4)) := by
  obtain ⟨h1, h2⟩ := C10_dump_round_trip k_small (ar_snapshot true) (crash_data_zero true)
    (by decide) rfl rfl
  obtain ⟨bytes, hb⟩ := h1 ⟨by decide, by decide, by decide⟩
  exact ⟨bytes, hb, h2 true bytes false hb⟩

/-! ## Facts about the records of a dump -/

/-- A record copied with an `int` length: when it is written, the copy
delivered a payload, `tlv_len` is the length of that payload, and the written
part of the buffer grows by the record. -/
theorem copied_record_written (c : dump_cursor) (type x : Nat) (src : List Nat)
    (len : Nat) (pre b1 : List Nat) (hw : written c len pre) (hlen : len < 2 ^ 32)
    (h : (put_tlv c type (u32 (int_of_u32 x)) (memcpy_from src (int_of_u32 x))
      (sizeof_tlv_dump_data + int_of_u32 x)).buf = some b1) :
    ∃ pl, memcpy_from src (int_of_u32 x) = some pl ∧
      (pl.length : Int) = int_of_u32 x ∧
      written (put_tlv c type (u32 (int_of_u32 x)) (memcpy_from src (int_of_u32 x))
        (sizeof_tlv_dump_data + int_of_u32 x)) len (pre ++ tlv_bytes type pl.length pl) := by
  obtain ⟨b, pl, hb, hp, _, _⟩ := put_tlv_buf_some _ _ _ _ _ _ h
  obtain ⟨h0, _, _, h3⟩ := memcpy_from_some _ _ _ hp
  have hw' := hw
  obtain ⟨b', hb', hbl, hso, _, _⟩ := hw'
  rw [hb] at hb'
  simp only [Option.some.injEq] at hb'
  subst hb'
  have hfit : c.sofar + 8 + pl.length ≤ b.length := by
    have h' := h
    rw [hp] at h'
    simp only [put_tlv, hb] at h'
    obtain ⟨h1, _, _⟩ := buf_write_spec _ _ _ _ h'
    simp only [List.length_append, le32_length] at h1
    omega
  have hu : u32 (int_of_u32 x) = pl.length := by
    rw [← h3]
    unfold u32
    omega
  refine ⟨pl, hp, h3, ?_⟩
  rw [hp, hu] at h ⊢
  exact put_tlv_written c type pl.length pl _ len pre b1 hw
    (fun hf => bss_size c src x pl hp (by omega)) hlen h

theorem bss_step_written (addr x type : Nat) (src : List Nat) (c : dump_cursor)
    (len : Nat) (pre b1 : List Nat) (hw : written c len pre) (hlen : len < 2 ^ 32)
    (h : (if addr ≠ 0 ∧ x ≠ 0 then
        put_tlv c type (u32 (int_of_u32 x)) (memcpy_from src (int_of_u32 x))
          (sizeof_tlv_dump_data + int_of_u32 x)
      else c).buf = some b1) :
    ∃ recs : List (Nat × List Nat),
      written (if addr ≠ 0 ∧ x ≠ 0 then
        put_tlv c type (u32 (int_of_u32 x)) (memcpy_from src (int_of_u32 x))
          (sizeof_tlv_dump_data + int_of_u32 x)
      else c) len (pre ++ records_bytes recs) ∧
      (addr ≠ 0 ∧ x ≠ 0 → ∃ pl, recs = [(type, pl)] ∧
        (pl.length : Int) = int_of_u32 x ∧ pl = src.take pl.length) ∧
      (¬ (addr ≠ 0 ∧ x ≠ 0) → recs = []) := by
  by_cases hp : addr ≠ 0 ∧ x ≠ 0
  · rw [if_pos hp] at h ⊢
    obtain ⟨pl, hm, hl, hw1⟩ := copied_record_written c type x src len pre b1 hw hlen h
    obtain ⟨_, _, h2, _⟩ := memcpy_from_some _ _ _ hm
    refine ⟨[(type, pl)], ?_, fun _ => ⟨pl, rfl, hl, ?_⟩, fun hn => absurd hp hn⟩
    · simp only [records_bytes, List.map_cons, List.map_nil,
        List.flatten_cons, List.flatten_nil, List.append_nil]
      exact hw1
    · have : (int_of_u32 x).toNat = pl.length := by omega
      rw [← this]
      exact h2
  · rw [if_neg hp] at h ⊢
    refine ⟨[], ?_, fun hy => absurd hy hp, fun _ => rfl⟩
    simp only [records_bytes, List.map_nil, List.flatten_nil, List.append_nil]
    exact hw

theorem dump_emit_stack_record (k : kernel_consts) (cd : ath10k_fw_crash_data)
    (c : dump_cursor) (len : Nat) (pre b1 : List Nat) (hw : written c len pre)
    (hlen : len < 2 ^ 32) (h : (dump_emit_stack k cd c).buf = some b1) :
    ∃ pl, written (dump_emit_stack k cd c) len
      (pre ++ tlv_bytes ATH10K_FW_CRASH_DUMP_STACK pl.length pl) := by
  unfold dump_emit_stack at h ⊢
  simp only [] at h ⊢
  obtain ⟨pl, _, _, hw1⟩ := copied_record_written c _ _ _ len pre b1 hw hlen h
  exact ⟨pl, hw1⟩

theorem dump_emit_exc_stack_record (k : kernel_consts) (cd : ath10k_fw_crash_data)
    (c : dump_cursor) (len : Nat) (pre b1 : List Nat) (hw : written c len pre)
    (hlen : len < 2 ^ 32) (h : (dump_emit_exc_stack k cd c).buf = some b1) :
    ∃ pl, written (dump_emit_exc_stack k cd c) len
      (pre ++ tlv_bytes ATH10K_FW_CRASH_DUMP_EXC_STACK pl.length pl) := by
  unfold dump_emit_exc_stack at h ⊢
  simp only [] at h ⊢
  obtain ⟨pl, _, _, hw1⟩ := copied_record_written c _ _ _ len pre b1 hw hlen h
  exact ⟨pl, hw1⟩

theorem dump_emit_ram_bss_record (ar : ath10k) (cd : ath10k_fw_crash_data)
    (c : dump_cursor) (len : Nat) (pre b1 : List Nat) (hw : written c len pre)
    (hlen : len < 2 ^ 32) (h : (dump_emit_ram_bss ar cd c).buf = some b1) :
    ∃ recs : List (Nat × List Nat),
      written (dump_emit_ram_bss ar cd c) len (pre ++ records_bytes recs) ∧
      (ar.fw.ram_bss_addr ≠ 0 ∧ ar.fw.ram_bss_len ≠ 0 → ∃ pl,
        recs = [(ATH10K_FW_CRASH_DUMP_RAM_BSS, pl)] ∧
        (pl.length : Int) = int_of_u32 ar.fw.ram_bss_len ∧
        pl = (mem_le32 cd.ram_bss_buf (ATH10K_RAM_BSS_BUF_LEN / 4)).take pl.length) ∧
      (¬ (ar.fw.ram_bss_addr ≠ 0 ∧ ar.fw.ram_bss_len ≠ 0) → recs = []) := by
  unfold dump_emit_ram_bss at h ⊢
  simp only [] at h ⊢
  exact bss_step_written _ _ _ _ c len pre b1 hw hlen h

theorem dump_emit_rom_bss_record (ar : ath10k) (cd : ath10k_fw_crash_data)
    (c : dump_cursor) (len : Nat) (pre b1 : List Nat) (hw : written c len pre)
    (hlen : len < 2 ^ 32) (h : (dump_emit_rom_bss ar cd c).buf = some b1) :
    ∃ recs : List (Nat × List Nat),
      written (dump_emit_rom_bss ar cd c) len (pre ++ records_bytes recs) ∧
      (ar.fw.rom_bss_addr ≠ 0 ∧ ar.fw.rom_bss_len ≠ 0 → ∃ pl,
        recs = [(ATH10K_FW_CRASH_DUMP_ROM_BSS, pl)] ∧
        (pl.length : Int) = int_of_u32 ar.fw.rom_bss_len ∧
        pl = (mem_le32 cd.rom_bss_buf (ATH10K_ROM_BSS_BUF_LEN / 4)).take pl.length) ∧
      (¬ (ar.fw.rom_bss_addr ≠ 0 ∧ ar.fw.rom_bss_len ≠ 0) → recs = []) := by
  unfold dump_emit_rom_bss at h ⊢
  simp only [] at h ⊢
  exact bss_step_written _ _ _ _ c len pre b1 hw hlen h

/-- The records of a dump whose contents are defined: the four fixed records
with the payloads the copies delivered, then the BSS records present. -/
theorem dump_emit_records (k : kernel_consts) (ar : ath10k) (cd : ath10k_fw_crash_data)
    (bytes : List Nat) (h : (dump_emit k ar cd (dump_len k ar)).buf = some bytes) :
    ∃ (pS pE : List Nat) (ram rom : List (Nat × List Nat)),
      bytes = dump_file_header k ar cd (dump_len k ar)
        ++ records_bytes
          ([(ATH10K_FW_CRASH_DUMP_REGISTERS,
              mem_le32 cd.registers k.REG_DUMP_COUNT_QCA988X),
            (ATH10K_FW_CRASH_DUMP_DBGLOG,
              le32 ar.debug.dbglog_entry_data.head_idx
                ++ le32 ar.debug.dbglog_entry_data.tail_idx
                ++ mem_le32 ar.debug.dbglog_entry_data.data ATH10K_DBGLOG_DATA_LEN),
            (ATH10K_FW_CRASH_DUMP_STACK, pS),
            (ATH10K_FW_CRASH_DUMP_EXC_STACK, pE)] ++ ram ++ rom) ∧
      bytes.length = dump_len k ar ∧
      (ar.fw.ram_bss_addr ≠ 0 ∧ ar.fw.ram_bss_len ≠ 0 → ∃ pl,
        ram = [(ATH10K_FW_CRASH_DUMP_RAM_BSS, pl)] ∧
        (pl.length : Int) = int_of_u32 ar.fw.ram_bss_len ∧
        pl = (mem_le32 cd.ram_bss_buf (ATH10K_RAM_BSS_BUF_LEN / 4)).take pl.length) ∧
      (¬ (ar.fw.ram_bss_addr ≠ 0 ∧ ar.fw.ram_bss_len ≠ 0) → ram = []) ∧
      (ar.fw.rom_bss_addr ≠ 0 ∧ ar.fw.rom_bss_len ≠ 0 → ∃ pl,
        rom = [(ATH10K_FW_CRASH_DUMP_ROM_BSS, pl)] ∧
        (pl.length : Int) = int_of_u32 ar.fw.rom_bss_len ∧
        pl = (mem_le32 cd.rom_bss_buf (ATH10K_ROM_BSS_BUF_LEN / 4)).take pl.length) ∧
      (¬ (ar.fw.rom_bss_addr ≠ 0 ∧ ar.fw.rom_bss_len ≠ 0) → rom = []) := by
  have hlen := dump_len_lt k ar
  have hsofar := dump_emit_sofar k ar cd (dump_len k ar)
  unfold dump_emit at h hsofar
  obtain ⟨b5, hb5⟩ := dump_emit_rom_bss_buf_some _ _ _ _ h
  obtain ⟨b4, hb4⟩ := dump_emit_ram_bss_buf_some _ _ _ _ hb5
  have hb4' := hb4
  unfold dump_emit_fixed at hb4'
  obtain ⟨b3, hb3⟩ := dump_emit_exc_stack_buf_some _ _ _ _ hb4'
  obtain ⟨b2, hb2⟩ := dump_emit_stack_buf_some _ _ _ _ hb3
  obtain ⟨b1, hb1⟩ := dump_emit_dbglog_buf_some _ _ _ hb2
  obtain ⟨b0, hb0⟩ := dump_emit_registers_buf_some _ _ _ _ hb1
  have hw0 := dump_emit_header_written k ar cd _ b0 hlen hb0
  have hw1 := dump_emit_registers_written k cd _ _ _ b1 hw0 hlen hb1
  have hw2 := dump_emit_dbglog_written ar _ _ _ b2 hw1 hlen hb2
  obtain ⟨pS, hw3⟩ := dump_emit_stack_record k cd _ _ _ b3 hw2 hlen hb3
  obtain ⟨pE, hw4⟩ := dump_emit_exc_stack_record k cd _ _ _ b4 hw3 hlen hb4'
  have hfix : dump_emit_fixed k ar cd (dump_len k ar) = dump_emit_exc_stack k cd
      (dump_emit_stack k cd (dump_emit_dbglog ar (dump_emit_registers k cd
        (dump_emit_header k ar cd (dump_len k ar))))) := rfl
  rw [← hfix] at hw4
  obtain ⟨ram, hw5, hram1, hram2⟩ := dump_emit_ram_bss_record ar cd _ _ _ b5 hw4 hlen hb5
  obtain ⟨rom, hw6f, hrom1, hrom2⟩ := dump_emit_rom_bss_record ar cd _ _ _ bytes hw5 hlen h
  obtain ⟨b, hb, hbl, hso, _, htake⟩ := hw6f
  rw [h] at hb
  simp only [Option.some.injEq] at hb
  subst hb
  rw [hsofar] at hso
  rw [← hso, ← hbl, List.take_length] at htake
  refine ⟨pS, pE, ram, rom, ?_, hbl, hram1, hram2, hrom1, hrom2⟩
  have e := dbglog_payload_length ar
  have e2 : sizeof_dbglog_entry_data = 3592 := rfl
  refine htake.trans ?_
  rw [hbl]
  simp only [records_bytes, List.map_cons, List.map_append, List.flatten_cons,
    List.flatten_append, registers_image_length, e, e2]
  simp only [List.append_assoc, List.cons_append, List.nil_append, List.map_nil,
    List.flatten_nil]

theorem records_bytes_cons (r : Nat × List Nat) (rs : List (Nat × List Nat)) :
    records_bytes (r :: rs) = tlv_bytes r.1 r.2.length r.2 ++ records_bytes rs := by
  simp only [records_bytes, List.map_cons, List.flatten_cons]

theorem records_bytes_length_ge (rs : List (Nat × List Nat)) :
    rs.length ≤ (records_bytes rs).length := by
  induction rs with
  | nil => simp [records_bytes]
  | cons r rs ih =>
    rw [records_bytes_cons, List.length_append, tlv_bytes_length, List.length_cons]
    omega

/-- Reading back a sequence of records whose types and payload lengths fit in
32 bits gives the records. -/
theorem parse_tlvs_records (rs : List (Nat × List Nat)) :
    ∀ fuel, rs.length ≤ fuel →
      (∀ r ∈ rs, r.1 < 2 ^ 32 ∧ r.2.length < 2 ^ 32) →
      parse_tlvs fuel (records_bytes rs) = rs := by
  induction rs with
  | nil =>
    intro fuel _ _
    cases fuel <;> simp [records_bytes, parse_tlvs]
  | cons r rs ih =>
    intro fuel hf hr
    obtain ⟨f, rfl⟩ : ∃ f, fuel = f + 1 := ⟨fuel - 1, by simp at hf; omega⟩
    have h1 := hr r (List.mem_cons_self _ _)
    rw [records_bytes_cons, parse_tlvs_tlv_bytes f r.1 r.2.length r.2 _
      (Nat.mod_eq_of_lt h1.2), Nat.mod_eq_of_lt h1.1,
      ih f (by simp at hf; omega) (fun x hx => hr x (List.mem_cons_of_mem _ hx))]

theorem build_dump_blob (k : kernel_consts) (ar : ath10k) (cd : ath10k_fw_crash_data)
    (alloc_ok : Bool) (bytes : List Nat) (warned : Bool)
    (hc : ar.debug.fw_crash_data = some cd)
    (hb : (ath10k_build_dump_file k ar alloc_ok).1 = build_outcome.dump bytes warned) :
    (dump_emit k ar cd (dump_len k ar)).buf = some bytes := by
  cases alloc_ok with
  | false =>
    rw [build_dump_null k ar cd false hc (Or.inl rfl)] at hb
    cases hb
  | true =>
    cases hr : cd.crashed_since_read with
    | false =>
      rw [build_dump_null k ar cd true hc (Or.inr hr)] at hb
      cases hb
    | true =>
      rw [build_dump_unread k ar cd hc hr] at hb
      cases hbuf : (dump_emit k ar cd (dump_len k ar)).buf with
      | none =>
        rw [hbuf] at hb
        cases hb
      | some b =>
        rw [hbuf] at hb
        simp only [build_outcome.of_buf, build_outcome.dump.injEq] at hb
        rw [hb.1]

theorem records_bytes_append (xs ys : List (Nat × List Nat)) :
    records_bytes (xs ++ ys) = records_bytes xs ++ records_bytes ys := by
  simp only [records_bytes, List.map_append, List.flatten_append]

theorem records_bytes_payload_le (rs : List (Nat × List Nat)) :
    ∀ r ∈ rs, r.2.length ≤ (records_bytes rs).length := by
  induction rs with
  | nil => intro r hr; cases hr
  | cons x xs ih =>
    intro r hr
    rw [records_bytes_cons, List.length_append, tlv_bytes_length]
    rcases List.mem_cons.mp hr with h | h
    · subst h
      omega
    · have := ih r h
      omega

theorem int_of_u32_length (x : Nat) (pl : List Nat) (hx : x < 2 ^ 32)
    (h : (pl.length : Int) = int_of_u32 x) : pl.length = x := by
  unfold int_of_u32 at h
  split at h <;> omega

theorem parse_dump_of_records (k : kernel_consts) (bytes hdr : List Nat)
    (rs : List (Nat × List Nat)) (hb : bytes = hdr ++ records_bytes rs)
    (hh : hdr.length = sizeof_dump_file_data k) (hlt : bytes.length < 2 ^ 32)
    (ht : ∀ r ∈ rs, r.1 < 2 ^ 32) : parse_dump k bytes = rs := by
  have hbl := congrArg List.length hb
  rw [List.length_append] at hbl
  have hdrop : bytes.drop (sizeof_dump_file_data k) = records_bytes rs := by
    rw [← hh, hb]
    exact List.drop_left _ _
  unfold parse_dump
  rw [hdrop]
  apply parse_tlvs_records
  · have := records_bytes_length_ge rs
    omega
  · intro r hr
    have h2 := records_bytes_payload_le rs r hr
    exact ⟨ht r hr, by omega⟩

/-- The records of a blob the builder returned, as the reader finds them. -/
theorem dump_blob_records (k : kernel_consts) (ar : ath10k) (cd : ath10k_fw_crash_data)
    (alloc_ok : Bool) (bytes : List Nat) (warned : Bool)
    (hc : ar.debug.fw_crash_data = some cd)
    (hb : (ath10k_build_dump_file k ar alloc_ok).1 = build_outcome.dump bytes warned) :
    ∃ (pS pE pram prom : List Nat),
      bytes = dump_file_header k ar cd bytes.length
        ++ records_bytes
          ([(ATH10K_FW_CRASH_DUMP_REGISTERS,
              mem_le32 cd.registers k.REG_DUMP_COUNT_QCA988X),
            (ATH10K_FW_CRASH_DUMP_DBGLOG,
              le32 ar.debug.dbglog_entry_data.head_idx
                ++ le32 ar.debug.dbglog_entry_data.tail_idx
                ++ mem_le32 ar.debug.dbglog_entry_data.data ATH10K_DBGLOG_DATA_LEN),
            (ATH10K_FW_CRASH_DUMP_STACK, pS),
            (ATH10K_FW_CRASH_DUMP_EXC_STACK, pE)]
            ++ (if ar.fw.ram_bss_addr ≠ 0 ∧ ar.fw.ram_bss_len ≠ 0 then
                [(ATH10K_FW_CRASH_DUMP_RAM_BSS, pram)] else [])
            ++ (if ar.fw.rom_bss_addr ≠ 0 ∧ ar.fw.rom_bss_len ≠ 0 then
                [(ATH10K_FW_CRASH_DUMP_ROM_BSS, prom)] else [])) ∧
      parse_dump k bytes =
          [(ATH10K_FW_CRASH_DUMP_REGISTERS,
              mem_le32 cd.registers k.REG_DUMP_COUNT_QCA988X),
            (ATH10K_FW_CRASH_DUMP_DBGLOG,
              le32 ar.debug.dbglog_entry_data.head_idx
                ++ le32 ar.debug.dbglog_entry_data.tail_idx
                ++ mem_le32 ar.debug.dbglog_entry_data.data ATH10K_DBGLOG_DATA_LEN),
            (ATH10K_FW_CRASH_DUMP_STACK, pS),
            (ATH10K_FW_CRASH_DUMP_EXC_STACK, pE)]
            ++ (if ar.fw.ram_bss_addr ≠ 0 ∧ ar.fw.ram_bss_len ≠ 0 then
                [(ATH10K_FW_CRASH_DUMP_RAM_BSS, pram)] else [])
            ++ (if ar.fw.rom_bss_addr ≠ 0 ∧ ar.fw.rom_bss_len ≠ 0 then
                [(ATH10K_FW_CRASH_DUMP_ROM_BSS, prom)] else []) ∧
      (ar.fw.ram_bss_addr ≠ 0 ∧ ar.fw.ram_bss_len ≠ 0 →
        (pram.length : Int) = int_of_u32 ar.fw.ram_bss_len ∧
        pram = (mem_le32 cd.ram_bss_buf (ATH10K_RAM_BSS_BUF_LEN / 4)).take pram.length) ∧
      (ar.fw.rom_bss_addr ≠ 0 ∧ ar.fw.rom_bss_len ≠ 0 →
        (prom.length : Int) = int_of_u32 ar.fw.rom_bss_len ∧
        prom = (mem_le32 cd.rom_bss_buf (ATH10K_ROM_BSS_BUF_LEN / 4)).take prom.length) := by
  have hbuf := build_dump_blob k ar cd alloc_ok bytes warned hc hb
  obtain ⟨pS, pE, ram, rom, hbytes, hlen, hram1, hram2, hrom1, hrom2⟩ :=
    dump_emit_records k ar cd bytes hbuf
  have hL := dump_len_lt k ar
  rw [← hlen] at hbytes
  -- the optional records in the form of the statement
  obtain ⟨pram, hramE, hramL⟩ : ∃ pram,
      ram = (if ar.fw.ram_bss_addr ≠ 0 ∧ ar.fw.ram_bss_len ≠ 0 then
        [(ATH10K_FW_CRASH_DUMP_RAM_BSS, pram)] else []) ∧
      (ar.fw.ram_bss_addr ≠ 0 ∧ ar.fw.ram_bss_len ≠ 0 →
        (pram.length : Int) = int_of_u32 ar.fw.ram_bss_len ∧
        pram = (mem_le32 cd.ram_bss_buf (ATH10K_RAM_BSS_BUF_LEN / 4)).take pram.length) := by
    by_cases hp : ar.fw.ram_bss_addr ≠ 0 ∧ ar.fw.ram_bss_len ≠ 0
    · obtain ⟨pl, h1, h2, h3⟩ := hram1 hp
      exact ⟨pl, by rw [if_pos hp]; exact h1,
        fun _ => ⟨h2, h3⟩⟩
    · exact ⟨[], by rw [if_neg hp]; exact hram2 hp, fun hy => absurd hy hp⟩
  obtain ⟨prom, hromE, hromL⟩ : ∃ prom,
      rom = (if ar.fw.rom_bss_addr ≠ 0 ∧ ar.fw.rom_bss_len ≠ 0 then
        [(ATH10K_FW_CRASH_DUMP_ROM_BSS, prom)] else []) ∧
      (ar.fw.rom_bss_addr ≠ 0 ∧ ar.fw.rom_bss_len ≠ 0 →
        (prom.length : Int) = int_of_u32 ar.fw.rom_bss_len ∧
        prom = (mem_le32 cd.rom_bss_buf (ATH10K_ROM_BSS_BUF_LEN / 4)).take prom.length) := by
    by_cases hp : ar.fw.rom_bss_addr ≠ 0 ∧ ar.fw.rom_bss_len ≠ 0
    · obtain ⟨pl, h1, h2, h3⟩ := hrom1 hp
      exact ⟨pl, by rw [if_pos hp]; exact h1,
        fun _ => ⟨h2, h3⟩⟩
    · exact ⟨[], by rw [if_neg hp]; exact hrom2 hp, fun hy => absurd hy hp⟩
  rw [hramE, hromE] at hbytes
  refine ⟨pS, pE, pram, prom, hbytes, ?_, hramL, hromL⟩
  have hlt : bytes.length < 2 ^ 32 := by
    rw [hlen]
    exact hL
  refine parse_dump_of_records k bytes _ _ hbytes
    (dump_file_header_length k ar cd bytes.length) hlt ?_
  intro r hr
  simp only [List.mem_append, List.mem_cons, List.mem_singleton, List.not_mem_nil,
    or_false] at hr
  rcases hr with ((h | h | h | h) | h) | h
  · subst h; show _ < 2 ^ 32; simp only []; decide
  · subst h; show _ < 2 ^ 32; simp only []; decide
  · subst h; show _ < 2 ^ 32; simp only []; decide
  · subst h; show _ < 2 ^ 32; simp only []; decide
  · split at h
    · simp only [List.mem_singleton] at h; subst h; show _ < 2 ^ 32; simp only []; decide
    · cases h
  · split at h
    · simp only [List.mem_singleton] at h; subst h; show _ < 2 ^ 32; simp only []; decide
    · cases h

theorem mem_le32_succ (a : Nat → Nat) (n : Nat) :
    mem_le32 a (n + 1) = mem_le32 a n ++ le32 (a n) := by
  unfold mem_le32
  rw [List.range_succ, List.map_append, List.flatten_append]
  simp only [List.map_cons, List.map_nil, List.flatten_cons, List.flatten_nil,
    List.append_nil]

/-- Word `i` of the memory image of an array of `__le32`. -/
theorem mem_le32_word (a : Nat → Nat) (n i : Nat) (hi : i < n) :
    ((mem_le32 a n).drop (4 * i)).take 4 = le32 (a i) := by
  induction n with
  | zero => omega
  | succ m ih =>
    rw [mem_le32_succ]
    have hl := mem_le32_length a m
    by_cases h : i < m
    · rw [List.drop_append_of_le_length (by omega),
        List.take_append_of_le_length (by rw [List.length_drop]; omega)]
      exact ih h
    · have : i = m := by omega
      subst this
      rw [← hl, List.drop_left]
      rfl

/-- The first six fields of the header. -/
theorem dump_file_header_first_fields (k : kernel_consts) (ar : ath10k)
    (cd : ath10k_fw_crash_data) (len : Nat) :
    ∃ tail, dump_file_header k ar cd len =
      (df_magic_string ++ [0, 0]) ++ (le32 len ++ (le32 ATH10K_FW_CRASH_DUMP_VERSION
        ++ (mem_u8 cd.uuid 16 ++ (le32 ar.chip_id ++ (le32 0 ++ tail))))) := by
  have hm : strlcpy_field 16 df_magic_string = df_magic_string ++ [0, 0] := by decide
  unfold dump_file_header
  rw [hm]
  simp only [List.append_assoc]
  exact ⟨_, rfl⟩

theorem header_slices (m l v u c z tail : List Nat) (hm : m.length = 16)
    (hl : l.length = 4) (hv : v.length = 4) (hu : u.length = 16) (hc : c.length = 4)
    (hz : z.length = 4) :
    (m ++ (l ++ (v ++ (u ++ (c ++ (z ++ tail)))))).take 16 = m ∧
    ((m ++ (l ++ (v ++ (u ++ (c ++ (z ++ tail)))))).drop 16).take 4 = l ∧
    ((m ++ (l ++ (v ++ (u ++ (c ++ (z ++ tail)))))).drop 20).take 4 = v ∧
    ((m ++ (l ++ (v ++ (u ++ (c ++ (z ++ tail)))))).drop 24).take 16 = u ∧
    ((m ++ (l ++ (v ++ (u ++ (c ++ (z ++ tail)))))).drop 40).take 4 = c ∧
    ((m ++ (l ++ (v ++ (u ++ (c ++ (z ++ tail)))))).drop 44).take 4 = z := by
  have d1 : (m ++ (l ++ (v ++ (u ++ (c ++ (z ++ tail)))))).drop 16
      = l ++ (v ++ (u ++ (c ++ (z ++ tail)))) := by
    rw [← hm]; exact List.drop_left _ _
  have d2 : (m ++ (l ++ (v ++ (u ++ (c ++ (z ++ tail)))))).drop 20
      = v ++ (u ++ (c ++ (z ++ tail))) := by
    have : (20 : Nat) = 16 + 4 := rfl
    rw [this, ← List.drop_drop, d1, ← hl]; exact List.drop_left _ _
  have d3 : (m ++ (l ++ (v ++ (u ++ (c ++ (z ++ tail)))))).drop 24
      = u ++ (c ++ (z ++ tail)) := by
    have : (24 : Nat) = 20 + 4 := rfl
    rw [this, ← List.drop_drop, d2, ← hv]; exact List.drop_left _ _
  have d4 : (m ++ (l ++ (v ++ (u ++ (c ++ (z ++ tail)))))).drop 40
      = c ++ (z ++ tail) := by
    have : (40 : Nat) = 24 + 16 := rfl
    rw [this, ← List.drop_drop, d3, ← hu]; exact List.drop_left _ _
  have d5 : (m ++ (l ++ (v ++ (u ++ (c ++ (z ++ tail)))))).drop 44
      = z ++ tail := by
    have : (44 : Nat) = 40 + 4 := rfl
    rw [this, ← List.drop_drop, d4, ← hc]; exact List.drop_left _ _
  rw [d1, d2, d3, d4, d5]
  refine ⟨?_, ?_, ?_, ?_, ?_, ?_⟩
  · rw [← hm]; exact List.take_left _ _
  · rw [← hl]; exact List.take_left _ _
  · rw [← hv]; exact List.take_left _ _
  · rw [← hu]; exact List.take_left _ _
  · rw [← hc]; exact List.take_left _ _
  · rw [← hz]; exact List.take_left _ _

/-! ## The claims about the layout of a dump -/

/-- C11: for every state with a snapshot (the recorded BSS lengths being 32-bit
values): when the snapshot is unread and the sizes fit, ath10k_build_dump_file
returns a blob; and in every blob it returns, the bytes after the header are a
sequence of TLV records, each with a tlv_len field equal to the byte length of
its payload, which the reader finds back, and whose type tags are exactly 0, 1,
2, 3, then 4 if and only if ram_bss_addr != 0 and ram_bss_len != 0, then 5 if
and only if rom_bss_addr != 0 and rom_bss_len != 0; the payload of a type-4
record has ram_bss_len bytes and that of a type-5 record rom_bss_len bytes. -/
theorem C11_tlv_tags_and_lengths (k : kernel_consts) (ar : ath10k)
    (cd : ath10k_fw_crash_data) (hc : ar.debug.fw_crash_data = some cd)
    (hram : ar.fw.ram_bss_len < 2 ^ 32) (hrom : ar.fw.rom_bss_len < 2 ^ 32) :
    (dump_fits k ar → cd.crashed_since_read = true →
      ∃ bytes, (ath10k_build_dump_file k ar true).1 = build_outcome.dump bytes false) ∧
    ∀ (alloc_ok : Bool) (bytes : List Nat) (warned : Bool),
      (ath10k_build_dump_file k ar alloc_ok).1 = build_outcome.dump bytes warned →
      ∃ rs : List (Nat × List Nat),
        bytes.drop (sizeof_dump_file_data k) = records_bytes rs ∧
        parse_dump k bytes = rs ∧
        rs.map Prod.fst =
          [ATH10K_FW_CRASH_DUMP_REGISTERS, ATH10K_FW_CRASH_DUMP_DBGLOG,
            ATH10K_FW_CRASH_DUMP_STACK, ATH10K_FW_CRASH_DUMP_EXC_STACK]
          ++ (if ar.fw.ram_bss_addr ≠ 0 ∧ ar.fw.ram_bss_len ≠ 0 then
              [ATH10K_FW_CRASH_DUMP_RAM_BSS] else [])
          ++ (if ar.fw.rom_bss_addr ≠ 0 ∧ ar.fw.rom_bss_len ≠ 0 then
              [ATH10K_FW_CRASH_DUMP_ROM_BSS] else []) ∧
        (∀ pl, (ATH10K_FW_CRASH_DUMP_RAM_BSS, pl) ∈ rs → pl.length = ar.fw.ram_bss_len) ∧
        (∀ pl, (ATH10K_FW_CRASH_DUMP_ROM_BSS, pl) ∈ rs → pl.length = ar.fw.rom_bss_len) := by
  refine ⟨fun hfit hr => build_dump_fits k ar cd hc hr hfit, ?_⟩
  intro alloc_ok bytes warned hb
  obtain ⟨pS, pE, pram, prom, hbytes, hparse, hramL, hromL⟩ :=
    dump_blob_records k ar cd alloc_ok bytes warned hc hb
  refine ⟨_, ?_, hparse, ?_, ?_, ?_⟩
  · have hhl := dump_file_header_length k ar cd bytes.length
    rw [← hhl]
    nth_rewrite 2 [hbytes]
    exact List.drop_left _ _
  · by_cases h1 : ar.fw.ram_bss_addr ≠ 0 ∧ ar.fw.ram_bss_len ≠ 0 <;>
      by_cases h2 : ar.fw.rom_bss_addr ≠ 0 ∧ ar.fw.rom_bss_len ≠ 0 <;>
      simp only [h1, h2, if_true, if_false, not_false_eq_true, List.map_append,
        List.map_cons, List.map_nil, and_self, ne_eq]
  · intro pl hpl
    simp only [List.mem_append, List.mem_cons, List.mem_singleton, List.not_mem_nil,
      or_false, Prod.mk.injEq] at hpl
    rcases hpl with ((h | h | h | h) | h) | h
    · exact absurd h.1 (by decide)
    · exact absurd h.1 (by decide)
    · exact absurd h.1 (by decide)
    · exact absurd h.1 (by decide)
    · split at h
      · rename_i hp
        simp only [List.mem_singleton, Prod.mk.injEq] at h
        rw [h.2]
        exact int_of_u32_length _ _ hram (hramL hp).1
      · cases h
    · split at h
      · simp only [List.mem_singleton, Prod.mk.injEq] at h
        exact absurd h.1 (by decide)
      · cases h
  · intro pl hpl
    simp only [List.mem_append, List.mem_cons, List.mem_singleton, List.not_mem_nil,
      or_false, Prod.mk.injEq] at hpl
    rcases hpl with ((h | h | h | h) | h) | h
    · exact absurd h.1 (by decide)
    · exact absurd h.1 (by decide)
    · exact absurd h.1 (by decide)
    · exact absurd h.1 (by decide)
    · split at h
      · simp only [List.mem_singleton, Prod.mk.injEq] at h
        exact absurd h.1 (by decide)
      · cases h
    · split at h
      · rename_i hp
        simp only [List.mem_singleton, Prod.mk.injEq] at h
        rw [h.2]
        exact int_of_u32_length _ _ hrom (hromL hp).1
      · cases h

/-- C11 at a concrete input: an unread snapshot with a RAM BSS region of 8
bytes and no ROM BSS address; the blob has the tags 0, 1, 2, 3, 4 and the
type-4 payload has 8 bytes. -/
theorem C11_tlv_tags_and_lengths_witness :
    ∃ bytes rs,
      (ath10k_build_dump_file k_small ar_snapshot_bss true).1
        = build_outcome.dump bytes false ∧
      bytes.drop (sizeof_dump_file_data k_small) = records_bytes rs ∧
      parse_dump k_small bytes = rs ∧
      rs.map Prod.fst = [0, 1, 2, 3, 4] ∧
      ∀ pl, (4, pl) ∈ rs → pl.length = 8 := by
  obtain ⟨h1, h2⟩ := C11_tlv_tags_and_lengths k_small ar_snapshot_bss
    (crash_data_zero true) rfl (by decide) (by decide)
  obtain ⟨bytes, hb⟩ := h1 ⟨by decide, by decide, by decide⟩ rfl
  obtain ⟨rs, h3, h4, h5, h6, _⟩ := h2 true bytes false hb
  exact ⟨bytes, rs, hb, h3, h4, h5, h6⟩

/-- C12: for every state with a snapshot (chip_id being a 32-bit value): when
the snapshot is unread and the sizes fit, ath10k_build_dump_file returns a
blob; and in every blob it returns, bytes 0..15 are the ASCII string
ATH10K-FW-DUMP followed by two zero bytes, the little-endian 32-bit value at
offset 16 is the byte length of the blob, the value at offset 20 is the format
version 1, bytes 24..39 are the 16 bytes of the unique id of the snapshot, the
value at offset 40 is chip_id and the value at offset 44 is 0. -/
theorem C12_header_fields (k : kernel_consts) (ar : ath10k)
    (cd : ath10k_fw_crash_data) (hc : ar.debug.fw_crash_data = some cd)
    (hchip : ar.chip_id < 2 ^ 32) :
    (dump_fits k ar → cd.crashed_since_read = true →
      ∃ bytes, (ath10k_build_dump_file k ar true).1 = build_outcome.dump bytes false) ∧
    ∀ (alloc_ok : Bool) (bytes : List Nat) (warned : Bool),
      (ath10k_build_dump_file k ar alloc_ok).1 = build_outcome.dump bytes warned →
      bytes.take 16 = df_magic_string ++ [0, 0] ∧
      le32_decode ((bytes.drop 16).take 4) = bytes.length ∧
      le32_decode ((bytes.drop 20).take 4) = 1 ∧
      (bytes.drop 24).take 16 = mem_u8 cd.uuid 16 ∧
      le32_decode ((bytes.drop 40).take 4) = ar.chip_id ∧
      le32_decode ((bytes.drop 44).take 4) = 0 := by
  refine ⟨fun hfit hr => build_dump_fits k ar cd hc hr hfit, ?_⟩
  intro alloc_ok bytes warned hb
  have hbuf := build_dump_blob k ar cd alloc_ok bytes warned hc hb
  obtain ⟨pS, pE, ram, rom, hbytes, hlen, _⟩ := dump_emit_records k ar cd bytes hbuf
  have hL := dump_len_lt k ar
  obtain ⟨tail, htail⟩ := dump_file_header_first_fields k ar cd (dump_len k ar)
  rw [htail] at hbytes
  simp only [List.append_assoc] at hbytes
  obtain ⟨s1, s2, s3, s4, s5, s6⟩ := header_slices (df_magic_string ++ [0, 0])
    (le32 (dump_len k ar)) (le32 ATH10K_FW_CRASH_DUMP_VERSION) (mem_u8 cd.uuid 16)
    (le32 ar.chip_id) (le32 0) (tail ++ records_bytes
      ([(ATH10K_FW_CRASH_DUMP_REGISTERS, mem_le32 cd.registers k.REG_DUMP_COUNT_QCA988X),
        (ATH10K_FW_CRASH_DUMP_DBGLOG,
          le32 ar.debug.dbglog_entry_data.head_idx
            ++ le32 ar.debug.dbglog_entry_data.tail_idx
            ++ mem_le32 ar.debug.dbglog_entry_data.data ATH10K_DBGLOG_DATA_LEN),
        (ATH10K_FW_CRASH_DUMP_STACK, pS), (ATH10K_FW_CRASH_DUMP_EXC_STACK, pE)]
        ++ ram ++ rom)) (by decide) rfl rfl (mem_u8_length _ _) rfl rfl
  simp only [List.append_assoc] at s1 s2 s3 s4 s5 s6
  rw [← hbytes] at s1 s2 s3 s4 s5 s6
  rw [s1, s2, s3, s4, s5, s6, le32_decode_le32, le32_decode_le32, le32_decode_le32,
    le32_decode_le32, hlen, Nat.mod_eq_of_lt hL, Nat.mod_eq_of_lt hchip]
  exact ⟨rfl, rfl, rfl, rfl, rfl, rfl⟩

/-- C12 at a concrete input: an unread snapshot with all contents zero. -/
theorem C12_header_fields_witness :
    ∃ bytes,
      (ath10k_build_dump_file k_small (ar_snapshot true) true).1
        = build_outcome.dump bytes false ∧
      bytes.take 16 = [65, 84, 72, 49, 48, 75, 45, 70, 87, 45, 68, 85, 77, 80, 0, 0] ∧
      le32_decode ((bytes.drop 16).take 4) = bytes.length ∧
      le32_decode ((bytes.drop 20).take 4) = 1 ∧
      (bytes.drop 24).take 16 = List.replicate 16 0 ∧
      le32_decode ((bytes.drop 40).take 4) = 0 ∧
      le32_decode ((bytes.drop 44).take 4) = 0 := by
  obtain ⟨h1, h2⟩ := C12_header_fields k_small (ar_snapshot true) (crash_data_zero true)
    rfl (by decide)
  obtain ⟨bytes, hb⟩ := h1 ⟨by decide, by decide, by decide⟩ rfl
  exact ⟨bytes, hb, h2 true bytes false hb⟩

/-- C13: for every state with a snapshot: when the snapshot is unread and the
sizes fit, ath10k_build_dump_file returns a blob; and in every blob it
returns, the payload of the type-1 record is head_idx as a little-endian
32-bit value, then tail_idx as a little-endian 32-bit value, then the memory
image of the 896 data words of the ring buffer of the state the call was made
in; it has 8 + 4*896 = 3592 bytes, and the 4 bytes at offset 8 + 4*i are data
word i, for every i below 896. -/
theorem C13_dbglog_payload (k : kernel_consts) (ar : ath10k)
    (cd : ath10k_fw_crash_data) (hc : ar.debug.fw_crash_data = some cd) :
    (dump_fits k ar → cd.crashed_since_read = true →
      ∃ bytes, (ath10k_build_dump_file k ar true).1 = build_outcome.dump bytes false) ∧
    ∀ (alloc_ok : Bool) (bytes : List Nat) (warned : Bool),
      (ath10k_build_dump_file k ar alloc_ok).1 = build_outcome.dump bytes warned →
      ∃ payload,
        tlv_payload ATH10K_FW_CRASH_DUMP_DBGLOG (parse_dump k bytes) = some payload ∧
        payload = le32 ar.debug.dbglog_entry_data.head_idx
          ++ le32 ar.debug.dbglog_entry_data.tail_idx
          ++ mem_le32 ar.debug.dbglog_entry_data.data ATH10K_DBGLOG_DATA_LEN ∧
        payload.length = 8 + 4 * 896 ∧
        payload.take 4 = le32 ar.debug.dbglog_entry_data.head_idx ∧
        (payload.drop 4).take 4 = le32 ar.debug.dbglog_entry_data.tail_idx ∧
        ∀ i, i < 896 →
          (payload.drop (8 + 4 * i)).take 4 = le32 (ar.debug.dbglog_entry_data.data i) := by
  refine ⟨fun hfit hr => build_dump_fits k ar cd hc hr hfit, ?_⟩
  intro alloc_ok bytes warned hb
  obtain ⟨pS, pE, pram, prom, _, hparse, _, _⟩ :=
    dump_blob_records k ar cd alloc_ok bytes warned hc hb
  refine ⟨_, ?_, rfl, dbglog_payload_length ar, ?_, ?_, ?_⟩
  · rw [hparse]
    rfl
  · rw [List.append_assoc]
    exact List.take_left' rfl
  · have h4 : (le32 ar.debug.dbglog_entry_data.head_idx).length = 4 := rfl
    rw [List.append_assoc, List.drop_left' h4]
    exact List.take_left' rfl
  · intro i hi
    have h8 : (le32 ar.debug.dbglog_entry_data.head_idx
      ++ le32 ar.debug.dbglog_entry_data.tail_idx).length = 8 := rfl
    rw [← List.drop_drop, List.drop_left' h8]
    exact mem_le32_word _ _ i hi

/-- C13 at a concrete input: an unread snapshot in a state with an empty ring
buffer of zero words. -/
theorem C13_dbglog_payload_witness :
    ∃ bytes payload,
      (ath10k_build_dump_file k_small (ar_snapshot true) true).1
        = build_outcome.dump bytes false ∧
      tlv_payload ATH10K_FW_CRASH_DUMP_DBGLOG (parse_dump k_small bytes) = some payload ∧
      payload.length = 3592 ∧
      payload.take 4 = le32 0 ∧
      (payload.drop 4).take 4 = le32 0 ∧
      (payload.drop (8 + 4 * 895)).take 4 = le32 0 := by
  obtain ⟨h1, h2⟩ := C13_dbglog_payload k_small (ar_snapshot true) (crash_data_zero true)
    rfl
  obtain ⟨bytes, hb⟩ := h1 ⟨by decide, by decide, by decide⟩ rfl
  obtain ⟨payload, h3, _, h5, h6, h7, h8⟩ := h2 true bytes false hb
  exact ⟨bytes, payload, hb, h3, h5, h6, h7, h8 895 (by decide)⟩

/-! ## The claims about the capture of a snapshot -/

theorem get_new_fw_crash_data_some (ar : ath10k) (crash_data : ath10k_fw_crash_data)
    (new_uuid : Nat → Nat) (now : timespec)
    (hc : ar.debug.fw_crash_data = some crash_data) :
    ath10k_debug_get_new_fw_crash_data ar new_uuid now =
      some ({ ar with debug := { ar.debug with
                fw_crash_data := some { crash_data with uuid := new_uuid, timestamp := now } } },
        { crash_data with uuid := new_uuid, timestamp := now }) := by
  unfold ath10k_debug_get_new_fw_crash_data
  rw [hc]

/-- C14, as stated, fails: a capture on a snapshot whose crashed_since_read is
false leaves the flag false; the save that follows is not suppressed (it
stores its word and moves head_idx to 1) and the build that follows returns no
blob. -/
theorem C14_counterexample_flag_stays_false :
    ∃ ar1 cd1,
      ath10k_debug_get_new_fw_crash_data (ar_snapshot false) uuid_example
        { tv_sec := 5, tv_nsec := 0 } = some (ar1, cd1) ∧
      cd1.crashed_since_read = false ∧
      ar1.debug.fw_crash_data = some cd1 ∧
      (ath10k_dbg_save_fw_dbg_buffer ar1 [7]).map
        (fun r => (r.debug.dbglog_entry_data.head_idx, r.debug.dbglog_entry_data.data 0))
        = some (1, 7) ∧
      (ath10k_build_dump_file k_small ar1 true).1 = build_outcome.null ∧
      (ath10k_build_dump_file k_small ar1 true).1.returned_dump = false :=
  ⟨_, _, rfl, rfl, rfl, by decide, rfl, by decide⟩

/-- C14, amended: for every state with a snapshot, the capture returns and
leaves crashed_since_read as it found it; when the flag is true (it is set by
the caller of the capture), a following ath10k_dbg_save_fw_dbg_buffer is
suppressed, for every batch, and a following ath10k_build_dump_file whose
allocation succeeds returns a blob, without warning, when the sizes fit (the
fixed part of the dump is below 2^31 bytes and ram_bss_len and rom_bss_len do
not exceed the BSS buffers of the snapshot). -/
theorem C14_capture_keeps_unread_flag (k : kernel_consts) (ar : ath10k)
    (crash_data : ath10k_fw_crash_data) (new_uuid : Nat → Nat) (now : timespec)
    (hc : ar.debug.fw_crash_data = some crash_data) :
    ∃ ar1 cd1,
      ath10k_debug_get_new_fw_crash_data ar new_uuid now = some (ar1, cd1) ∧
      ar1.debug.fw_crash_data = some cd1 ∧
      cd1.crashed_since_read = crash_data.crashed_since_read ∧
      (crash_data.crashed_since_read = true →
        (∀ buffer, ath10k_dbg_save_fw_dbg_buffer ar1 buffer = some ar1 ∧
          ath10k_dbg_save_fw_dbg_buffer_drops ar1 buffer = some 0) ∧
        (dump_fits k ar → dump_fits k ar1 ∧
          ∃ bytes, (ath10k_build_dump_file k ar1 true).1
            = build_outcome.dump bytes false)) := by
  refine ⟨_, _, get_new_fw_crash_data_some ar crash_data new_uuid now hc, rfl, rfl, ?_⟩
  intro hr
  constructor
  · intro buffer
    simp [ath10k_dbg_save_fw_dbg_buffer, ath10k_dbg_save_fw_dbg_buffer_drops,
      ath10k_dbg_save_fw_dbg_buffer_traced, hr]
  · intro hfit
    exact ⟨hfit, build_dump_fits k _ { crash_data with uuid := new_uuid, timestamp := now }
      rfl hr hfit⟩

/-- C14 (amended) at a concrete input: a capture on an unread snapshot. -/
theorem C14_capture_keeps_unread_flag_witness :
    ∃ ar1 cd1,
      ath10k_debug_get_new_fw_crash_data (ar_snapshot true) uuid_example
        { tv_sec := 5, tv_nsec := 0 } = some (ar1, cd1) ∧
      ar1.debug.fw_crash_data = some cd1 ∧
      cd1.crashed_since_read = true ∧
      (ath10k_dbg_save_fw_dbg_buffer ar1 [7] = some ar1 ∧
        ath10k_dbg_save_fw_dbg_buffer_drops ar1 [7] = some 0) ∧
      ∃ bytes, (ath10k_build_dump_file k_small ar1 true).1
        = build_outcome.dump bytes false := by
  obtain ⟨ar1, cd1, h1, h2, h3, h4⟩ := C14_capture_keeps_unread_flag k_small
    (ar_snapshot true) (crash_data_zero true) uuid_example { tv_sec := 5, tv_nsec := 0 } rfl
  exact ⟨ar1, cd1, h1, h2, h3, (h4 rfl).1 [7],
    ((h4 rfl).2 ⟨by decide, by decide, by decide⟩).2⟩

/-- C15: for every state with a snapshot, ath10k_debug_get_new_fw_crash_data
returns the snapshot of the state, the one the state still holds afterwards,
in which the unique id and the timestamp are the new ones and every other
member (crashed_since_read, registers, stack_buf, exc_stack_buf, the stack
addresses, both BSS buffers) is unchanged; the ring buffer and the rest of the
state are unchanged; and two consecutive captures leave the state a single
capture with the id and timestamp of the second leaves. -/
theorem C15_capture_overwrites_id_and_time (ar : ath10k)
    (crash_data : ath10k_fw_crash_data) (new_uuid : Nat → Nat) (now : timespec)
    (uuid2 : Nat → Nat) (now2 : timespec)
    (hc : ar.debug.fw_crash_data = some crash_data) :
    ∃ ar1 cd1,
      ath10k_debug_get_new_fw_crash_data ar new_uuid now = some (ar1, cd1) ∧
      ar1.debug.fw_crash_data = some cd1 ∧
      cd1 = { crash_data with uuid := new_uuid, timestamp := now } ∧
      cd1.registers = crash_data.registers ∧ cd1.stack_buf = crash_data.stack_buf ∧
      cd1.exc_stack_buf = crash_data.exc_stack_buf ∧
      cd1.stack_addr = crash_data.stack_addr ∧
      cd1.exc_stack_addr = crash_data.exc_stack_addr ∧
      cd1.rom_bss_buf = crash_data.rom_bss_buf ∧ cd1.ram_bss_buf = crash_data.ram_bss_buf ∧
      ar1.debug.dbglog_entry_data = ar.debug.dbglog_entry_data ∧
      ar1 = { ar with debug := { ar.debug with fw_crash_data := some cd1 } } ∧
      ∃ ar2 cd2,
        ath10k_debug_get_new_fw_crash_data ar1 uuid2 now2 = some (ar2, cd2) ∧
        cd2.uuid = uuid2 ∧ cd2.timestamp = now2 ∧
        ath10k_debug_get_new_fw_crash_data ar uuid2 now2 = some (ar2, cd2) := by
  refine ⟨_, _, get_new_fw_crash_data_some ar crash_data new_uuid now hc, rfl, rfl, rfl,
    rfl, rfl, rfl, rfl, rfl, rfl, rfl, rfl, _, _,
    get_new_fw_crash_data_some _ _ uuid2 now2 rfl, rfl, rfl, ?_⟩
  exact get_new_fw_crash_data_some ar crash_data uuid2 now2 hc

/-- C15 at a concrete input: two captures on a snapshot with all contents
zero; the snapshot carries the id and the time of the second. -/
theorem C15_capture_overwrites_id_and_time_witness :
    ∃ ar1 cd1 ar2 cd2,
      ath10k_debug_get_new_fw_crash_data (ar_snapshot true) uuid_example
        { tv_sec := 5, tv_nsec := 0 } = some (ar1, cd1) ∧
      cd1.uuid 0 = 1 ∧ cd1.timestamp.tv_sec = 5 ∧
      ath10k_debug_get_new_fw_crash_data ar1 uuid_example2
        { tv_sec := 9, tv_nsec := 3 } = some (ar2, cd2) ∧
      ar2.debug.fw_crash_data = some cd2 ∧
      cd2.uuid 0 = 101 ∧ cd2.timestamp.tv_sec = 9 ∧ cd2.timestamp.tv_nsec = 3 := by
  obtain ⟨ar1, cd1, h1, _, h3, _, _, _, _, _, _, _, _, _, ar2, cd2, h4, h5, h6, h7⟩ :=
    C15_capture_overwrites_id_and_time (ar_snapshot true) (crash_data_zero true)
      uuid_example { tv_sec := 5, tv_nsec := 0 } uuid_example2 { tv_sec := 9, tv_nsec := 3 }
      rfl
  have h8 : ar2.debug.fw_crash_data = some cd2 := by
    cases h7
    rfl
  refine ⟨ar1, cd1, ar2, cd2, h1, ?_, ?_, h4, h8, ?_, ?_, ?_⟩
  · rw [h3]; rfl
  · rw [h3]
  · rw [h5]; rfl
  · rw [h6]
  · rw [h6]

/-! ## Facts about the statistics decoder -/

theorem rd16_of_le (data : List Nat) (off : Nat) (h : off + 2 ≤ data.length) :
    rd16 data off = .ok (le16_at data off) := by
  unfold rd16
  rw [if_pos h]

theorem rd32_of_le (data : List Nat) (off : Nat) (h : off + 4 ≤ data.length) :
    rd32 data off = .ok (le32_at data off) := by
  unfold rd32
  rw [if_pos h]

theorem rd8s_of_le (data : List Nat) (off n : Nat) (h : off + n ≤ data.length) :
    rd8s data off n = .ok (u8s_at data off n) := by
  unfold rd8s
  rw [if_pos h]

theorem store_reg_val_of_le (data : List Nat) (off : Nat)
    (store : Nat → ath10k_target_stats) (h : off + 4 ≤ data.length) :
    store_reg_val data off store = .ok (store (le32_at data off)) := by
  unfold store_reg_val
  rw [rd32_of_le _ _ h]

theorem store_reg_val_ok_iff (data : List Nat) (off : Nat)
    (store : Nat → ath10k_target_stats) (s : ath10k_target_stats)
    (h : store_reg_val data off store = .ok s) :
    s = store (le32_at data off) := by
  unfold store_reg_val rd32 at h
  split_ifs at h
  simp only [Except.ok.injEq] at h
  exact h.symm

theorem ite_prop {α : Type} (P : α → Prop) (c : Prop) [Decidable c] (a b : α)
    (ha : c → P a) (hb : ¬ c → P b) : P (if c then a else b) := by
  split
  · exact ha ‹_›
  · exact hb ‹_›

theorem read_reg_pair_returns (k : wmi_consts) (data : List Nat)
    (stats : ath10k_target_stats) (i : Nat)
    (h1 : k.offsetof_regpair + i * k.sizeof_regpair + k.offsetof_reg_id + 2 ≤ data.length)
    (h2 : k.offsetof_regpair + i * k.sizeof_regpair + k.offsetof_reg_val + 4
      ≤ data.length) :
    ∃ s, read_reg_pair k data stats i = .ok s := by
  unfold read_reg_pair
  simp only [rd16_of_le _ _ h1, store_reg_val_of_le _ _ _ h2]
  repeat
    refine ite_prop (fun r => ∃ s, r = Except.ok s) _ _ _ (fun _ => ⟨_, rfl⟩)
      (fun _ => ?_)
  exact ⟨_, rfl⟩

theorem read_reg_pair_unknown (k : wmi_consts) (data : List Nat)
    (stats : ath10k_target_stats) (i : Nat)
    (h1 : k.offsetof_regpair + i * k.sizeof_regpair + k.offsetof_reg_id + 2 ≤ data.length)
    (hu : reg_id_at k data i ∉ reg_dump_ids k) :
    read_reg_pair k data stats i = .ok stats := by
  unfold read_reg_pair
  simp only [rd16_of_le _ _ h1]
  simp only [reg_dump_ids, reg_id_at, List.mem_cons, List.mem_singleton, not_or,
    List.not_mem_nil, not_false_eq_true, and_true] at hu
  obtain ⟨h0, h1, h2, h3, h4, h5, h6, h7, h8, h9, h10, h11, h12, h13, h14, h15, h16, h17,
    h18, h19, h20⟩ := hu
  rw [if_neg h0, if_neg h1, if_neg h2, if_neg h3, if_neg h4, if_neg h5, if_neg h6,
    if_neg h7, if_neg h8, if_neg h9, if_neg h10, if_neg h11, if_neg h12, if_neg h13,
    if_neg h14, if_neg h15, if_neg h16, if_neg h17, if_neg h18, if_neg h19, if_neg h20]

theorem read_reg_pair_mac_filter (k : wmi_consts) (data : List Nat)
    (stats s : ath10k_target_stats) (i : Nat)
    (hd : k.MAC_FILTER_ADDR_L32 ≠ k.REG_DUMP_NONE)
    (h : read_reg_pair k data stats i = .ok s) :
    (reg_id_at k data i = k.MAC_FILTER_ADDR_L32 →
      s.mac_filter_addr_l32 = reg_val_at k data i) ∧
    (reg_id_at k data i ≠ k.MAC_FILTER_ADDR_L32 →
      s.mac_filter_addr_l32 = stats.mac_filter_addr_l32) := by
  unfold read_reg_pair at h
  unfold reg_id_at reg_val_at
  simp only [] at h
  have hb : k.offsetof_regpair + i * k.sizeof_regpair + k.offsetof_reg_id + 2
      ≤ data.length := by
    by_contra hc
    unfold rd16 at h
    rw [if_neg hc] at h
    cases h
  rw [rd16_of_le _ _ hb] at h
  simp only [] at h
  revert h
  refine ite_prop (fun r => r = Except.ok s → _) _ _ _ (fun h0 h => ?_) (fun h0 => ?_)
  · simp only [Except.ok.injEq] at h
    subst h
    exact ⟨fun hy => absurd (hy.symm.trans h0) hd, fun _ => rfl⟩
  refine ite_prop (fun r => r = Except.ok s → _) _ _ _ (fun h1 h => ?_) (fun h1 => ?_)
  · have e := store_reg_val_ok_iff _ _ _ _ h
    subst e
    exact ⟨fun _ => rfl, fun hn => absurd h1 hn⟩
  repeat
    refine ite_prop (fun r => r = Except.ok s → _) _ _ _
      (fun _ h => by
        have e := store_reg_val_ok_iff _ _ _ _ h
        subst e
        exact ⟨fun hy => absurd hy h1, fun _ => rfl⟩) (fun _ => ?_)
  intro h
  simp only [Except.ok.injEq] at h
  subst h
  exact ⟨fun hy => absurd hy h1, fun _ => rfl⟩

theorem pair_in_buffer (k : wmi_consts) (len j n : Nat) (hj : j < n)
    (hbuf : k.offsetof_regpair + n * k.sizeof_regpair ≤ len) :
    k.offsetof_regpair + j * k.sizeof_regpair + k.sizeof_regpair ≤ len := by
  have h := Nat.mul_le_mul_right k.sizeof_regpair (Nat.succ_le_of_lt hj)
  rw [Nat.succ_mul] at h
  omega

theorem read_reg_dump_loop_returns (k : wmi_consts) (data : List Nat)
    (h1 : k.offsetof_reg_id + 2 ≤ k.sizeof_regpair)
    (h2 : k.offsetof_reg_val + 4 ≤ k.sizeof_regpair) :
    ∀ (n i : Nat) (stats : ath10k_target_stats),
      k.offsetof_regpair + (i + n) * k.sizeof_regpair ≤ data.length →
      ∃ s, read_reg_dump_loop k data n i stats = .ok s := by
  intro n
  induction n with
  | zero => intro i stats _; exact ⟨stats, rfl⟩
  | succ m ih =>
    intro i stats hbuf
    have hp := pair_in_buffer k data.length i (i + (m + 1)) (by omega) hbuf
    obtain ⟨s1, hs1⟩ := read_reg_pair_returns k data stats i (by omega) (by omega)
    unfold read_reg_dump_loop
    rw [hs1]
    exact ih (i + 1) s1 (by rw [show i + 1 + m = i + (m + 1) by omega]; exact hbuf)

theorem read_reg_dump_loop_mac_filter (k : wmi_consts) (data : List Nat)
    (hd : k.MAC_FILTER_ADDR_L32 ≠ k.REG_DUMP_NONE) :
    ∀ (n i : Nat) (stats s : ath10k_target_stats),
      read_reg_dump_loop k data n i stats = .ok s →
      ((∀ j, i ≤ j → j < i + n → reg_id_at k data j ≠ k.MAC_FILTER_ADDR_L32) →
        s.mac_filter_addr_l32 = stats.mac_filter_addr_l32) ∧
      (∀ j, i ≤ j → j < i + n → reg_id_at k data j = k.MAC_FILTER_ADDR_L32 →
        (∀ j2, j < j2 → j2 < i + n → reg_id_at k data j2 ≠ k.MAC_FILTER_ADDR_L32) →
        s.mac_filter_addr_l32 = reg_val_at k data j) := by
  intro n
  induction n with
  | zero =>
    intro i stats s h
    unfold read_reg_dump_loop at h
    simp only [Except.ok.injEq] at h
    subst h
    exact ⟨fun _ => rfl, fun j h1 h2 => by omega⟩
  | succ m ih =>
    intro i stats s h
    unfold read_reg_dump_loop at h
    cases hs1 : read_reg_pair k data stats i with
    | error e => rw [hs1] at h; cases h
    | ok s1 =>
      rw [hs1] at h
      simp only [] at h
      obtain ⟨p1, p2⟩ := read_reg_pair_mac_filter k data stats s1 i hd hs1
      obtain ⟨q1, q2⟩ := ih (i + 1) s1 s h
      constructor
      · intro hall
        rw [q1 (fun j hj1 hj2 => hall j (by omega) (by omega)), p2 (hall i (by omega) (by omega))]
      · intro j hj1 hj2 hj hlast
        by_cases hji : j = i
        · subst hji
          rw [q1 (fun j2 h1 h2 => hlast j2 (by omega) (by omega)), p1 hj]
        · exact q2 j (by omega) (by omega) hj (fun j2 h1 h2 => hlast j2 h1 (by omega))

theorem read_reg_dump_loop_unknown (k : wmi_consts) (data : List Nat)
    (h1 : k.offsetof_reg_id + 2 ≤ k.sizeof_regpair) :
    ∀ (n i : Nat) (stats : ath10k_target_stats),
      k.offsetof_regpair + (i + n) * k.sizeof_regpair ≤ data.length →
      (∀ j, i ≤ j → j < i + n → reg_id_at k data j ∉ reg_dump_ids k) →
      read_reg_dump_loop k data n i stats = .ok stats := by
  intro n
  induction n with
  | zero => intro i stats _ _; rfl
  | succ m ih =>
    intro i stats hbuf hall
    have hp := pair_in_buffer k data.length i (i + (m + 1)) (by omega) hbuf
    unfold read_reg_dump_loop
    rw [read_reg_pair_unknown k data stats i (by omega) (hall i (by omega) (by omega))]
    exact ih (i + 1) stats (by rw [show i + 1 + m = i + (m + 1) by omega]; exact hbuf)
      (fun j hj1 hj2 => hall j (by omega) (by omega))

/-- For a register-dump event the decoder runs the register loop on the
declared number of pairs. -/
theorem read_target_stats_reg_dump (k : wmi_consts) (fw_features : Nat)
    (stats : ath10k_target_stats) (ev : wmi_stats_event)
    (hid : ev.stats_id = k.WMI_REQUEST_REGISTER_DUMP)
    (hcnt : k.offsetof_count + 2 ≤ ev.data.length) :
    ath10k_debug_read_target_stats k fw_features stats ev
      = read_reg_dump_loop k ev.data (le16_at ev.data k.offsetof_count) 0 stats := by
  unfold ath10k_debug_read_target_stats ath10k_debug_read_target_stats_traced read_reg_dump
  simp only [hid, if_true, rd16_of_le _ _ hcnt]
  cases read_reg_dump_loop k ev.data (le16_at ev.data k.offsetof_count) 0 stats <;> rfl

theorem wmi_small_layout_ok : layout_ok wmi_small := by
  refine ⟨by decide, by decide, by decide, ?_, ?_, by decide, by decide, by decide,
    by decide, by decide, by decide, by decide⟩
  · intro f
    cases f <;> decide
  · intro f hf
    cases f <;> first | decide | cases hf

theorem read_pdev_stats_returns (k : wmi_consts) (fw_features : Nat) (data : List Nat)
    (tmp : Nat) (stats : ath10k_target_stats) (hlay : layout_ok k)
    (hbuf : tmp + pdev_stride k fw_features ≤ data.length) :
    ∃ s, read_pdev_stats k fw_features data tmp stats = .ok s ∧
      s.peers = stats.peers ∧ s.peer_stat = stats.peer_stat := by
  unfold pdev_stride at hbuf
  unfold read_pdev_stats
  by_cases hx : test_bit ATH10K_FW_FEATURE_WMI_10X fw_features = true
  · rw [if_pos hx] at hbuf
    have hps : ∀ f, rd32 data (tmp + k.pdev_off f) = .ok (le32_at data (tmp + k.pdev_off f)) :=
      fun f => rd32_of_le _ _ (by have := hlay.pdev_10x f; omega)
    simp only [hps, hx, if_true, bind, Except.bind, pure, Except.pure]
    exact ⟨_, rfl, rfl, rfl⟩
  · rw [if_neg hx] at hbuf
    have hps : ∀ f, f.in_old = true →
        rd32 data (tmp + k.pdev_off f) = .ok (le32_at data (tmp + k.pdev_off f)) :=
      fun f hf => rd32_of_le _ _ (by have := hlay.pdev_old f hf; omega)
    simp only [hps, wmi_pdev_field.in_old, hx, if_false, bind, Except.bind, pure,
      Except.pure, Bool.false_eq_true]
    exact ⟨_, rfl, rfl, rfl⟩

theorem read_peer_stat_eq (k : wmi_consts) (fw_features : Nat) (data : List Nat)
    (tmp : Nat) (s : ath10k_peer_stat) (hlay : layout_ok k)
    (hbuf : tmp + peer_stride k fw_features ≤ data.length) :
    read_peer_stat k fw_features data tmp s = .ok (peer_entry k fw_features data tmp s) := by
  unfold peer_stride at hbuf
  unfold read_peer_stat peer_entry
  by_cases hx : test_bit ATH10K_FW_FEATURE_WMI_10X fw_features = true
  · rw [if_pos hx] at hbuf
    have h1 := hlay.peer_macaddr_10x
    have h2 := hlay.peer_rssi_10x
    have h3 := hlay.peer_tx_rate_10x
    have h4 := hlay.peer_rx_rate_10x
    simp only [rd8s_of_le data (tmp + k.offsetof_peer_macaddr) k.ETH_ALEN (by omega),
      rd32_of_le data (tmp + k.offsetof_peer_rssi) (by omega),
      rd32_of_le data (tmp + k.offsetof_peer_tx_rate) (by omega),
      rd32_of_le data (tmp + k.offsetof_peer_rx_rate) (by omega),
      hx, if_true, bind, Except.bind, pure, Except.pure]
  · rw [if_neg hx] at hbuf
    have h1 := hlay.peer_macaddr_old
    have h2 := hlay.peer_rssi_old
    have h3 := hlay.peer_tx_rate_old
    simp only [rd8s_of_le data (tmp + k.offsetof_peer_macaddr) k.ETH_ALEN (by omega),
      rd32_of_le data (tmp + k.offsetof_peer_rssi) (by omega),
      rd32_of_le data (tmp + k.offsetof_peer_tx_rate) (by omega),
      hx, if_false, bind, Except.bind, pure, Except.pure, Bool.false_eq_true]

theorem range_succ_offsets (tmp S n : Nat) :
    (List.range (n + 1)).map (fun j => tmp + j * S)
      = tmp :: (List.range n).map (fun j => tmp + S + j * S) := by
  rw [List.range_succ_eq_map, List.map_cons, List.map_map]
  simp only [Nat.zero_mul, Nat.add_zero, List.cons.injEq, true_and]
  apply List.map_congr_left
  intro j _
  simp only [Function.comp, Nat.succ_mul]
  omega

/-- The offsets of the records read by a peer loop that returns. -/
theorem read_peer_stats_loop_offsets (k : wmi_consts) (fw_features : Nat)
    (data : List Nat) :
    ∀ (n i tmp : Nat) (stats st : ath10k_target_stats) (offsets : List Nat),
      read_peer_stats_loop k fw_features data n i tmp stats = .ok (st, offsets) →
      offsets = (List.range n).map (fun j => tmp + j * peer_stride k fw_features) := by
  intro n
  induction n with
  | zero =>
    intro i tmp stats st offsets h
    unfold read_peer_stats_loop at h
    simp only [Except.ok.injEq, Prod.mk.injEq] at h
    rw [← h.2]
    rfl
  | succ m ih =>
    intro i tmp stats st offsets h
    unfold read_peer_stats_loop at h
    split at h
    · cases h
    · split at h
      · cases h
      · simp only [] at h
        split at h
        · cases h
        · rename_i st2 offs2 hrec
          simp only [Except.ok.injEq, Prod.mk.injEq] at h
          rw [← h.2, range_succ_offsets, ih _ _ _ _ _ hrec]

/-- A peer loop whose records lie inside the payload and whose entries lie
inside the array returns, having filled the entries from the records. -/
theorem read_peer_stats_loop_returns (k : wmi_consts) (fw_features : Nat)
    (data : List Nat) (hlay : layout_ok k) :
    ∀ (n i tmp : Nat) (stats : ath10k_target_stats),
      i + n ≤ k.TARGET_NUM_PEERS →
      tmp + n * peer_stride k fw_features ≤ data.length →
      ∃ st, read_peer_stats_loop k fw_features data n i tmp stats
          = .ok (st, (List.range n).map (fun j => tmp + j * peer_stride k fw_features)) ∧
        st = { stats with peer_stat := st.peer_stat } ∧
        ∀ j, st.peer_stat j =
          if i ≤ j ∧ j < i + n then
            peer_entry k fw_features data (tmp + (j - i) * peer_stride k fw_features)
              (stats.peer_stat j)
          else stats.peer_stat j := by
  intro n
  induction n with
  | zero =>
    intro i tmp stats _ _
    refine ⟨stats, rfl, rfl, ?_⟩
    intro j
    rw [if_neg (by omega)]
  | succ m ih =>
    intro i tmp stats hcap hbuf
    rw [Nat.succ_mul] at hbuf
    unfold read_peer_stats_loop
    rw [if_neg (by omega), read_peer_stat_eq k fw_features data tmp _ hlay (by omega)]
    simp only []
    obtain ⟨st, h1, h2, h3⟩ := ih (i + 1) (tmp + peer_stride k fw_features)
      { stats with peer_stat := fun j =>
          if j = i then peer_entry k fw_features data tmp (stats.peer_stat i)
          else stats.peer_stat j } (by omega) (by omega)
    rw [h1]
    simp only []
    refine ⟨st, ?_, ?_, ?_⟩
    · rw [range_succ_offsets]
    · rw [h2]
    · intro j
      rw [h3 j]
      simp only []
      by_cases hj : j = i
      · subst hj
        rw [if_neg (by omega), if_pos rfl, if_pos (by omega), Nat.sub_self, Nat.zero_mul,
          Nat.add_zero]
      · by_cases hj2 : i + 1 ≤ j ∧ j < i + 1 + m
        · rw [if_pos hj2, if_neg hj, if_pos (by omega)]
          have e : tmp + peer_stride k fw_features
              + (j - (i + 1)) * peer_stride k fw_features
              = tmp + (j - i) * peer_stride k fw_features := by
            have : j - i = (j - (i + 1)) + 1 := by omega
            rw [this, Nat.succ_mul]
            omega
          rw [e]
        · rw [if_neg hj2, if_neg hj, if_neg (by omega)]

/-- A peer loop that declares more records than the array has entries stores
past the end of the array, when the records up to there lie inside the
payload. -/
theorem read_peer_stats_loop_overflow (k : wmi_consts) (fw_features : Nat)
    (data : List Nat) (hlay : layout_ok k) :
    ∀ (n i tmp : Nat) (stats : ath10k_target_stats),
      k.TARGET_NUM_PEERS < i + n → i ≤ k.TARGET_NUM_PEERS →
      tmp + (k.TARGET_NUM_PEERS - i) * peer_stride k fw_features ≤ data.length →
      read_peer_stats_loop k fw_features data n i tmp stats
        = .error .peer_stat_overflow := by
  intro n
  induction n with
  | zero => intro i tmp stats h1 h2 _; omega
  | succ m ih =>
    intro i tmp stats h1 h2 hbuf
    unfold read_peer_stats_loop
    by_cases hi : k.TARGET_NUM_PEERS ≤ i
    · rw [if_pos hi]
    · have e : k.TARGET_NUM_PEERS - i = (k.TARGET_NUM_PEERS - (i + 1)) + 1 := by omega
      rw [e, Nat.succ_mul] at hbuf
      rw [if_neg hi, read_peer_stat_eq k fw_features data tmp _ hlay (by omega)]
      simp only []
      rw [ih (i + 1) (tmp + peer_stride k fw_features) _ (by omega) (by omega) (by omega)]

/-- A peer loop whose records lie inside the payload does not read past it. -/
theorem read_peer_stats_loop_no_read_fault (k : wmi_consts) (fw_features : Nat)
    (data : List Nat) (hlay : layout_ok k) :
    ∀ (n i tmp : Nat) (stats : ath10k_target_stats),
      tmp + n * peer_stride k fw_features ≤ data.length →
      read_peer_stats_loop k fw_features data n i tmp stats
        ≠ .error .read_past_buffer := by
  intro n
  induction n with
  | zero =>
    intro i tmp stats _ h
    cases h
  | succ m ih =>
    intro i tmp stats hbuf
    rw [Nat.succ_mul] at hbuf
    unfold read_peer_stats_loop
    by_cases hi : k.TARGET_NUM_PEERS ≤ i
    · rw [if_pos hi]
      intro h
      cases h
    · rw [if_neg hi, read_peer_stat_eq k fw_features data tmp _ hlay (by omega)]
      simp only []
      have hrec := ih (i + 1) (tmp + peer_stride k fw_features)
        { stats with peer_stat := fun j =>
            if j = i then peer_entry k fw_features data tmp (stats.peer_stat i)
            else stats.peer_stat j } (by omega)
      revert hrec
      cases read_peer_stats_loop k fw_features data m (i + 1)
        (tmp + peer_stride k fw_features) _ with
      | error e =>
        intro hrec h
        simp only [Except.error.injEq] at h
        subst h
        exact hrec rfl
      | ok r =>
        intro _ h
        cases h

theorem le32_to_int_of_lt (x : Nat) (h : x < 2 ^ 31) : le32_to_int x = (x : Int) := by
  unfold le32_to_int int_of_u32
  have e : x % 2 ^ 32 = x := Nat.mod_eq_of_lt (by omega)
  rw [e, if_pos h]

theorem read_target_stats_of_traced_ok (k : wmi_consts) (fw_features : Nat)
    (stats : ath10k_target_stats) (ev : wmi_stats_event) (st : ath10k_target_stats)
    (offsets : List Nat)
    (h : ath10k_debug_read_target_stats_traced k fw_features stats ev = .ok (st, offsets)) :
    ath10k_debug_read_target_stats k fw_features stats ev = .ok st := by
  unfold ath10k_debug_read_target_stats
  rw [h]

theorem read_target_stats_of_traced_error (k : wmi_consts) (fw_features : Nat)
    (stats : ath10k_target_stats) (ev : wmi_stats_event) (e : stats_fault)
    (h : ath10k_debug_read_target_stats_traced k fw_features stats ev = .error e) :
    ath10k_debug_read_target_stats k fw_features stats ev = .error e := by
  unfold ath10k_debug_read_target_stats
  rw [h]

/-- The decoder on a statistics event whose pdev block returns: the peer loop
starts at `peer_base`. -/
theorem read_target_stats_traced_peers (k : wmi_consts) (fw_features : Nat)
    (stats stats1 : ath10k_target_stats) (ev : wmi_stats_event)
    (hid : ev.stats_id ≠ k.WMI_REQUEST_REGISTER_DUMP)
    (hp : (if le32_to_int ev.num_pdev_stats ≠ 0 then
        read_pdev_stats k fw_features ev.data 0 stats else .ok stats) = .ok stats1) :
    ath10k_debug_read_target_stats_traced k fw_features stats ev =
      if le32_to_int ev.num_peer_stats ≠ 0 then
        read_peer_stats_loop k fw_features ev.data (le32_to_int ev.num_peer_stats).toNat 0
          (peer_base k fw_features ev)
          { stats1 with peers := (le32_to_int ev.num_peer_stats % 256).toNat }
      else .ok (stats1, []) := by
  unfold ath10k_debug_read_target_stats_traced
  simp only [if_neg hid]
  rw [hp]
  simp only []
  have e : (if le32_to_int ev.num_vdev_stats ≠ 0 then
        (if le32_to_int ev.num_pdev_stats ≠ 0 then 0 + pdev_stride k fw_features else 0)
          + (le32_to_int ev.num_vdev_stats).toNat * k.sizeof_wmi_vdev_stats
      else (if le32_to_int ev.num_pdev_stats ≠ 0 then 0 + pdev_stride k fw_features else 0))
      = peer_base k fw_features ev := by
    unfold peer_base pdev_part
    rw [Nat.zero_add]
    by_cases hv : le32_to_int ev.num_vdev_stats = 0
    · rw [if_neg (not_not.mpr hv), hv]
      simp only [Int.toNat_zero, Nat.zero_mul, Nat.add_zero]
    · rw [if_pos hv]
  rw [e]

theorem read_target_stats_traced_pdev_error (k : wmi_consts) (fw_features : Nat)
    (stats : ath10k_target_stats) (ev : wmi_stats_event) (e : stats_fault)
    (hid : ev.stats_id ≠ k.WMI_REQUEST_REGISTER_DUMP)
    (hp : (if le32_to_int ev.num_pdev_stats ≠ 0 then
        read_pdev_stats k fw_features ev.data 0 stats else .ok stats) = .error e) :
    ath10k_debug_read_target_stats_traced k fw_features stats ev = .error e := by
  unfold ath10k_debug_read_target_stats_traced
  simp only [if_neg hid]
  rw [hp]

/-- The pdev block returns when the pdev part lies inside the payload, and it
leaves the peer members as they were. -/
theorem pdev_block_returns (k : wmi_consts) (fw_features : Nat)
    (stats : ath10k_target_stats) (ev : wmi_stats_event) (hlay : layout_ok k)
    (hbuf : pdev_part k fw_features ev ≤ ev.data.length) :
    ∃ stats1, (if le32_to_int ev.num_pdev_stats ≠ 0 then
        read_pdev_stats k fw_features ev.data 0 stats else .ok stats) = .ok stats1 ∧
      stats1.peers = stats.peers ∧ stats1.peer_stat = stats.peer_stat := by
  unfold pdev_part at hbuf
  by_cases hp : le32_to_int ev.num_pdev_stats = 0
  · rw [if_neg (not_not.mpr hp)]
    exact ⟨stats, rfl, rfl, rfl⟩
  · rw [if_pos hp] at hbuf ⊢
    exact read_pdev_stats_returns k fw_features ev.data 0 stats hlay
      (by rw [Nat.zero_add]; exact hbuf)

theorem pdev_part_le_needed (k : wmi_consts) (fw_features : Nat) (ev : wmi_stats_event) :
    pdev_part k fw_features ev ≤ peer_base k fw_features ev ∧
      peer_base k fw_features ev ≤ payload_needed k fw_features ev := by
  unfold payload_needed peer_base
  omega

/-- A statistics event that declares more peer records than `peer_stat` has
entries makes the decoder store past the end of the array, when the records up
to there lie inside the payload. -/
theorem read_target_stats_overflow (k : wmi_consts) (fw_features : Nat)
    (stats : ath10k_target_stats) (ev : wmi_stats_event)
    (hid : ev.stats_id ≠ k.WMI_REQUEST_REGISTER_DUMP) (hlay : layout_ok k)
    (hn : ev.num_peer_stats < 2 ^ 31)
    (hcap : k.TARGET_NUM_PEERS < ev.num_peer_stats)
    (hbuf : peer_base k fw_features ev + k.TARGET_NUM_PEERS * peer_stride k fw_features
      ≤ ev.data.length) :
    ath10k_debug_read_target_stats k fw_features stats ev = .error .peer_stat_overflow := by
  obtain ⟨stats1, hp, _, _⟩ := pdev_block_returns k fw_features stats ev hlay
    (by have := (pdev_part_le_needed k fw_features ev).1; omega)
  apply read_target_stats_of_traced_error
  rw [read_target_stats_traced_peers k fw_features stats stats1 ev hid hp,
    le32_to_int_of_lt _ hn]
  rw [if_pos (by omega)]
  exact read_peer_stats_loop_overflow k fw_features ev.data hlay _ 0 _ _
    (by simp only [Int.toNat_ofNat]; omega) (Nat.zero_le _)
    (by rw [Nat.sub_zero]; exact hbuf)

/-- A statistics event whose payload holds what its header declares, with no
more peer records than `peer_stat` has entries: the decoder returns, having
read the peer records at the offsets `peer_base + j * peer_stride`. -/
theorem read_target_stats_traced_returns (k : wmi_consts) (fw_features : Nat)
    (stats : ath10k_target_stats) (ev : wmi_stats_event)
    (hid : ev.stats_id ≠ k.WMI_REQUEST_REGISTER_DUMP) (hlay : layout_ok k)
    (hn : ev.num_peer_stats < 2 ^ 31)
    (hcap : ev.num_peer_stats ≤ k.TARGET_NUM_PEERS)
    (hbuf : payload_needed k fw_features ev ≤ ev.data.length) :
    ∃ st, ath10k_debug_read_target_stats_traced k fw_features stats ev
        = .ok (st, (List.range ev.num_peer_stats).map
            (fun j => peer_base k fw_features ev + j * peer_stride k fw_features)) ∧
      (ev.num_peer_stats ≠ 0 → st.peers = ev.num_peer_stats % 256) ∧
      ∀ j, st.peer_stat j =
        if j < ev.num_peer_stats then
          peer_entry k fw_features ev.data
            (peer_base k fw_features ev + j * peer_stride k fw_features) (stats.peer_stat j)
        else stats.peer_stat j := by
  have hle := pdev_part_le_needed k fw_features ev
  obtain ⟨stats1, hp, hp1, hp2⟩ := pdev_block_returns k fw_features stats ev hlay (by omega)
  rw [read_target_stats_traced_peers k fw_features stats stats1 ev hid hp]
  unfold payload_needed at hbuf
  rw [le32_to_int_of_lt _ hn] at hbuf ⊢
  simp only [Int.toNat_ofNat] at hbuf ⊢
  by_cases h0 : ev.num_peer_stats = 0
  · rw [if_neg (by omega), h0]
    refine ⟨stats1, rfl, fun h => absurd rfl h, ?_⟩
    intro j
    rw [if_neg (by omega), hp2]
  · rw [if_pos (by omega)]
    obtain ⟨st, h1, h2, h3⟩ := read_peer_stats_loop_returns k fw_features ev.data hlay
      ev.num_peer_stats 0 (peer_base k fw_features ev)
      { stats1 with peers := ((ev.num_peer_stats : Int) % 256).toNat }
      (by omega) hbuf
    refine ⟨st, h1, ?_, ?_⟩
    · intro _
      rw [h2]
      show (((ev.num_peer_stats : Int) % 256).toNat) = ev.num_peer_stats % 256
      omega
    · intro j
      rw [h3 j]
      simp only [Nat.zero_le, true_and, Nat.zero_add, Nat.sub_zero, hp2]

/-- A statistics event whose payload holds what its header declares is decoded
without a read past the payload. -/
theorem read_target_stats_no_read_fault (k : wmi_consts) (fw_features : Nat)
    (stats : ath10k_target_stats) (ev : wmi_stats_event)
    (hid : ev.stats_id ≠ k.WMI_REQUEST_REGISTER_DUMP) (hlay : layout_ok k)
    (hbuf : payload_needed k fw_features ev ≤ ev.data.length) :
    ath10k_debug_read_target_stats k fw_features stats ev ≠ .error .read_past_buffer := by
  have hle := pdev_part_le_needed k fw_features ev
  obtain ⟨stats1, hp, _, _⟩ := pdev_block_returns k fw_features stats ev hlay (by omega)
  have ht := read_target_stats_traced_peers k fw_features stats stats1 ev hid hp
  unfold payload_needed at hbuf
  cases hr : ath10k_debug_read_target_stats_traced k fw_features stats ev with
  | ok r =>
    rw [read_target_stats_of_traced_ok k fw_features stats ev r.1 r.2 hr]
    intro h
    cases h
  | error e =>
    rw [read_target_stats_of_traced_error k fw_features stats ev e hr]
    intro h
    simp only [Except.error.injEq] at h
    subst h
    rw [ht] at hr
    by_cases h0 : le32_to_int ev.num_peer_stats = 0
    · rw [if_neg (not_not.mpr h0)] at hr
      cases hr
    · rw [if_pos h0] at hr
      exact read_peer_stats_loop_no_read_fault k fw_features ev.data hlay _ 0 _ _ hbuf hr

theorem ev_pdev_vdev_peers_length : ev_pdev_vdev_peers.data.length = 288 :=
  List.length_replicate _ _

theorem except_bind_ok {ε α β : Type} (x : Except ε α) (f : α → Except ε β) (s : β)
    (P : Prop) (h : (x >>= f) = .ok s) (hk : ∀ a, x = .ok a → f a = .ok s → P) : P := by
  cases x with
  | error e => cases h
  | ok a => exact hk a rfl h

/-- A pdev block that returns has changed neither the peer count nor the peer
entries. -/
theorem read_pdev_stats_peers (k : wmi_consts) (fw_features : Nat) (data : List Nat)
    (tmp : Nat) (stats s : ath10k_target_stats)
    (h : read_pdev_stats k fw_features data tmp stats = .ok s) :
    s.peers = stats.peers ∧ s.peer_stat = stats.peer_stat := by
  unfold read_pdev_stats at h
  simp only [] at h
  repeat
    refine except_bind_ok _ _ _ _ h ?_
    clear h
    intro _ _ h
  split at h
  · repeat
      refine except_bind_ok _ _ _ _ h ?_
      clear h
      intro _ _ h
    simp only [pure, Except.pure, Except.ok.injEq] at h
    subst h
    exact ⟨rfl, rfl⟩
  · simp only [pure, Except.pure, Except.ok.injEq] at h
    subst h
    exact ⟨rfl, rfl⟩

/-- The pdev block, when it returns, leaves `peer_stat` as it was. -/
theorem pdev_block_peer_stat (k : wmi_consts) (fw_features : Nat)
    (stats stats1 : ath10k_target_stats) (ev : wmi_stats_event)
    (hpd : (if le32_to_int ev.num_pdev_stats ≠ 0 then
        read_pdev_stats k fw_features ev.data 0 stats else .ok stats) = .ok stats1) :
    stats1.peer_stat = stats.peer_stat := by
  by_cases h0 : le32_to_int ev.num_pdev_stats ≠ 0
  · rw [if_pos h0] at hpd
    exact (read_pdev_stats_peers k fw_features ev.data 0 stats stats1 hpd).2
  · rw [if_neg h0] at hpd
    simp only [Except.ok.injEq] at hpd
    rw [← hpd]

theorem ev_pdev_vdev_two_peers_length : ev_pdev_vdev_two_peers.data.length = 268 := by
  unfold ev_pdev_vdev_two_peers
  simp only [List.length_append, List.length_replicate, List.length_cons, List.length_nil]

/-- An iteration of the peer loop that returns has filled the entry from the
record at the read position. -/
theorem read_peer_stat_ok (k : wmi_consts) (fw_features : Nat) (data : List Nat)
    (tmp : Nat) (s s1 : ath10k_peer_stat)
    (h : read_peer_stat k fw_features data tmp s = .ok s1) :
    s1 = peer_entry k fw_features data tmp s := by
  unfold read_peer_stat at h
  unfold peer_entry
  refine except_bind_ok _ _ _ _ h ?_
  clear h
  intro addr ha h
  refine except_bind_ok _ _ _ _ h ?_
  clear h
  intro rssi hr h
  refine except_bind_ok _ _ _ _ h ?_
  clear h
  intro txr ht h
  have ea : addr = u8s_at data (tmp + k.offsetof_peer_macaddr) k.ETH_ALEN := by
    unfold rd8s at ha
    split at ha
    · simp only [Except.ok.injEq] at ha
      exact ha.symm
    · cases ha
  have er : rssi = le32_at data (tmp + k.offsetof_peer_rssi) := by
    unfold rd32 at hr
    split at hr
    · simp only [Except.ok.injEq] at hr
      exact hr.symm
    · cases hr
  have et : txr = le32_at data (tmp + k.offsetof_peer_tx_rate) := by
    unfold rd32 at ht
    split at ht
    · simp only [Except.ok.injEq] at ht
      exact ht.symm
    · cases ht
  subst ea er et
  by_cases hx : test_bit ATH10K_FW_FEATURE_WMI_10X fw_features = true
  · rw [if_pos hx] at h
    refine except_bind_ok _ _ _ _ h ?_
    clear h
    intro rxr hrx h
    have ex : rxr = le32_at data (tmp + k.offsetof_peer_rx_rate) := by
      unfold rd32 at hrx
      split at hrx
      · simp only [Except.ok.injEq] at hrx
        exact hrx.symm
      · cases hrx
    subst ex
    simp only [pure, Except.pure, Except.ok.injEq] at h
    rw [← h]
    simp only [hx, if_true]
  · rw [if_neg hx] at h
    simp only [pure, Except.pure, Except.ok.injEq] at h
    rw [← h]
    simp only [hx, Bool.false_eq_true, if_false]

/-- A peer loop that returns has filled the entries `i`, ..., `i + n - 1` from
the records at the read positions `tmp`, `tmp + S`, ..., and no other. -/
theorem read_peer_stats_loop_entries (k : wmi_consts) (fw_features : Nat)
    (data : List Nat) :
    ∀ (n i tmp : Nat) (stats st : ath10k_target_stats) (offsets : List Nat),
      read_peer_stats_loop k fw_features data n i tmp stats = .ok (st, offsets) →
      ∀ j, st.peer_stat j =
        if i ≤ j ∧ j < i + n then
          peer_entry k fw_features data (tmp + (j - i) * peer_stride k fw_features)
            (stats.peer_stat j)
        else stats.peer_stat j := by
  intro n
  induction n with
  | zero =>
    intro i tmp stats st offsets h j
    unfold read_peer_stats_loop at h
    simp only [Except.ok.injEq, Prod.mk.injEq] at h
    rw [← h.1, if_neg (by omega)]
  | succ m ih =>
    intro i tmp stats st offsets h j
    unfold read_peer_stats_loop at h
    split at h
    · cases h
    · split at h
      · cases h
      · rename_i s hs
        simp only [] at h
        split at h
        · cases h
        · rename_i st2 offs2 hrec
          simp only [Except.ok.injEq, Prod.mk.injEq] at h
          rw [← h.1, ih _ _ _ _ _ hrec j, read_peer_stat_ok k fw_features data tmp _ s hs]
          simp only []
          by_cases hj : j = i
          · subst hj
            rw [if_neg (by omega), if_pos rfl, if_pos (by omega), Nat.sub_self, Nat.zero_mul,
              Nat.add_zero]
          · by_cases hj2 : i + 1 ≤ j ∧ j < i + 1 + m
            · rw [if_pos hj2, if_neg hj, if_pos (by omega)]
              have e : tmp + peer_stride k fw_features
                  + (j - (i + 1)) * peer_stride k fw_features
                  = tmp + (j - i) * peer_stride k fw_features := by
                have : j - i = (j - (i + 1)) + 1 := by omega
                rw [this, Nat.succ_mul]
                omega
              rw [e]
            · rw [if_neg hj2, if_neg hj, if_neg (by omega)]

/-! ## The claims about the statistics decoder -/

/-- C16: for every register-dump event (stats_id = WMI_REQUEST_REGISTER_DUMP)
whose payload holds the declared number n of pairs,
ath10k_debug_read_target_stats returns without a fault; if pair j is the last
among the first n whose reg_id is MAC_FILTER_ADDR_L32, the field
mac_filter_addr_l32 is the value of pair j afterwards; a pair whose reg_id is
no case label leaves the statistics record as it is, whatever the record, and
an event all of whose pairs are such leaves the record unchanged. -/
theorem C16_last_mac_filter_pair_wins (k : wmi_consts) (fw_features : Nat)
    (stats : ath10k_target_stats) (ev : wmi_stats_event)
    (hid : ev.stats_id = k.WMI_REQUEST_REGISTER_DUMP)
    (hlay : layout_ok k)
    (hbuf : k.offsetof_regpair + le16_at ev.data k.offsetof_count * k.sizeof_regpair
      ≤ ev.data.length)
    (hd : k.MAC_FILTER_ADDR_L32 ≠ k.REG_DUMP_NONE) :
    ∃ s, ath10k_debug_read_target_stats k fw_features stats ev = .ok s ∧
      (∀ j, j < le16_at ev.data k.offsetof_count →
        reg_id_at k ev.data j = k.MAC_FILTER_ADDR_L32 →
        (∀ j2, j < j2 → j2 < le16_at ev.data k.offsetof_count →
          reg_id_at k ev.data j2 ≠ k.MAC_FILTER_ADDR_L32) →
        s.mac_filter_addr_l32 = reg_val_at k ev.data j) ∧
      (∀ j stats0, j < le16_at ev.data k.offsetof_count →
        reg_id_at k ev.data j ∉ reg_dump_ids k →
        read_reg_pair k ev.data stats0 j = .ok stats0) ∧
      ((∀ j, j < le16_at ev.data k.offsetof_count →
          reg_id_at k ev.data j ∉ reg_dump_ids k) → s = stats) := by
  have hcnt : k.offsetof_count + 2 ≤ ev.data.length := by
    have := hlay.count
    omega
  rw [read_target_stats_reg_dump k fw_features stats ev hid hcnt]
  obtain ⟨s, hs⟩ := read_reg_dump_loop_returns k ev.data hlay.reg_id hlay.reg_val
    (le16_at ev.data k.offsetof_count) 0 stats (by rw [Nat.zero_add]; exact hbuf)
  refine ⟨s, hs, ?_, ?_, ?_⟩
  · intro j hj hm hlast
    exact (read_reg_dump_loop_mac_filter k ev.data hd _ 0 stats s hs).2 j (Nat.zero_le _)
      (by omega) hm (fun j2 h1 h2 => hlast j2 h1 (by omega))
  · intro j stats0 hj hu
    have hp := pair_in_buffer k ev.data.length j _ hj hbuf
    have := hlay.reg_id
    exact read_reg_pair_unknown k ev.data stats0 j (by omega) hu
  · intro hall
    have h2 := read_reg_dump_loop_unknown k ev.data hlay.reg_id
      (le16_at ev.data k.offsetof_count) 0 stats (by rw [Nat.zero_add]; exact hbuf)
      (fun j _ hj => hall j (by omega))
    rw [h2] at hs
    simp only [Except.ok.injEq] at hs
    exact hs.symm

/-- C16 at a concrete input: 3 pairs, the first with an id that is no case
label, the second with the id MAC_FILTER_ADDR_L32 and the value 0xAABBCCDD,
the third with REG_DUMP_NONE. -/
theorem C16_last_mac_filter_pair_wins_witness :
    ∃ s, ath10k_debug_read_target_stats wmi_small 0 target_stats_zero ev_three_pairs
        = .ok s ∧
      s.mac_filter_addr_l32 = 0xAABBCCDD ∧
      read_reg_pair wmi_small ev_three_pairs.data target_stats_zero 0
        = .ok target_stats_zero := by
  obtain ⟨s, h1, h2, h3, _⟩ := C16_last_mac_filter_pair_wins wmi_small 0 target_stats_zero
    ev_three_pairs rfl wmi_small_layout_ok (by decide) (by decide)
  refine ⟨s, h1, ?_, h3 0 target_stats_zero (by decide) (by decide)⟩
  have h := h2 1 (by decide) (by decide) (by
    intro j2 hj1 hj2
    have : j2 = 2 := by
      have : le16_at ev_three_pairs.data wmi_small.offsetof_count = 3 := by decide
      omega
    subst this
    decide)
  rw [h]
  decide

/-- C17: the code diverges from the claim.  On a register dump of one pair
with the id PCU_BSSID2_L32 the decoder stores the value of the pair in
pcu_bssid_l32, the field of PCU_BSSID_L32, and leaves pcu_bssid2_l32 as it
was; on one with the id PCU_BSSID2_U16 it stores the value in pcu_bssid_u16
and leaves pcu_bssid2_u16 as it was.  So two distinct ids write the same
field, and the fields pcu_bssid2_l32 and pcu_bssid2_u16 are not written. -/
theorem C17_bssid2_stored_in_bssid (stats : ath10k_target_stats) (b0 b1 b2 b3 : Nat) :
    (∃ s, ath10k_debug_read_target_stats wmi_small 0 stats (ev_bssid2_l32 b0 b1 b2 b3)
        = .ok s ∧
      s.pcu_bssid_l32 = le32_decode [b0 % 256, b1 % 256, b2 % 256, b3 % 256] ∧
      s.pcu_bssid2_l32 = stats.pcu_bssid2_l32) ∧
    (∃ s, ath10k_debug_read_target_stats wmi_small 0 stats (ev_bssid2_u16 b0 b1 b2 b3)
        = .ok s ∧
      s.pcu_bssid_u16 = le32_decode [b0 % 256, b1 % 256, b2 % 256, b3 % 256] ∧
      s.pcu_bssid2_u16 = stats.pcu_bssid2_u16) :=
  ⟨⟨_, rfl, rfl, rfl⟩, ⟨_, rfl, rfl, rfl⟩⟩

/-- C18, as stated, fails: with 128 entries in peer_stat, an event that
declares 200 peer records and carries all 200 of them makes the decoder store
to peer_stat[128], past the end of the array; the count is not clamped and no
record is dropped. -/
theorem C18_counterexample_200_peers :
    ath10k_debug_read_target_stats wmi_small 0 target_stats_zero (ev_peers 200 3200)
      = .error .peer_stat_overflow :=
  read_target_stats_overflow wmi_small 0 target_stats_zero (ev_peers 200 3200)
    (by decide) wmi_small_layout_ok (by decide) (by decide)
    (by
      have h1 : (ev_peers 200 3200).data.length = 3200 := List.length_replicate _ _
      have h2 : peer_base wmi_small 0 (ev_peers 200 3200) = 0 := by decide
      have h3 : peer_stride wmi_small 0 = 16 := by decide
      have h4 : wmi_small.TARGET_NUM_PEERS = 128 := rfl
      rw [h1, h2, h3, h4]
      decide)

/-- C18, amended: the decoder does not clamp the declared peer count.  For
every statistics event that is not a register dump and declares n peer records,
0 < n < 2^31: when n is at most TARGET_NUM_PEERS and the payload holds what
the header declares, the decoder returns, peers is n modulo 256, the entries
peer_stat[0..n-1] are filled from the n records and every other entry is
unchanged; when n exceeds TARGET_NUM_PEERS and the payload holds the first
TARGET_NUM_PEERS peer records, the decoder stores past the end of peer_stat. -/
theorem C18_peer_count_not_clamped (k : wmi_consts) (fw_features : Nat)
    (stats : ath10k_target_stats) (ev : wmi_stats_event)
    (hid : ev.stats_id ≠ k.WMI_REQUEST_REGISTER_DUMP) (hlay : layout_ok k)
    (hn0 : ev.num_peer_stats ≠ 0) (hn : ev.num_peer_stats < 2 ^ 31) :
    (ev.num_peer_stats ≤ k.TARGET_NUM_PEERS →
      payload_needed k fw_features ev ≤ ev.data.length →
      ∃ st, ath10k_debug_read_target_stats k fw_features stats ev = .ok st ∧
        st.peers = ev.num_peer_stats % 256 ∧
        ∀ j, st.peer_stat j =
          if j < ev.num_peer_stats then
            peer_entry k fw_features ev.data
              (peer_base k fw_features ev + j * peer_stride k fw_features)
              (stats.peer_stat j)
          else stats.peer_stat j) ∧
    (k.TARGET_NUM_PEERS < ev.num_peer_stats →
      peer_base k fw_features ev + k.TARGET_NUM_PEERS * peer_stride k fw_features
        ≤ ev.data.length →
      ath10k_debug_read_target_stats k fw_features stats ev
        = .error .peer_stat_overflow) := by
  constructor
  · intro hcap hbuf
    obtain ⟨st, h1, h2, h3⟩ :=
      read_target_stats_traced_returns k fw_features stats ev hid hlay hn hcap hbuf
    exact ⟨st, read_target_stats_of_traced_ok k fw_features stats ev st _ h1, h2 hn0, h3⟩
  · intro hcap hbuf
    exact read_target_stats_overflow k fw_features stats ev hid hlay hn hcap hbuf

/-- C18 (amended) at a concrete input: firmware with the extended layouts,
one pdev record, 2 vdev records and 3 peer records of zero bytes; the decoder
returns with peers = 3. -/
theorem C18_peer_count_not_clamped_witness :
    ∃ st, ath10k_debug_read_target_stats wmi_small 2 target_stats_zero ev_pdev_vdev_peers
        = .ok st ∧
      st.peers = 3 ∧
      (st.peer_stat 2).peer_rssi = 0 := by
  obtain ⟨st, h1, h2, h3⟩ := (C18_peer_count_not_clamped wmi_small 2 target_stats_zero
    ev_pdev_vdev_peers (by decide) wmi_small_layout_ok (by decide) (by decide)).1
    (by decide) (by rw [ev_pdev_vdev_peers_length]; decide)
  refine ⟨st, h1, h2, ?_⟩
  rw [h3 2]
  decide

/-- C19, as stated, fails: the decoder is given no length and compares no
count with one.  An event that declares one pdev record in an empty payload,
and a register dump that declares one pair in a payload that ends before the
pair, are both read past the end of the payload. -/
theorem C19_counterexample_short_payload :
    ath10k_debug_read_target_stats wmi_small 0 target_stats_zero ev_pdev_empty
        = .error .read_past_buffer ∧
      ath10k_debug_read_target_stats wmi_small 0 target_stats_zero ev_reg_dump_short
        = .error .read_past_buffer :=
  ⟨rfl, rfl⟩

/-- C19, amended: the decoder reads only bytes inside the payload when the
payload holds what the header declares.  For a register dump whose payload
holds the declared number of pairs it returns without a fault; for any other
event, whatever the counts, when the payload has at least the bytes of the
pdev part, of num_vdev_stats vdev records and of num_peer_stats peer records,
it makes no read past the payload. -/
theorem C19_reads_inside_declared_payload (k : wmi_consts) (fw_features : Nat)
    (stats : ath10k_target_stats) (ev : wmi_stats_event) (hlay : layout_ok k) :
    (ev.stats_id = k.WMI_REQUEST_REGISTER_DUMP →
      k.offsetof_regpair + le16_at ev.data k.offsetof_count * k.sizeof_regpair
        ≤ ev.data.length →
      ∃ s, ath10k_debug_read_target_stats k fw_features stats ev = .ok s) ∧
    (ev.stats_id ≠ k.WMI_REQUEST_REGISTER_DUMP →
      payload_needed k fw_features ev ≤ ev.data.length →
      ath10k_debug_read_target_stats k fw_features stats ev
        ≠ .error .read_past_buffer) := by
  constructor
  · intro hid hbuf
    have hc := hlay.count
    rw [read_target_stats_reg_dump k fw_features stats ev hid (by omega)]
    exact read_reg_dump_loop_returns k ev.data hlay.reg_id hlay.reg_val _ 0 stats
      (by rw [Nat.zero_add]; exact hbuf)
  · intro hid hbuf
    exact read_target_stats_no_read_fault k fw_features stats ev hid hlay hbuf

/-- C19 (amended) at concrete inputs: a register dump of 3 pairs in 28 bytes,
and an event with one pdev record, 2 vdev records and 3 peer records in 288
bytes. -/
theorem C19_reads_inside_declared_payload_witness :
    (∃ s, ath10k_debug_read_target_stats wmi_small 0 target_stats_zero ev_three_pairs
        = .ok s) ∧
      ath10k_debug_read_target_stats wmi_small 2 target_stats_zero ev_pdev_vdev_peers
        ≠ .error .read_past_buffer :=
  ⟨(C19_reads_inside_declared_payload wmi_small 0 target_stats_zero ev_three_pairs
      wmi_small_layout_ok).1 (by decide) (by decide),
    (C19_reads_inside_declared_payload wmi_small 2 target_stats_zero ev_pdev_vdev_peers
      wmi_small_layout_ok).2 (by decide) (by rw [ev_pdev_vdev_peers_length]; decide)⟩

/-- C20: for every statistics event that is not a register dump, with counts
below 2^31: whenever ath10k_debug_read_target_stats returns, the peer records
it read are, in order, those at the byte offsets
P + num_vdev_stats * sizeof(wmi_vdev_stats) + i * S of the payload, for
0 <= i < num_peer_stats, where P is 0 when num_pdev_stats is 0 and otherwise
the size of one pdev record, and P and S are the sizes of the extended (10X)
layouts when ATH10K_FW_FEATURE_WMI_10X is set and of the old layouts otherwise;
and the entry peer_stat[i] it leaves is the one made of the payload bytes at
that offset: peer_rssi and peer_tx_rate are the little-endian words at the
offset of record i plus the offsets of these members, and so for the address
and, with the extended layout, peer_rx_rate.  The function does return when
the payload holds these records and num_peer_stats is at most
TARGET_NUM_PEERS. -/
theorem C20_peer_record_offsets (k : wmi_consts) (fw_features : Nat)
    (stats : ath10k_target_stats) (ev : wmi_stats_event)
    (hid : ev.stats_id ≠ k.WMI_REQUEST_REGISTER_DUMP)
    (hp : ev.num_pdev_stats < 2 ^ 31) (hv : ev.num_vdev_stats < 2 ^ 31)
    (hn : ev.num_peer_stats < 2 ^ 31) :
    (∀ st offsets,
      ath10k_debug_read_target_stats_traced k fw_features stats ev = .ok (st, offsets) →
      ath10k_debug_read_target_stats k fw_features stats ev = .ok st ∧
      offsets = (List.range ev.num_peer_stats).map (fun i =>
        (if ev.num_pdev_stats = 0 then 0
         else if test_bit ATH10K_FW_FEATURE_WMI_10X fw_features then
           k.sizeof_wmi_pdev_stats_10x
         else k.sizeof_wmi_pdev_stats_old)
        + ev.num_vdev_stats * k.sizeof_wmi_vdev_stats
        + i * (if test_bit ATH10K_FW_FEATURE_WMI_10X fw_features then
            k.sizeof_wmi_peer_stats_10x
          else k.sizeof_wmi_peer_stats_old)) ∧
      ∀ i, i < ev.num_peer_stats →
        st.peer_stat i = peer_entry k fw_features ev.data
          ((if ev.num_pdev_stats = 0 then 0
            else if test_bit ATH10K_FW_FEATURE_WMI_10X fw_features then
              k.sizeof_wmi_pdev_stats_10x
            else k.sizeof_wmi_pdev_stats_old)
            + ev.num_vdev_stats * k.sizeof_wmi_vdev_stats
            + i * (if test_bit ATH10K_FW_FEATURE_WMI_10X fw_features then
                k.sizeof_wmi_peer_stats_10x
              else k.sizeof_wmi_peer_stats_old))
          (stats.peer_stat i) ∧
        (st.peer_stat i).peer_rssi = le32_at ev.data
          ((if ev.num_pdev_stats = 0 then 0
            else if test_bit ATH10K_FW_FEATURE_WMI_10X fw_features then
              k.sizeof_wmi_pdev_stats_10x
            else k.sizeof_wmi_pdev_stats_old)
            + ev.num_vdev_stats * k.sizeof_wmi_vdev_stats
            + i * (if test_bit ATH10K_FW_FEATURE_WMI_10X fw_features then
                k.sizeof_wmi_peer_stats_10x
              else k.sizeof_wmi_peer_stats_old)
            + k.offsetof_peer_rssi) ∧
        (st.peer_stat i).peer_tx_rate = le32_at ev.data
          ((if ev.num_pdev_stats = 0 then 0
            else if test_bit ATH10K_FW_FEATURE_WMI_10X fw_features then
              k.sizeof_wmi_pdev_stats_10x
            else k.sizeof_wmi_pdev_stats_old)
            + ev.num_vdev_stats * k.sizeof_wmi_vdev_stats
            + i * (if test_bit ATH10K_FW_FEATURE_WMI_10X fw_features then
                k.sizeof_wmi_peer_stats_10x
              else k.sizeof_wmi_peer_stats_old)
            + k.offsetof_peer_tx_rate)) ∧
    (layout_ok k → ev.num_peer_stats ≤ k.TARGET_NUM_PEERS →
      (if ev.num_pdev_stats = 0 then 0
       else if test_bit ATH10K_FW_FEATURE_WMI_10X fw_features then
         k.sizeof_wmi_pdev_stats_10x
       else k.sizeof_wmi_pdev_stats_old)
      + ev.num_vdev_stats * k.sizeof_wmi_vdev_stats
      + ev.num_peer_stats * (if test_bit ATH10K_FW_FEATURE_WMI_10X fw_features then
          k.sizeof_wmi_peer_stats_10x
        else k.sizeof_wmi_peer_stats_old) ≤ ev.data.length →
      ∃ st offsets,
        ath10k_debug_read_target_stats_traced k fw_features stats ev
          = .ok (st, offsets)) := by
  have hbase : peer_base k fw_features ev =
      (if ev.num_pdev_stats = 0 then 0
       else if test_bit ATH10K_FW_FEATURE_WMI_10X fw_features then
         k.sizeof_wmi_pdev_stats_10x
       else k.sizeof_wmi_pdev_stats_old)
      + ev.num_vdev_stats * k.sizeof_wmi_vdev_stats := by
    unfold peer_base pdev_part pdev_stride
    rw [le32_to_int_of_lt _ hp, le32_to_int_of_lt _ hv]
    simp only [Int.toNat_ofNat, ne_eq, Nat.cast_eq_zero, ite_not]
  have hstride : peer_stride k fw_features =
      (if test_bit ATH10K_FW_FEATURE_WMI_10X fw_features then k.sizeof_wmi_peer_stats_10x
       else k.sizeof_wmi_peer_stats_old) := rfl
  rw [← hbase, ← hstride]
  constructor
  · intro st offsets h
    have hplain := read_target_stats_of_traced_ok k fw_features stats ev st offsets h
    have key : offsets = (List.range ev.num_peer_stats).map
          (fun i => peer_base k fw_features ev + i * peer_stride k fw_features) ∧
        ∀ i, i < ev.num_peer_stats →
          st.peer_stat i = peer_entry k fw_features ev.data
            (peer_base k fw_features ev + i * peer_stride k fw_features)
            (stats.peer_stat i) := by
      cases hpd : (if le32_to_int ev.num_pdev_stats ≠ 0 then
          read_pdev_stats k fw_features ev.data 0 stats else .ok stats) with
      | error e =>
        rw [read_target_stats_traced_pdev_error k fw_features stats ev e hid hpd] at h
        cases h
      | ok stats1 =>
        have hps := pdev_block_peer_stat k fw_features stats stats1 ev hpd
        rw [read_target_stats_traced_peers k fw_features stats stats1 ev hid hpd,
          le32_to_int_of_lt _ hn] at h
        simp only [Int.toNat_ofNat] at h
        by_cases h0 : ev.num_peer_stats = 0
        · rw [if_neg (by omega)] at h
          simp only [Except.ok.injEq, Prod.mk.injEq] at h
          rw [← h.2, h0]
          exact ⟨rfl, fun i hi => absurd hi (by omega)⟩
        · rw [if_pos (by omega)] at h
          refine ⟨read_peer_stats_loop_offsets k fw_features ev.data _ _ _ _ _ _ h, ?_⟩
          intro i hi
          rw [read_peer_stats_loop_entries k fw_features ev.data _ _ _ _ _ _ h i,
            if_pos (by omega), Nat.sub_zero]
          show peer_entry k fw_features ev.data _ (stats1.peer_stat i) = _
          rw [hps]
    refine ⟨hplain, key.1, ?_⟩
    intro i hi
    have e := key.2 i hi
    refine ⟨e, ?_, ?_⟩ <;> (rw [e]; rfl)
  · intro hlay hcap hbuf
    obtain ⟨st, h1, _, _⟩ := read_target_stats_traced_returns k fw_features stats ev hid
      hlay hn hcap (by
        unfold payload_needed
        rw [le32_to_int_of_lt _ hn]
        simp only [Int.toNat_ofNat]
        exact hbuf)
    exact ⟨st, _, h1⟩

/-- C20 at a concrete input: firmware with the extended layouts (pdev records
of 196 bytes, peer records of 20 bytes), one pdev record, 2 vdev records of 16
bytes and 2 peer records: the peer records are read at the offsets 228 and
248, and the entries hold the rssi 7 and 17, the tx rates 8 and 18 of the two
records (none of the bytes 0xEE of the vdev records). -/
theorem C20_peer_record_offsets_witness :
    ∃ st, ath10k_debug_read_target_stats_traced wmi_small 2 target_stats_zero
        ev_pdev_vdev_two_peers = .ok (st, [228, 248]) ∧
      (st.peer_stat 0).peer_rssi = 7 ∧ (st.peer_stat 0).peer_tx_rate = 8 ∧
      (st.peer_stat 1).peer_rssi = 17 ∧ (st.peer_stat 1).peer_tx_rate = 18 := by
  obtain ⟨h1, h2⟩ := C20_peer_record_offsets wmi_small 2 target_stats_zero
    ev_pdev_vdev_two_peers (by decide) (by decide) (by decide) (by decide)
  obtain ⟨st, offsets, h3⟩ := h2 wmi_small_layout_ok (by decide)
    (by rw [ev_pdev_vdev_two_peers_length]; decide)
  obtain ⟨_, h4, h5⟩ := h1 st offsets h3
  obtain ⟨_, r0, t0⟩ := h5 0 (by decide)
  obtain ⟨_, r1, t1⟩ := h5 1 (by decide)
  refine ⟨st, ?_, ?_, ?_, ?_, ?_⟩
  · rw [h3, h4]
    rfl
  · rw [r0]
    decide
  · rw [t0]
    decide
  · rw [r1]
    decide
  · rw [t1]
    decide

/-! ## Facts about the indices of the ring buffer and the frame of the builder -/

theorem drop_dbg_buffer_idx (d : ath10k_dbglog_entry_storage)
    (hh : d.head_idx < 896) :
    (ath10k_dbg_drop_dbg_buffer d).head_idx = d.head_idx ∧
      (ath10k_dbg_drop_dbg_buffer d).tail_idx < 896 ∧
      (ath10k_dbg_drop_dbg_buffer d).data = d.data := by
  unfold ath10k_dbg_drop_dbg_buffer
  simp only [dbglog_len_eq]
  split
  · exact ⟨rfl, hh, rfl⟩
  · exact ⟨rfl, Nat.mod_lt _ (by omega), rfl⟩

/-- The loop keeps both indices inside the array and accesses the array inside
its bounds only. -/
theorem dbg_save_loop_idx (buffer : List Nat) :
    ∀ (d : ath10k_dbglog_entry_storage) (z n : Nat), z < 896 → d.head_idx < 896 →
      d.tail_idx < 896 →
      ∃ d1 n1, dbg_save_loop d z n buffer = some (d1, n1) ∧
        d1.head_idx < 896 ∧ d1.tail_idx < 896 ∧
        ∀ i ∈ dbg_save_loop_accesses d z buffer, i < 896 := by
  induction buffer with
  | nil =>
    intro d z n _ hh ht
    exact ⟨d, n, rfl, hh, ht, fun i hi => by cases hi⟩
  | cons w rest ih =>
    intro d z n hz hh ht
    have hz1 : (if z + 1 ≥ 896 then 0 else z + 1) < 896 := by split <;> omega
    simp only [dbg_save_loop, dbg_save_loop_accesses, dbglog_len_eq, hz, if_true]
    have key : ∀ (d2 : ath10k_dbglog_entry_storage) (n2 : Nat) (extra : List Nat),
        d2.tail_idx < 896 → (∀ i ∈ extra, i < 896) →
        ∃ d1 n1, dbg_save_loop { d2 with head_idx := (if z + 1 ≥ 896 then 0 else z + 1) }
            (if z + 1 ≥ 896 then 0 else z + 1) n2 rest = some (d1, n1) ∧
          d1.head_idx < 896 ∧ d1.tail_idx < 896 ∧
          ∀ i ∈ z :: (extra ++ dbg_save_loop_accesses
              { d2 with head_idx := (if z + 1 ≥ 896 then 0 else z + 1) }
              (if z + 1 ≥ 896 then 0 else z + 1) rest), i < 896 := by
      intro d2 n2 extra ht2 hex
      obtain ⟨d1, n1, h1, h2, h3, h4⟩ :=
        ih { d2 with head_idx := (if z + 1 ≥ 896 then 0 else z + 1) }
          (if z + 1 ≥ 896 then 0 else z + 1) n2 hz1 hz1 ht2
      refine ⟨d1, n1, h1, h2, h3, ?_⟩
      intro i hi
      rcases List.mem_cons.mp hi with h | h
      · omega
      · rcases List.mem_append.mp h with h | h
        · exact hex i h
        · exact h4 i h
    by_cases hit : (if z + 1 ≥ 896 then 0 else z + 1) = d.tail_idx
    · have hdec : decide ((if z + 1 ≥ 896 then 0 else z + 1) = d.tail_idx) = true :=
        decide_eq_true hit
      simp only [hdec, if_true]
      apply key
      · exact (drop_dbg_buffer_idx
          { d with data := fun i => if i = z then w else d.data i } hh).2.1
      · intro i hi
        simp only [ath10k_dbg_drop_dbg_buffer_accesses, dbglog_len_eq,
          List.mem_singleton] at hi
        rw [hi]
        exact Nat.mod_lt _ (by omega)
    · have hdec : decide ((if z + 1 ≥ 896 then 0 else z + 1) = d.tail_idx) = false :=
        decide_eq_false hit
      simp only [hdec, Bool.false_eq_true, if_false]
      exact key { d with data := fun i => if i = z then w else d.data i } n [] ht
        (fun i hi => by cases hi)

/-- The state a save leaves and the indices it accesses, from those of the
loop. -/
theorem save_idx (ar : ath10k) (buffer : List Nat)
    (hh : ar.debug.dbglog_entry_data.head_idx < 896)
    (ht : ar.debug.dbglog_entry_data.tail_idx < 896) :
    ∃ ar1, ath10k_dbg_save_fw_dbg_buffer ar buffer = some ar1 ∧
      ar1.debug.dbglog_entry_data.head_idx < 896 ∧
      ar1.debug.dbglog_entry_data.tail_idx < 896 ∧
      ∀ i ∈ ath10k_dbg_save_fw_dbg_buffer_accesses ar buffer, i < 896 := by
  obtain ⟨d1, n1, h1, h2, h3, h4⟩ := dbg_save_loop_idx buffer ar.debug.dbglog_entry_data
    ar.debug.dbglog_entry_data.head_idx 0 hh hh ht
  unfold ath10k_dbg_save_fw_dbg_buffer ath10k_dbg_save_fw_dbg_buffer_traced
    ath10k_dbg_save_fw_dbg_buffer_accesses
  cases hcd : ar.debug.fw_crash_data with
  | none =>
    simp only [Bool.false_eq_true, if_false, h1, Option.map_some']
    exact ⟨_, rfl, h2, h3, h4⟩
  | some cd =>
    cases hr : cd.crashed_since_read with
    | true =>
      simp only [hr, if_true, Option.map_some']
      exact ⟨ar, rfl, hh, ht, fun i hi => by cases hi⟩
    | false =>
      simp only [hr, Bool.false_eq_true, if_false, h1, Option.map_some']
      exact ⟨_, rfl, h2, h3, h4⟩

/-- A call of the builder that returns a blob was made on an unread snapshot
and leaves the state with the flag cleared. -/
theorem build_dump_state (k : kernel_consts) (ar : ath10k) (alloc_ok : Bool)
    (bytes : List Nat) (warned : Bool)
    (hb : (ath10k_build_dump_file k ar alloc_ok).1 = build_outcome.dump bytes warned) :
    ∃ cd, ar.debug.fw_crash_data = some cd ∧ cd.crashed_since_read = true ∧
      (ath10k_build_dump_file k ar alloc_ok).2 = ar_after_build ar cd := by
  cases hcd : ar.debug.fw_crash_data with
  | none =>
    unfold ath10k_build_dump_file at hb
    cases alloc_ok
    · cases hb
    · simp only [Bool.not_true, Bool.false_eq_true, if_false] at hb
      rw [hcd] at hb
      cases hb
  | some cd =>
    cases alloc_ok with
    | false =>
      rw [build_dump_null k ar cd false hcd (Or.inl rfl)] at hb
      cases hb
    | true =>
      cases hr : cd.crashed_since_read with
      | false =>
        rw [build_dump_null k ar cd true hcd (Or.inr hr)] at hb
        cases hb
      | true =>
        refine ⟨cd, rfl, hr, ?_⟩
        rw [build_dump_unread k ar cd hcd hr]

/-! ## The claims about the indices of the ring buffer and the frame of the builder -/

/-- C21: for every ring state with head_idx < 896 and tail_idx < 896 in which
the word at data[(tail_idx + 1) mod 896] has an argument count
a = (word & 0xFC000000) >> 26 with a <= 5, ath10k_dbg_drop_dbg_buffer sets
tail_idx to (tail_idx + a + 2) mod 896 and leaves head_idx and every data word
unchanged. -/
theorem C21_eviction_skips_one_message (d : ath10k_dbglog_entry_storage) (a : Nat)
    (hh : d.head_idx < 896) (ht : d.tail_idx < 896)
    (ha : a = (d.data ((d.tail_idx + 1) % 896) &&& 0xFC000000) >>> 26)
    (h5 : a ≤ 5) :
    (ath10k_dbg_drop_dbg_buffer d).tail_idx = (d.tail_idx + a + 2) % 896 ∧
      (ath10k_dbg_drop_dbg_buffer d).head_idx = d.head_idx ∧
      ∀ i, (ath10k_dbg_drop_dbg_buffer d).data i = d.data i := by
  have _ := hh
  have _ := ht
  have hn : dbglog_num_args (d.data ((d.tail_idx + 1) % 896)) = a := ha.symm
  unfold ath10k_dbg_drop_dbg_buffer
  simp only [dbglog_len_eq, hn]
  rw [if_neg (by unfold DBGLOG_NUM_ARGS_MAX; omega)]
  exact ⟨rfl, rfl, fun _ => rfl⟩

/-- C21 at a concrete input: head_idx 10, tail_idx 3, the header word at
data[4] with the argument count 1; the tail moves to 6. -/
theorem C21_eviction_skips_one_message_witness :
    (ath10k_dbg_drop_dbg_buffer
        { head_idx := 10, tail_idx := 3, data := fun i => if i = 4 then 0x04000000 else 0 }
      ).tail_idx = 6 :=
  (C21_eviction_skips_one_message
    { head_idx := 10, tail_idx := 3, data := fun i => if i = 4 then 0x04000000 else 0 } 1
    (by decide) (by decide) (by decide) (by decide)).1

/-- C26: index invariant.  For every ring state with head_idx < 896 and
tail_idx < 896: ath10k_dbg_drop_dbg_buffer, in either branch and whatever the
header word, leaves head_idx and tail_idx below 896 and reads data[] at an
index below 896; and for every batch, ath10k_dbg_save_fw_dbg_buffer returns,
leaves head_idx and tail_idx below 896, and every index of data[] it reads or
writes, the eviction steps it runs included, is below 896. -/
theorem C26_indices_stay_inside (ar : ath10k) (buffer : List Nat)
    (hh : ar.debug.dbglog_entry_data.head_idx < ATH10K_DBGLOG_DATA_LEN)
    (ht : ar.debug.dbglog_entry_data.tail_idx < ATH10K_DBGLOG_DATA_LEN) :
    ((ath10k_dbg_drop_dbg_buffer ar.debug.dbglog_entry_data).head_idx
        < ATH10K_DBGLOG_DATA_LEN ∧
      (ath10k_dbg_drop_dbg_buffer ar.debug.dbglog_entry_data).tail_idx
        < ATH10K_DBGLOG_DATA_LEN ∧
      ∀ i ∈ ath10k_dbg_drop_dbg_buffer_accesses ar.debug.dbglog_entry_data,
        i < ATH10K_DBGLOG_DATA_LEN) ∧
    ∃ ar1, ath10k_dbg_save_fw_dbg_buffer ar buffer = some ar1 ∧
      ar1.debug.dbglog_entry_data.head_idx < ATH10K_DBGLOG_DATA_LEN ∧
      ar1.debug.dbglog_entry_data.tail_idx < ATH10K_DBGLOG_DATA_LEN ∧
      ∀ i ∈ ath10k_dbg_save_fw_dbg_buffer_accesses ar buffer,
        i < ATH10K_DBGLOG_DATA_LEN := by
  rw [dbglog_len_eq] at hh ht ⊢
  obtain ⟨h1, h2, _⟩ := drop_dbg_buffer_idx ar.debug.dbglog_entry_data hh
  refine ⟨⟨by rw [h1]; exact hh, h2, ?_⟩, save_idx ar buffer hh ht⟩
  intro i hi
  simp only [ath10k_dbg_drop_dbg_buffer_accesses, dbglog_len_eq, List.mem_singleton] at hi
  rw [hi]
  exact Nat.mod_lt _ (by omega)

/-- C26 at a concrete input: the ring with head_idx 0 and tail_idx 1 whose
word data[2] carries the argument count 6 (the corrupted branch), and a batch
of three words. -/
theorem C26_indices_stay_inside_witness :
    ((ath10k_dbg_drop_dbg_buffer ar_bad_header.debug.dbglog_entry_data).head_idx < 896 ∧
      (ath10k_dbg_drop_dbg_buffer ar_bad_header.debug.dbglog_entry_data).tail_idx < 896 ∧
      ∀ i ∈ ath10k_dbg_drop_dbg_buffer_accesses ar_bad_header.debug.dbglog_entry_data,
        i < 896) ∧
    ∃ ar1, ath10k_dbg_save_fw_dbg_buffer ar_bad_header [7, 8, 9] = some ar1 ∧
      ar1.debug.dbglog_entry_data.head_idx < 896 ∧
      ar1.debug.dbglog_entry_data.tail_idx < 896 ∧
      ∀ i ∈ ath10k_dbg_save_fw_dbg_buffer_accesses ar_bad_header [7, 8, 9], i < 896 :=
  C26_indices_stay_inside ar_bad_header [7, 8, 9] (by decide) (by decide)

/-- C27: in ath10k_dbg_save_fw_dbg_buffer, with no unread snapshot, when the
word is written at position h = head_idx, the next write position
(h + 1) mod 896 equals tail_idx and the header word at
data[(tail_idx + 1) mod 896] has an argument count above 5: the eviction step
runs once, the state after that word has tail_idx = h and
head_idx = (h + 1) mod 896, the word is at data[h], one word lies between tail
and head, and the loop goes on from that state with the rest of the batch. -/
theorem C27_corrupted_eviction_keeps_last_word (ar : ath10k) (w : Nat)
    (hs : no_unread_snapshot ar)
    (hh : ar.debug.dbglog_entry_data.head_idx < ATH10K_DBGLOG_DATA_LEN)
    (hn : (ar.debug.dbglog_entry_data.head_idx + 1) % ATH10K_DBGLOG_DATA_LEN
      = ar.debug.dbglog_entry_data.tail_idx)
    (hc : dbglog_num_args (ar.debug.dbglog_entry_data.data
      ((ar.debug.dbglog_entry_data.tail_idx + 1) % ATH10K_DBGLOG_DATA_LEN))
        > DBGLOG_NUM_ARGS_MAX) :
    ∃ ar1, ath10k_dbg_save_fw_dbg_buffer_traced ar [w] = some (ar1, 1) ∧
      ar1.debug.dbglog_entry_data.tail_idx = ar.debug.dbglog_entry_data.head_idx ∧
      ar1.debug.dbglog_entry_data.head_idx
        = (ar.debug.dbglog_entry_data.head_idx + 1) % ATH10K_DBGLOG_DATA_LEN ∧
      ar1.debug.dbglog_entry_data.data ar.debug.dbglog_entry_data.head_idx = w ∧
      (ar1.debug.dbglog_entry_data.head_idx + ATH10K_DBGLOG_DATA_LEN
        - ar1.debug.dbglog_entry_data.tail_idx) % ATH10K_DBGLOG_DATA_LEN = 1 ∧
      ∀ (rest : List Nat) (n : Nat),
        dbg_save_loop ar.debug.dbglog_entry_data ar.debug.dbglog_entry_data.head_idx n
            (w :: rest)
          = dbg_save_loop ar1.debug.dbglog_entry_data
              ar1.debug.dbglog_entry_data.head_idx (n + 1) rest := by
  rw [dbglog_len_eq] at hh hn hc ⊢
  have hz1 : (if ar.debug.dbglog_entry_data.head_idx + 1 ≥ 896 then 0
      else ar.debug.dbglog_entry_data.head_idx + 1)
      = (ar.debug.dbglog_entry_data.head_idx + 1) % 896 := by split <;> omega
  have hne : (ar.debug.dbglog_entry_data.tail_idx + 1) % 896
      ≠ ar.debug.dbglog_entry_data.head_idx := by omega
  have step : ∀ (rest : List Nat) (n : Nat),
      dbg_save_loop ar.debug.dbglog_entry_data ar.debug.dbglog_entry_data.head_idx n
          (w :: rest)
        = dbg_save_loop
            { head_idx := (ar.debug.dbglog_entry_data.head_idx + 1) % 896,
              tail_idx := ar.debug.dbglog_entry_data.head_idx,
              data := fun i => if i = ar.debug.dbglog_entry_data.head_idx then w
                else ar.debug.dbglog_entry_data.data i }
            ((ar.debug.dbglog_entry_data.head_idx + 1) % 896) (n + 1) rest := by
    intro rest n
    have hdec : decide ((ar.debug.dbglog_entry_data.head_idx + 1) % 896
        = ar.debug.dbglog_entry_data.tail_idx) = true := decide_eq_true hn
    simp only [dbg_save_loop, dbglog_len_eq, hh, if_true, hz1, hdec,
      ath10k_dbg_drop_dbg_buffer, if_neg hne, hc]
  refine ⟨{ ar with debug := { ar.debug with dbglog_entry_data :=
      { head_idx := (ar.debug.dbglog_entry_data.head_idx + 1) % 896,
        tail_idx := ar.debug.dbglog_entry_data.head_idx,
        data := fun i => if i = ar.debug.dbglog_entry_data.head_idx then w
          else ar.debug.dbglog_entry_data.data i } } }, ?_, rfl, rfl, ?_, ?_, step⟩
  · rw [save_traced_of_no_unread ar [w] hs, step [] 0]
    rfl
  · simp only [if_true]
  · simp only []
    omega

/-- C27 at a concrete input: the ring with head_idx 0 and tail_idx 1 whose
word data[2] carries the argument count 6, and the word 7. -/
theorem C27_corrupted_eviction_keeps_last_word_witness :
    ∃ ar1, ath10k_dbg_save_fw_dbg_buffer_traced ar_bad_header [7] = some (ar1, 1) ∧
      ar1.debug.dbglog_entry_data.tail_idx = 0 ∧
      ar1.debug.dbglog_entry_data.head_idx = 1 ∧
      ar1.debug.dbglog_entry_data.data 0 = 7 := by
  obtain ⟨ar1, h1, h2, h3, h4, _⟩ := C27_corrupted_eviction_keeps_last_word ar_bad_header 7
    (fun _ h => by cases h) (by decide) (by decide) (by decide)
  exact ⟨ar1, h1, h2, h3, h4⟩

/-- C29: for every state with a snapshot: when the snapshot is unread and the
sizes fit, ath10k_build_dump_file returns a blob; and whenever it returns a
blob, the snapshot was unread and the state after the call is the state before
it with crashed_since_read false: the ring buffer (head_idx, tail_idx, every
data word), the firmware description and the unique id, timestamp, registers,
stacks, stack addresses and BSS buffers of the snapshot are the same as
before. -/
theorem C29_build_changes_only_unread_flag (k : kernel_consts) (ar : ath10k)
    (cd : ath10k_fw_crash_data) (hc : ar.debug.fw_crash_data = some cd) :
    (cd.crashed_since_read = true → dump_fits k ar →
      ∃ bytes, (ath10k_build_dump_file k ar true).1 = build_outcome.dump bytes false) ∧
    ∀ alloc_ok bytes warned,
      (ath10k_build_dump_file k ar alloc_ok).1 = build_outcome.dump bytes warned →
      ∃ cd1, (ath10k_build_dump_file k ar alloc_ok).2.debug.fw_crash_data = some cd1 ∧
        (ath10k_build_dump_file k ar alloc_ok).2 =
          { ar with debug := { ar.debug with
              fw_crash_data := some { cd with crashed_since_read := false } } } ∧
        cd.crashed_since_read = true ∧ cd1.crashed_since_read = false ∧
        (ath10k_build_dump_file k ar alloc_ok).2.debug.dbglog_entry_data.head_idx
          = ar.debug.dbglog_entry_data.head_idx ∧
        (ath10k_build_dump_file k ar alloc_ok).2.debug.dbglog_entry_data.tail_idx
          = ar.debug.dbglog_entry_data.tail_idx ∧
        (∀ i, (ath10k_build_dump_file k ar alloc_ok).2.debug.dbglog_entry_data.data i
          = ar.debug.dbglog_entry_data.data i) ∧
        cd1.uuid = cd.uuid ∧ cd1.timestamp = cd.timestamp ∧
        cd1.registers = cd.registers ∧ cd1.stack_buf = cd.stack_buf ∧
        cd1.exc_stack_buf = cd.exc_stack_buf ∧ cd1.stack_addr = cd.stack_addr ∧
        cd1.exc_stack_addr = cd.exc_stack_addr ∧ cd1.rom_bss_buf = cd.rom_bss_buf ∧
        cd1.ram_bss_buf = cd.ram_bss_buf ∧
        (ath10k_build_dump_file k ar alloc_ok).2.fw = ar.fw := by
  refine ⟨fun hr hfit => build_dump_fits k ar cd hc hr hfit, ?_⟩
  intro alloc_ok bytes warned hb
  obtain ⟨cd2, hcd, hr, hs⟩ := build_dump_state k ar alloc_ok bytes warned hb
  rw [hc] at hcd
  cases hcd
  rw [hs]
  exact ⟨{ cd with crashed_since_read := false }, rfl, rfl, hr, rfl, rfl, rfl, fun _ => rfl,
    rfl, rfl, rfl, rfl, rfl, rfl, rfl, rfl, rfl, rfl⟩

/-- C29 at a concrete input: an unread snapshot with all contents zero; the
blob is returned and the state afterwards differs in crashed_since_read
only. -/
theorem C29_build_changes_only_unread_flag_witness :
    ∃ bytes,
      (ath10k_build_dump_file k_small (ar_snapshot true) true).1
        = build_outcome.dump bytes false ∧
      (ath10k_build_dump_file k_small (ar_snapshot true) true).2 = ar_snapshot false := by
  obtain ⟨h1, h2⟩ := C29_build_changes_only_unread_flag k_small (ar_snapshot true)
    (crash_data_zero true) rfl
  obtain ⟨bytes, hb⟩ := h1 rfl ⟨by decide, by decide, by decide⟩
  obtain ⟨_, _, h3, _⟩ := h2 true bytes false hb
  refine ⟨bytes, hb, ?_⟩
  rw [h3]
  rfl

/-! ## Facts about the frame of the statistics decoder, with the claims they settle -/

theorem with_reg_dump_fields_trans (a b c : ath10k_target_stats)
    (h1 : b = with_reg_dump_fields a b) (h2 : c = with_reg_dump_fields b c) :
    c = with_reg_dump_fields a c := by
  rw [h2, h1]
  rfl

/-- An iteration of the register loop changes register-dump members only. -/
theorem read_reg_pair_frame (k : wmi_consts) (data : List Nat)
    (stats s : ath10k_target_stats) (i : Nat)
    (h : read_reg_pair k data stats i = .ok s) :
    s = with_reg_dump_fields stats s := by
  unfold read_reg_pair at h
  simp only [] at h
  have hb : k.offsetof_regpair + i * k.sizeof_regpair + k.offsetof_reg_id + 2
      ≤ data.length := by
    by_contra hc
    unfold rd16 at h
    rw [if_neg hc] at h
    cases h
  rw [rd16_of_le _ _ hb] at h
  simp only [] at h
  revert h
  refine ite_prop (fun r => r = Except.ok s → _) _ _ _ (fun _ h => ?_) (fun _ => ?_)
  · simp only [Except.ok.injEq] at h
    subst h
    rfl
  repeat
    refine ite_prop (fun r => r = Except.ok s → _) _ _ _
      (fun _ h => by
        have e := store_reg_val_ok_iff _ _ _ _ h
        subst e
        rfl) (fun _ => ?_)
  intro h
  simp only [Except.ok.injEq] at h
  subst h
  rfl

theorem read_reg_dump_loop_frame (k : wmi_consts) (data : List Nat) :
    ∀ (n i : Nat) (stats s : ath10k_target_stats),
      read_reg_dump_loop k data n i stats = .ok s → s = with_reg_dump_fields stats s := by
  intro n
  induction n with
  | zero =>
    intro i stats s h
    unfold read_reg_dump_loop at h
    simp only [Except.ok.injEq] at h
    subst h
    rfl
  | succ m ih =>
    intro i stats s h
    unfold read_reg_dump_loop at h
    cases hs1 : read_reg_pair k data stats i with
    | error e => rw [hs1] at h; cases h
    | ok s1 =>
      rw [hs1] at h
      simp only [] at h
      exact with_reg_dump_fields_trans stats s1 s (read_reg_pair_frame k data stats s1 i hs1)
        (ih (i + 1) s1 s h)

/-- A register-dump event changes register-dump members only. -/
theorem read_target_stats_reg_dump_frame (k : wmi_consts) (fw_features : Nat)
    (stats st : ath10k_target_stats) (ev : wmi_stats_event)
    (hid : ev.stats_id = k.WMI_REQUEST_REGISTER_DUMP)
    (h : ath10k_debug_read_target_stats k fw_features stats ev = .ok st) :
    st = with_reg_dump_fields stats st := by
  have hcnt : k.offsetof_count + 2 ≤ ev.data.length := by
    by_contra hc
    unfold ath10k_debug_read_target_stats ath10k_debug_read_target_stats_traced
      read_reg_dump rd16 at h
    simp only [hid, if_true, if_neg hc] at h
    cases h
  rw [read_target_stats_reg_dump k fw_features stats ev hid hcnt] at h
  exact read_reg_dump_loop_frame k ev.data _ 0 stats st h

/-- The header counts of a register-dump event are not used. -/
theorem read_target_stats_reg_dump_counts (k : wmi_consts) (fw_features : Nat)
    (stats : ath10k_target_stats) (ev : wmi_stats_event) (a b c : Nat)
    (hid : ev.stats_id = k.WMI_REQUEST_REGISTER_DUMP) :
    ath10k_debug_read_target_stats k fw_features stats
        { ev with num_pdev_stats := a, num_vdev_stats := b, num_peer_stats := c }
      = ath10k_debug_read_target_stats k fw_features stats ev := by
  unfold ath10k_debug_read_target_stats ath10k_debug_read_target_stats_traced
  simp only [hid, if_true]

/-- A peer loop that returns has changed peer entries only. -/
theorem read_peer_stats_loop_frame (k : wmi_consts) (fw_features : Nat)
    (data : List Nat) :
    ∀ (n i tmp : Nat) (stats st : ath10k_target_stats) (offsets : List Nat),
      read_peer_stats_loop k fw_features data n i tmp stats = .ok (st, offsets) →
      st = { stats with peer_stat := st.peer_stat } := by
  intro n
  induction n with
  | zero =>
    intro i tmp stats st offsets h
    unfold read_peer_stats_loop at h
    simp only [Except.ok.injEq, Prod.mk.injEq] at h
    rw [← h.1]
  | succ m ih =>
    intro i tmp stats st offsets h
    unfold read_peer_stats_loop at h
    split at h
    · cases h
    · split at h
      · cases h
      · simp only [] at h
        split at h
        · cases h
        · rename_i st2 offs2 hrec
          simp only [Except.ok.injEq, Prod.mk.injEq] at h
          have e := ih _ _ _ _ _ hrec
          rw [← h.1, e]

theorem read_target_stats_ok_traced (k : wmi_consts) (fw_features : Nat)
    (stats st : ath10k_target_stats) (ev : wmi_stats_event)
    (h : ath10k_debug_read_target_stats k fw_features stats ev = .ok st) :
    ∃ offsets,
      ath10k_debug_read_target_stats_traced k fw_features stats ev = .ok (st, offsets) := by
  unfold ath10k_debug_read_target_stats at h
  cases hr : ath10k_debug_read_target_stats_traced k fw_features stats ev with
  | error e => rw [hr] at h; cases h
  | ok r =>
    rw [hr] at h
    simp only [Except.ok.injEq] at h
    exact ⟨r.2, by rw [← h]⟩

theorem le32_to_int_mod_256 (x : Nat) (h : x < 2 ^ 32) :
    (le32_to_int x % 256).toNat = x % 256 := by
  unfold le32_to_int int_of_u32
  rw [Nat.mod_eq_of_lt h]
  split <;> omega

theorem le32_to_int_eq_zero (x : Nat) (h : x < 2 ^ 32) : le32_to_int x = 0 ↔ x = 0 := by
  unfold le32_to_int int_of_u32
  rw [Nat.mod_eq_of_lt h]
  split <;> omega

/-- The peer members after a statistics event that is decoded. -/
theorem read_target_stats_peers (k : wmi_consts) (fw_features : Nat)
    (stats st : ath10k_target_stats) (ev : wmi_stats_event)
    (hid : ev.stats_id ≠ k.WMI_REQUEST_REGISTER_DUMP)
    (h : ath10k_debug_read_target_stats k fw_features stats ev = .ok st) :
    (le32_to_int ev.num_peer_stats ≠ 0 →
      st.peers = (le32_to_int ev.num_peer_stats % 256).toNat) ∧
    (le32_to_int ev.num_peer_stats = 0 →
      st.peers = stats.peers ∧ st.peer_stat = stats.peer_stat) := by
  obtain ⟨offsets, ht⟩ := read_target_stats_ok_traced k fw_features stats st ev h
  cases hpd : (if le32_to_int ev.num_pdev_stats ≠ 0 then
      read_pdev_stats k fw_features ev.data 0 stats else .ok stats) with
  | error e =>
    rw [read_target_stats_traced_pdev_error k fw_features stats ev e hid hpd] at ht
    cases ht
  | ok stats1 =>
    have hp1 : stats1.peers = stats.peers ∧ stats1.peer_stat = stats.peer_stat := by
      by_cases hp : le32_to_int ev.num_pdev_stats = 0
      · rw [if_neg (not_not.mpr hp)] at hpd
        simp only [Except.ok.injEq] at hpd
        rw [← hpd]
        exact ⟨rfl, rfl⟩
      · rw [if_pos hp] at hpd
        exact read_pdev_stats_peers k fw_features ev.data 0 stats stats1 hpd
    rw [read_target_stats_traced_peers k fw_features stats stats1 ev hid hpd] at ht
    constructor
    · intro hn
      rw [if_pos hn] at ht
      have e := read_peer_stats_loop_frame k fw_features ev.data _ _ _ _ _ _ ht
      rw [e]
    · intro hn
      rw [if_neg (not_not.mpr hn)] at ht
      simp only [Except.ok.injEq, Prod.mk.injEq] at ht
      rw [← ht.1]
      exact hp1

/-- C22: for every event whose stats_id is WMI_REQUEST_REGISTER_DUMP:
whenever ath10k_debug_read_target_stats returns, the record it leaves is the
record it found except for the register-dump members, so that every pdev
member, the peers count and every peer_stat entry are unchanged; the result is
the same whatever num_pdev_stats, num_vdev_stats and num_peer_stats are; and
the function does return when the payload holds the declared pairs. -/
theorem C22_register_dump_changes_registers_only (k : wmi_consts) (fw_features : Nat)
    (stats : ath10k_target_stats) (ev : wmi_stats_event)
    (hid : ev.stats_id = k.WMI_REQUEST_REGISTER_DUMP) :
    (∀ st, ath10k_debug_read_target_stats k fw_features stats ev = .ok st →
      st = with_reg_dump_fields stats st ∧ st.peers = stats.peers ∧
        st.peer_stat = stats.peer_stat ∧ st.ch_noise_floor = stats.ch_noise_floor ∧
        st.tx_frame_count = stats.tx_frame_count ∧ st.mpdu_errs = stats.mpdu_errs) ∧
    (∀ a b c : Nat,
      ath10k_debug_read_target_stats k fw_features stats
          { ev with num_pdev_stats := a, num_vdev_stats := b, num_peer_stats := c }
        = ath10k_debug_read_target_stats k fw_features stats ev) ∧
    (layout_ok k →
      k.offsetof_regpair + le16_at ev.data k.offsetof_count * k.sizeof_regpair
        ≤ ev.data.length →
      ∃ st, ath10k_debug_read_target_stats k fw_features stats ev = .ok st) := by
  refine ⟨?_, ?_, ?_⟩
  · intro st h
    have e := read_target_stats_reg_dump_frame k fw_features stats st ev hid h
    refine ⟨e, ?_, ?_, ?_, ?_, ?_⟩ <;> (rw [e]; rfl)
  · intro a b c
    exact read_target_stats_reg_dump_counts k fw_features stats ev a b c hid
  · intro hlay hbuf
    have hc := hlay.count
    rw [read_target_stats_reg_dump k fw_features stats ev hid (by omega)]
    exact read_reg_dump_loop_returns k ev.data hlay.reg_id hlay.reg_val _ 0 stats
      (by rw [Nat.zero_add]; exact hbuf)

/-- C22 at a concrete input: the register dump of 3 pairs, with header counts
7, 8 and 9, on the record with all members zero. -/
theorem C22_register_dump_changes_registers_only_witness :
    ∃ st, ath10k_debug_read_target_stats wmi_small 0 target_stats_zero
        { ev_three_pairs with num_pdev_stats := 7, num_vdev_stats := 8, num_peer_stats := 9 }
        = .ok st ∧
      st.peers = 0 ∧ st.ch_noise_floor = 0 ∧ st.mac_filter_addr_l32 = 0xAABBCCDD := by
  obtain ⟨h1, h2, h3⟩ := C22_register_dump_changes_registers_only wmi_small 0
    target_stats_zero ev_three_pairs rfl
  obtain ⟨st, hst⟩ := h3 wmi_small_layout_ok (by decide)
  obtain ⟨_, hp, _, hn, _⟩ := h1 st hst
  refine ⟨st, (h2 7 8 9).trans hst, hp, hn, ?_⟩
  have e : ath10k_debug_read_target_stats wmi_small 0 target_stats_zero ev_three_pairs
      = .ok (with_reg_dump_fields target_stats_zero
          { target_stats_zero with mac_filter_addr_l32 := 0xAABBCCDD }) := by rfl
  rw [e] at hst
  simp only [Except.ok.injEq] at hst
  rw [← hst]
  rfl

/-- C28: for every statistics event that is not a register dump
(num_peer_stats being a 32-bit value): whenever
ath10k_debug_read_target_stats returns, peers is num_peer_stats modulo 256 if
num_peer_stats is not zero, and if it is zero peers and every peer_stat entry
are as before; and the function does return when the payload holds what the
header declares and num_peer_stats is at most TARGET_NUM_PEERS. -/
theorem C28_peers_is_count_mod_256 (k : wmi_consts) (fw_features : Nat)
    (stats : ath10k_target_stats) (ev : wmi_stats_event)
    (hid : ev.stats_id ≠ k.WMI_REQUEST_REGISTER_DUMP)
    (hn : ev.num_peer_stats < 2 ^ 32) :
    (∀ st, ath10k_debug_read_target_stats k fw_features stats ev = .ok st →
      (ev.num_peer_stats ≠ 0 → st.peers = ev.num_peer_stats % 256) ∧
      (ev.num_peer_stats = 0 → st.peers = stats.peers ∧ st.peer_stat = stats.peer_stat)) ∧
    (layout_ok k → ev.num_peer_stats ≤ k.TARGET_NUM_PEERS →
      ev.num_peer_stats < 2 ^ 31 →
      payload_needed k fw_features ev ≤ ev.data.length →
      ∃ st, ath10k_debug_read_target_stats k fw_features stats ev = .ok st) := by
  constructor
  · intro st h
    obtain ⟨h1, h2⟩ := read_target_stats_peers k fw_features stats st ev hid h
    have hz := le32_to_int_eq_zero ev.num_peer_stats hn
    constructor
    · intro h0
      rw [h1 (fun hc => h0 (hz.mp hc)), le32_to_int_mod_256 _ hn]
    · intro h0
      exact h2 (hz.mpr h0)
  · intro hlay hcap hn31 hbuf
    obtain ⟨st, h1, _, _⟩ :=
      read_target_stats_traced_returns k fw_features stats ev hid hlay hn31 hcap hbuf
    exact ⟨st, read_target_stats_of_traced_ok k fw_features stats ev st _ h1⟩

theorem wmi_256_peers_layout_ok : layout_ok wmi_256_peers := by
  refine ⟨by decide, by decide, by decide, ?_, ?_, by decide, by decide, by decide,
    by decide, by decide, by decide, by decide⟩
  · intro f
    cases f <;> decide
  · intro f hf
    cases f <;> first | decide | cases hf

/-- C28 at concrete inputs: 3 declared peer records give peers = 3, and with
256 entries in peer_stat, 256 declared peer records give peers = 0. -/
theorem C28_peers_is_count_mod_256_witness :
    (∃ st, ath10k_debug_read_target_stats wmi_small 2 target_stats_zero ev_pdev_vdev_peers
        = .ok st ∧ st.peers = 3) ∧
    (∃ st, ath10k_debug_read_target_stats wmi_256_peers 0 target_stats_zero
        (ev_peers 256 4096) = .ok st ∧ st.peers = 0) := by
  constructor
  · obtain ⟨h1, h2⟩ := C28_peers_is_count_mod_256 wmi_small 2 target_stats_zero
      ev_pdev_vdev_peers (by decide) (by decide)
    obtain ⟨st, hst⟩ := h2 wmi_small_layout_ok (by decide) (by decide)
      (by rw [ev_pdev_vdev_peers_length]; decide)
    exact ⟨st, hst, (h1 st hst).1 (by decide)⟩
  · obtain ⟨h1, h2⟩ := C28_peers_is_count_mod_256 wmi_256_peers 0 target_stats_zero
      (ev_peers 256 4096) (by decide) (by decide)
    have hl : (ev_peers 256 4096).data.length = 4096 := List.length_replicate _ _
    obtain ⟨st, hst⟩ := h2 wmi_256_peers_layout_ok (by decide) (by decide)
      (by rw [hl]; decide)
    exact ⟨st, hst, (h1 st hst).1 (by decide)⟩

theorem u8s_at_append_left (l x : List Nat) (off n : Nat) (h : off + n ≤ l.length) :
    u8s_at (l ++ x) off n = u8s_at l off n := by
  unfold u8s_at
  rw [List.drop_append_of_le_length (by omega),
    List.take_append_of_le_length (by rw [List.length_drop]; omega)]

theorem u8s_at_append_right (l x : List Nat) (off n : Nat) (h : l.length ≤ off) :
    u8s_at (l ++ x) off n = u8s_at x (off - l.length) n := by
  unfold u8s_at
  have e : off = l.length + (off - l.length) := by omega
  rw [e, ← List.drop_drop, List.drop_left]
  simp only [Nat.add_sub_cancel_left]

/-- A read before or after a middle part of the payload does not depend on
the bytes of that part. -/
theorem u8s_at_middle (pre v1 v2 post : List Nat) (off n : Nat)
    (hv : v1.length = v2.length)
    (h : off + n ≤ pre.length ∨ pre.length + v1.length ≤ off) :
    u8s_at (pre ++ v1 ++ post) off n = u8s_at (pre ++ v2 ++ post) off n := by
  rcases h with h | h
  · rw [List.append_assoc, List.append_assoc, u8s_at_append_left _ _ _ _ h,
      u8s_at_append_left _ _ _ _ h]
  · rw [u8s_at_append_right (pre ++ v1) post off n (by rw [List.length_append]; omega),
      u8s_at_append_right (pre ++ v2) post off n (by rw [List.length_append]; omega),
      List.length_append, List.length_append, hv]

theorem middle_length (pre v1 v2 post : List Nat) (hv : v1.length = v2.length) :
    (pre ++ v1 ++ post).length = (pre ++ v2 ++ post).length := by
  simp only [List.length_append, hv]

theorem rd32_middle (pre v1 v2 post : List Nat) (off : Nat)
    (hv : v1.length = v2.length)
    (h : off + 4 ≤ pre.length ∨ pre.length + v1.length ≤ off) :
    rd32 (pre ++ v1 ++ post) off = rd32 (pre ++ v2 ++ post) off := by
  unfold rd32 le32_at
  rw [u8s_at_middle pre v1 v2 post off 4 hv h, middle_length pre v1 v2 post hv]

theorem rd8s_middle (pre v1 v2 post : List Nat) (off n : Nat)
    (hv : v1.length = v2.length)
    (h : off + n ≤ pre.length ∨ pre.length + v1.length ≤ off) :
    rd8s (pre ++ v1 ++ post) off n = rd8s (pre ++ v2 ++ post) off n := by
  unfold rd8s
  rw [u8s_at_middle pre v1 v2 post off n hv h, middle_length pre v1 v2 post hv]

/-- The pdev block does not depend on the bytes after the pdev record. -/
theorem read_pdev_stats_middle (k : wmi_consts) (fw_features : Nat)
    (pre v1 v2 post : List Nat) (stats : ath10k_target_stats) (hlay : layout_ok k)
    (hv : v1.length = v2.length) (hpre : pdev_stride k fw_features ≤ pre.length) :
    read_pdev_stats k fw_features (pre ++ v1 ++ post) 0 stats
      = read_pdev_stats k fw_features (pre ++ v2 ++ post) 0 stats := by
  unfold pdev_stride at hpre
  unfold read_pdev_stats
  by_cases hx : test_bit ATH10K_FW_FEATURE_WMI_10X fw_features = true
  · rw [if_pos hx] at hpre
    have hps : ∀ f, rd32 (pre ++ v1 ++ post) (0 + k.pdev_off f)
        = rd32 (pre ++ v2 ++ post) (0 + k.pdev_off f) :=
      fun f => rd32_middle pre v1 v2 post _ hv
        (Or.inl (by have := hlay.pdev_10x f; omega))
    simp only [hps]
  · rw [if_neg hx] at hpre
    have hps : ∀ f, f.in_old = true → rd32 (pre ++ v1 ++ post) (0 + k.pdev_off f)
        = rd32 (pre ++ v2 ++ post) (0 + k.pdev_off f) :=
      fun f hf => rd32_middle pre v1 v2 post _ hv
        (Or.inl (by have := hlay.pdev_old f hf; omega))
    simp only [hps, wmi_pdev_field.in_old, hx, if_false, Bool.false_eq_true]

/-- An iteration of the peer loop at or after the end of the vdev records does
not depend on their bytes. -/
theorem read_peer_stat_middle (k : wmi_consts) (fw_features : Nat)
    (pre v1 v2 post : List Nat) (tmp : Nat) (s : ath10k_peer_stat)
    (hv : v1.length = v2.length) (ht : pre.length + v1.length ≤ tmp) :
    read_peer_stat k fw_features (pre ++ v1 ++ post) tmp s
      = read_peer_stat k fw_features (pre ++ v2 ++ post) tmp s := by
  unfold read_peer_stat
  rw [rd8s_middle pre v1 v2 post _ _ hv (Or.inr (by omega)),
    rd32_middle pre v1 v2 post (tmp + k.offsetof_peer_rssi) hv (Or.inr (by omega)),
    rd32_middle pre v1 v2 post (tmp + k.offsetof_peer_tx_rate) hv (Or.inr (by omega)),
    rd32_middle pre v1 v2 post (tmp + k.offsetof_peer_rx_rate) hv (Or.inr (by omega))]

theorem read_peer_stats_loop_middle (k : wmi_consts) (fw_features : Nat)
    (pre v1 v2 post : List Nat) (hv : v1.length = v2.length) :
    ∀ (n i tmp : Nat) (stats : ath10k_target_stats), pre.length + v1.length ≤ tmp →
      read_peer_stats_loop k fw_features (pre ++ v1 ++ post) n i tmp stats
        = read_peer_stats_loop k fw_features (pre ++ v2 ++ post) n i tmp stats := by
  intro n
  induction n with
  | zero => intro i tmp stats _; rfl
  | succ m ih =>
    intro i tmp stats ht
    unfold read_peer_stats_loop
    rw [read_peer_stat_middle k fw_features pre v1 v2 post tmp _ hv ht]
    simp only [ih _ _ _ (show pre.length + v1.length ≤ tmp + peer_stride k fw_features by
      omega)]

/-- A statistics event is decoded in the same way whatever the bytes of its
vdev records. -/
theorem read_target_stats_traced_middle (k : wmi_consts) (fw_features : Nat)
    (stats : ath10k_target_stats) (ev : wmi_stats_event) (pre v1 v2 post : List Nat)
    (hid : ev.stats_id ≠ k.WMI_REQUEST_REGISTER_DUMP) (hlay : layout_ok k)
    (hpre : pre.length = pdev_part k fw_features ev)
    (hv1 : v1.length = (le32_to_int ev.num_vdev_stats).toNat * k.sizeof_wmi_vdev_stats)
    (hv2 : v2.length = (le32_to_int ev.num_vdev_stats).toNat * k.sizeof_wmi_vdev_stats) :
    ath10k_debug_read_target_stats_traced k fw_features stats
        { ev with data := pre ++ v1 ++ post }
      = ath10k_debug_read_target_stats_traced k fw_features stats
        { ev with data := pre ++ v2 ++ post } := by
  have hv : v1.length = v2.length := by rw [hv1, hv2]
  have hblock : (if le32_to_int ev.num_pdev_stats ≠ 0 then
        read_pdev_stats k fw_features (pre ++ v1 ++ post) 0 stats else .ok stats)
      = (if le32_to_int ev.num_pdev_stats ≠ 0 then
        read_pdev_stats k fw_features (pre ++ v2 ++ post) 0 stats else .ok stats) := by
    by_cases hp : le32_to_int ev.num_pdev_stats = 0
    · rw [if_neg (not_not.mpr hp), if_neg (not_not.mpr hp)]
    · rw [if_pos hp, if_pos hp]
      unfold pdev_part at hpre
      rw [if_pos hp] at hpre
      exact read_pdev_stats_middle k fw_features pre v1 v2 post stats hlay hv
        (by omega)
  have hbase : pre.length + v1.length = peer_base k fw_features ev := by
    unfold peer_base
    rw [hpre, hv1]
  cases hpd : (if le32_to_int ev.num_pdev_stats ≠ 0 then
      read_pdev_stats k fw_features (pre ++ v1 ++ post) 0 stats else .ok stats) with
  | error e =>
    rw [read_target_stats_traced_pdev_error k fw_features stats
        { ev with data := pre ++ v1 ++ post } e hid hpd,
      read_target_stats_traced_pdev_error k fw_features stats
        { ev with data := pre ++ v2 ++ post } e hid (hblock ▸ hpd)]
  | ok stats1 =>
    rw [read_target_stats_traced_peers k fw_features stats stats1
        { ev with data := pre ++ v1 ++ post } hid hpd,
      read_target_stats_traced_peers k fw_features stats stats1
        { ev with data := pre ++ v2 ++ post } hid (hblock ▸ hpd)]
    simp only []
    have hb1 : peer_base k fw_features { ev with data := pre ++ v1 ++ post }
        = peer_base k fw_features ev := rfl
    have hb2 : peer_base k fw_features { ev with data := pre ++ v2 ++ post }
        = peer_base k fw_features ev := rfl
    rw [hb1, hb2, read_peer_stats_loop_middle k fw_features pre v1 v2 post hv _ 0
      (peer_base k fw_features ev) _ (by omega)]

/-- C23: for any two statistics events that are not register dumps, have the
same header (stats_id and counts), are decoded with the same feature flags
and differ at most in the bytes of their vdev records (the payloads are
pre ++ v1 ++ post and pre ++ v2 ++ post, with pre the pdev part and v1, v2 of
the size of num_vdev_stats vdev records), ath10k_debug_read_target_stats
applied to the same statistics record has the same outcome: the same
resulting record, or the same fault. -/
theorem C23_vdev_bytes_not_mapped (k : wmi_consts) (fw_features : Nat)
    (stats : ath10k_target_stats) (ev : wmi_stats_event) (pre v1 v2 post : List Nat)
    (hid : ev.stats_id ≠ k.WMI_REQUEST_REGISTER_DUMP) (hlay : layout_ok k)
    (hpre : pre.length = pdev_part k fw_features ev)
    (hv1 : v1.length = (le32_to_int ev.num_vdev_stats).toNat * k.sizeof_wmi_vdev_stats)
    (hv2 : v2.length = (le32_to_int ev.num_vdev_stats).toNat * k.sizeof_wmi_vdev_stats) :
    ath10k_debug_read_target_stats k fw_features stats
        { ev with data := pre ++ v1 ++ post }
      = ath10k_debug_read_target_stats k fw_features stats
        { ev with data := pre ++ v2 ++ post } := by
  unfold ath10k_debug_read_target_stats
  rw [read_target_stats_traced_middle k fw_features stats ev pre v1 v2 post hid hlay hpre
    hv1 hv2]

/-- C23 at a concrete input: no pdev record, one vdev record of 16 bytes, all
0 in one event and all 255 in the other, and one peer record; both events
give the same record, with the peer entry of the peer record. -/
theorem C23_vdev_bytes_not_mapped_witness :
    ath10k_debug_read_target_stats wmi_small 0 target_stats_zero (ev_vdev_bytes 0)
        = ath10k_debug_read_target_stats wmi_small 0 target_stats_zero (ev_vdev_bytes 255) ∧
      ∃ st, ath10k_debug_read_target_stats wmi_small 0 target_stats_zero (ev_vdev_bytes 255)
          = .ok st ∧ st.peers = 1 ∧ (st.peer_stat 0).peer_rssi = 7 ∧
        (st.peer_stat 0).peer_tx_rate = 8 :=
  ⟨C23_vdev_bytes_not_mapped wmi_small 0 target_stats_zero (ev_vdev_bytes 0) []
      (List.replicate 16 0) (List.replicate 16 255)
      [1, 2, 3, 4, 5, 6, 0, 0, 7, 0, 0, 0, 8, 0, 0, 0] (by decide) wmi_small_layout_ok
      (by decide) (by decide) (by decide),
    _, rfl, rfl, rfl, rfl⟩

/-! ## Facts and claims about the ct_special file -/

theorem ct_special_input_id (id val : Nat) (hid : id < 2 ^ 32) (hval : val < 2 ^ 32) :
    ct_special_input id val % 2 ^ 64 / 2 ^ 32 = id ∧ ct_special_input id val % 2 ^ 32 = val := by
  unfold ct_special_input
  omega

/-- A CCA write with a band above 2 is refused: -EINVAL, nothing stored,
nothing sent. -/
theorem write_ct_special_band_refused (k : ct_consts) (ov : eeprom_overrides)
    (thresh val count : Nat) (wmi_ret : Int) (hval : val < 2 ^ 32)
    (h3 : k.SET_SPECIAL_ID_NOISE_FLR_THRESH < 2 ^ 32)
    (hne : k.SET_SPECIAL_ID_NOISE_FLR_THRESH ≠ k.SET_SPECIAL_ID_THRESH62_EXT)
    (hb : val / 2 ^ 24 > 2) :
    ath10k_write_ct_special k ov thresh
        (some (ct_special_input k.SET_SPECIAL_ID_NOISE_FLR_THRESH val)) count wmi_ret
      = .ok { ret := ret_or_count (-(k.EINVAL : Int)) count, overrides := ov,
              sta_xretry_kickout_thresh := thresh, sent := none, kickout := false } := by
  obtain ⟨e1, e2⟩ := ct_special_input_id _ val h3 hval
  have hb2 : val / 2 ^ 24 % 2 ^ 8 > 2 := by omega
  unfold ath10k_write_ct_special
  simp only [e1, e2, if_neg hne, if_true, hb2, true_or]

theorem store_cca_returns (k : ct_consts) (ov : eeprom_overrides) (band type val : Nat)
    (hmin : k.CT_CCA_TYPE_MIN2 < MIN_CCA_PWR_COUNT) (hb : band < EEPROM_OVERRIDES_BANDS) :
    ∃ ov1, store_cca k ov band type val = .ok ov1 := by
  unfold store_cca store_band
  simp only [hb, if_true, true_and]
  by_cases h1 : type ≤ k.CT_CCA_TYPE_MIN2
  · rw [if_pos h1, if_neg (by omega)]
    exact ⟨_, rfl⟩
  · rw [if_neg h1]
    by_cases h2 : type = k.CT_CCA_TYPE_NOISE_FLOOR
    · rw [if_pos h2]
      exact ⟨_, rfl⟩
    · rw [if_neg h2]
      by_cases h3 : type = k.CT_CCA_TYPE_EN_MINCCAPWR
      · rw [if_pos h3]
        exact ⟨_, rfl⟩
      · rw [if_neg h3]
        exact ⟨_, rfl⟩

/-- A CCA write with band 0 or 1 makes no store outside `bands` and
`minCcaPwrCT`, when `CT_CCA_TYPE_MIN2` is an index of `minCcaPwrCT`. -/
theorem write_ct_special_band_stored (k : ct_consts) (ov : eeprom_overrides)
    (thresh val count : Nat) (wmi_ret : Int) (hval : val < 2 ^ 32)
    (h3 : k.SET_SPECIAL_ID_NOISE_FLR_THRESH < 2 ^ 32)
    (hne : k.SET_SPECIAL_ID_NOISE_FLR_THRESH ≠ k.SET_SPECIAL_ID_THRESH62_EXT)
    (hmin : k.CT_CCA_TYPE_MIN2 < MIN_CCA_PWR_COUNT)
    (hb : val / 2 ^ 24 < 2) :
    ∃ r, ath10k_write_ct_special k ov thresh
        (some (ct_special_input k.SET_SPECIAL_ID_NOISE_FLR_THRESH val)) count wmi_ret
      = .ok r := by
  obtain ⟨e1, e2⟩ := ct_special_input_id _ val h3 hval
  have hb2 : val / 2 ^ 24 % 2 ^ 8 < EEPROM_OVERRIDES_BANDS := by
    unfold EEPROM_OVERRIDES_BANDS
    omega
  obtain ⟨ov1, hov1⟩ := store_cca_returns k ov (val / 2 ^ 24 % 2 ^ 8) (val / 2 ^ 16 % 2 ^ 8)
    val hmin hb2
  unfold ath10k_write_ct_special
  simp only [e1, e2, if_neg hne, if_true, hov1]
  split <;> exact ⟨_, rfl⟩

/-- Once `max_txpower` differs from 0xFFFF, a write with the id
`SET_SPECIAL_ID_MAX_TXPOWER` is refused: -EPERM, nothing stored, nothing sent. -/
theorem write_ct_special_max_txpower_latched (k : ct_consts) (ov : eeprom_overrides)
    (thresh val count : Nat) (wmi_ret : Int) (hval : val < 2 ^ 32)
    (h6 : k.SET_SPECIAL_ID_MAX_TXPOWER < 2 ^ 32)
    (hn1 : k.SET_SPECIAL_ID_MAX_TXPOWER ≠ k.SET_SPECIAL_ID_THRESH62_EXT)
    (hn2 : k.SET_SPECIAL_ID_MAX_TXPOWER ≠ k.SET_SPECIAL_ID_NOISE_FLR_THRESH)
    (hn3 : k.SET_SPECIAL_ID_MAX_TXPOWER ≠ k.SET_SPECIAL_ID_IBSS_AMSDU_OK)
    (hset : ov.max_txpower ≠ 0xFFFF) :
    ath10k_write_ct_special k ov thresh
        (some (ct_special_input k.SET_SPECIAL_ID_MAX_TXPOWER val)) count wmi_ret
      = .ok { ret := ret_or_count (-(k.EPERM : Int)) count, overrides := ov,
              sta_xretry_kickout_thresh := thresh, sent := none, kickout := false } := by
  obtain ⟨e1, e2⟩ := ct_special_input_id _ val h6 hval
  unfold ath10k_write_ct_special
  simp only [e1, e2, if_neg hn1, if_neg hn2, if_neg hn3, if_true, if_neg hset]

/-- C24: the code diverges from the claim.  With the ids and CCA types of the
file text, a write with id 4 and band 2 (val = 0x02000005: band 2, type 0,
value 5) is not refused: the test is band > 2, so the function goes on to
store to bands[2].minCcaPwrCT[0], past the 2 entries of bands.  A write with
band 3 (val = 0x03000005) returns -EINVAL, stores nothing and sends nothing;
a write with band 1 (val = 0x01000005) stores 5 in bands[1].minCcaPwrCT[0] and
is sent to the firmware. -/
theorem C24_band_2_is_accepted (ov : eeprom_overrides) (thresh count : Nat)
    (wmi_ret : Int) :
    ath10k_write_ct_special ct_small ov thresh (some (ct_special_input 4 0x02000005))
        count wmi_ret = .error .store_past_bands ∧
    ath10k_write_ct_special ct_small ov thresh (some (ct_special_input 4 0x03000005))
        count wmi_ret
      = .ok { ret := ret_or_count (-22) count, overrides := ov,
              sta_xretry_kickout_thresh := thresh, sent := none, kickout := false } ∧
    ∃ r, ath10k_write_ct_special ct_small ov thresh (some (ct_special_input 4 0x01000005))
        count wmi_ret = .ok r ∧
      (r.overrides.bands 1).minCcaPwrCT 0 = 5 ∧ r.sent = some (4, 0x01000005) ∧
      r.ret = ret_or_count wmi_ret count :=
  ⟨rfl, rfl, _, rfl, rfl, rfl, rfl⟩

/-- C25: the code diverges from the claim.  Starting from max_txpower =
0xFFFF, the write with id 6 and the value 0xFFFF is accepted (it is sent to
the firmware and returns count when the firmware call returns 0) and stores
0xFFFF, the unset value; a later write with id 6 and the value 10 is then
accepted too, it does not return -EPERM and sets max_txpower to 10.  The same
happens after the value 0x1FFFF, which the 16-bit member holds as 0xFFFF. -/
theorem C25_max_txpower_set_twice (count : Nat) :
    (∃ r1 r2,
      ath10k_write_ct_special ct_small eeprom_overrides_unset 0
          (some (ct_special_input 6 0xFFFF)) count 0 = .ok r1 ∧
      r1.ret = count ∧ r1.sent = some (6, 0xFFFF) ∧ r1.overrides.max_txpower = 0xFFFF ∧
      ath10k_write_ct_special ct_small r1.overrides 0
          (some (ct_special_input 6 10)) count 0 = .ok r2 ∧
      r2.ret = count ∧ r2.sent = some (6, 10) ∧ r2.overrides.max_txpower = 10) ∧
    (∃ r1 r2,
      ath10k_write_ct_special ct_small eeprom_overrides_unset 0
          (some (ct_special_input 6 0x1FFFF)) count 0 = .ok r1 ∧
      r1.sent = some (6, 0x1FFFF) ∧ r1.overrides.max_txpower = 0xFFFF ∧
      ath10k_write_ct_special ct_small r1.overrides 0
          (some (ct_special_input 6 10)) count 0 = .ok r2 ∧
      r2.sent = some (6, 10) ∧ r2.overrides.max_txpower = 10) :=
  ⟨⟨_, _, rfl, rfl, rfl, rfl, rfl, rfl, rfl, rfl⟩, ⟨_, _, rfl, rfl, rfl, rfl, rfl, rfl⟩⟩

/-! ## Facts and claims about the ethtool statistics -/

end Ath10k
